import Mathlib

/-!
# csi-driver-zram: node staging state machine and zram device lifecycle

A shallow embedding of `pkg/zram` (nodeserver.go, zram_util.go, zram.go).

* Go `error` values are `Option GoError` (`none` is `nil`).
* Everything outside the package (the mount utilities, the filesystem, the
  zram control files) is a `Host`: a record of state-passing primitives over an
  arbitrary state type `σ`. Theorems quantify over every host and every state.
* Code that talks to the host runs in `Go σ`, which threads the host state and
  collects the list of host calls made, each with the answer it got (`Event`).
* What the Go toolchain decides in `strconv.Quote` (which characters above
  U+00FF are printable, the form of U+007F) is a parameter, `GoToolchain`.
-/

namespace Zram

/-! ## Go error values -/

/-- Classes of operating-system errors, as told apart by `os.IsNotExist`,
`os.IsExist` and `mount.IsCorruptedMnt`. -/
inductive ErrClass
  | notExist
  | exist
  | corruptedMnt
  | other
deriving DecidableEq, Repr

/-- Status codes of `google.golang.org/grpc/codes`. -/
inductive Code
  | OK
  | Canceled
  | Unknown
  | InvalidArgument
  | DeadlineExceeded
  | NotFound
  | AlreadyExists
  | PermissionDenied
  | ResourceExhausted
  | FailedPrecondition
  | Aborted
  | OutOfRange
  | Unimplemented
  | Internal
  | Unavailable
  | DataLoss
  | Unauthenticated
deriving DecidableEq, Repr

/-- Name of a status code, `codes.Code.String`. -/
def Code.String : Code → String
  | .OK => "OK"
  | .Canceled => "Canceled"
  | .Unknown => "Unknown"
  | .InvalidArgument => "InvalidArgument"
  | .DeadlineExceeded => "DeadlineExceeded"
  | .NotFound => "NotFound"
  | .AlreadyExists => "AlreadyExists"
  | .PermissionDenied => "PermissionDenied"
  | .ResourceExhausted => "ResourceExhausted"
  | .FailedPrecondition => "FailedPrecondition"
  | .Aborted => "Aborted"
  | .OutOfRange => "OutOfRange"
  | .Unimplemented => "Unimplemented"
  | .Internal => "Internal"
  | .Unavailable => "Unavailable"
  | .DataLoss => "DataLoss"
  | .Unauthenticated => "Unauthenticated"

/-- A single (non-composite) error value: an error handed back by the
operating system or the mount utilities (`sys`), one made with `fmt.Errorf`
(`errorf`), or one made with `status.Error` / `status.Errorf` (`status`). -/
inductive PlainError
  | sys (cls : ErrClass) (msg : String)
  | errorf (msg : String)
  | status (code : Code) (msg : String)
deriving DecidableEq, Repr

/-- A Go `error`: a single error, or a `*multierror.Error` with its flattened
list of parts. -/
inductive GoError
  | plain (e : PlainError)
  | multi (errs : List PlainError)
deriving DecidableEq, Repr

/-- Text of a single error, its `Error()` method. -/
def PlainError.Error : PlainError → String
  | .sys _ msg => msg
  | .errorf msg => msg
  | .status code msg => "rpc error: code = " ++ code.String ++ " desc = " ++ msg

/-- Text of a composite error, `multierror.ListFormatFunc`. -/
def ListFormatFunc (es : List PlainError) : String :=
  match es with
  | [e] => "1 error occurred:\n\t* " ++ e.Error ++ "\n\n"
  | _ =>
    toString es.length ++ " errors occurred:\n\t" ++
      String.intercalate "\n\t" (es.map fun e => "* " ++ e.Error) ++ "\n\n"

/-- Text of an error, its `Error()` method. -/
def GoError.Error : GoError → String
  | .plain e => e.Error
  | .multi es => ListFormatFunc es

/-- An error handed back by the operating system or the mount utilities. -/
@[reducible] def GoError.sys (cls : ErrClass) (msg : String) : GoError :=
  .plain (.sys cls msg)

/-- Result of `fmt.Errorf`. -/
@[reducible] def fmt.Errorf (msg : String) : GoError :=
  .plain (.errorf msg)

/-- Result of `status.Error` and `status.Errorf`. -/
@[reducible] def status.Error (code : Code) (msg : String) : GoError :=
  .plain (.status code msg)

/-- Status code carried by an error, when it is a status error. -/
def GoError.code? : GoError → Option Code
  | .plain (.status c _) => some c
  | _ => none

/-- Parts of an error as `multierror.Append` sees them. -/
def GoError.parts : GoError → List PlainError
  | .plain e => [e]
  | .multi es => es

/-- Composite of `err` and `e`, `multierror.Append(err, e)` with `err`
non-nil: the parts of `err` followed by those of `e` when `e` is non-nil. -/
def multierror.Append (err : GoError) (e : Option GoError) : GoError :=
  match e with
  | none => .multi err.parts
  | some e => .multi (err.parts ++ e.parts)

/-- Test of `os.IsNotExist`. -/
def os.IsNotExist : Option GoError → Bool
  | some (.plain (.sys .notExist _)) => true
  | _ => false

/-- Test of `os.IsExist`. -/
def os.IsExist : Option GoError → Bool
  | some (.plain (.sys .exist _)) => true
  | _ => false

/-- Test of `mount.IsCorruptedMnt`. -/
def mount.IsCorruptedMnt : Option GoError → Bool
  | some (.plain (.sys .corruptedMnt _)) => true
  | _ => false

/-- Rendering of an `error` argument by the `%v` verb. -/
def fmtV : Option GoError → String
  | none => "<nil>"
  | some e => e.Error

/-! ## Go standard library, the part the package uses -/

/-- Lower-case hexadecimal digit of a value below 16. -/
def hexDigit (n : Nat) : Char :=
  if n < 10 then Char.ofNat ('0'.toNat + n) else Char.ofNat ('a'.toNat + (n - 10))

/-- What `strconv` takes from the Go toolchain that builds the driver, which
the repository does not fix: `isPrint`, the tables of printable characters
above U+00FF (generated from the Unicode version of the toolchain, and read
only above U+00FF), and `delAsHex`, whether U+007F is quoted as `\x7f` (Go 1.19
and later) or as `\u007f` (before). -/
class GoToolchain where
  isPrint : Char → Bool
  delAsHex : Bool

/-- Model of `strconv.IsPrint`: the fast path for Latin-1 as in the Go source
(space to `~`, and `¡` to `ÿ` but for the soft hyphen), the tables above it. -/
def strconv.IsPrint [GoToolchain] (c : Char) : Bool :=
  if c.toNat ≤ 0xFF then
    if 0x20 ≤ c.toNat ∧ c.toNat ≤ 0x7E then true
    else if 0xA1 ≤ c.toNat ∧ c.toNat ≤ 0xFF then c.toNat != 0xAD
    else false
  else GoToolchain.isPrint c

/-- Escape of one character inside `strconv.Quote`: the quote and the
backslash are backslashed, a printable character is kept, and of the others
the named control characters get their letter, the remaining ASCII control
characters `\x` with two hexadecimal digits, the characters below U+10000 `\u`
with four, and the rest `\U` with eight. -/
def quoteChar [GoToolchain] (c : Char) : List Char :=
  if c = '"' then ['\\', '"']
  else if c = '\\' then ['\\', '\\']
  else if strconv.IsPrint c then [c]
  else if c.toNat = 7 then ['\\', 'a']
  else if c.toNat = 8 then ['\\', 'b']
  else if c.toNat = 12 then ['\\', 'f']
  else if c = '\n' then ['\\', 'n']
  else if c = '\r' then ['\\', 'r']
  else if c = '\t' then ['\\', 't']
  else if c.toNat = 11 then ['\\', 'v']
  else if c.toNat < 32 ∨ (c.toNat = 127 ∧ GoToolchain.delAsHex = true) then
    ['\\', 'x', hexDigit (c.toNat / 16), hexDigit (c.toNat % 16)]
  else if c.toNat < 0x10000 then
    ['\\', 'u', hexDigit (c.toNat / 4096 % 16), hexDigit (c.toNat / 256 % 16),
      hexDigit (c.toNat / 16 % 16), hexDigit (c.toNat % 16)]
  else
    ['\\', 'U', hexDigit (c.toNat / 268435456 % 16), hexDigit (c.toNat / 16777216 % 16),
      hexDigit (c.toNat / 1048576 % 16), hexDigit (c.toNat / 65536 % 16),
      hexDigit (c.toNat / 4096 % 16), hexDigit (c.toNat / 256 % 16),
      hexDigit (c.toNat / 16 % 16), hexDigit (c.toNat % 16)]

/-- Go-quoted form of a string of valid UTF-8, `strconv.Quote` and the `%q`
verb. -/
def strconv.Quote [GoToolchain] (s : String) : String :=
  "\"" ++ String.mk (s.toList.flatMap quoteChar) ++ "\""

/-- Decimal form of an integer, `strconv.Itoa`, `strconv.FormatInt(_, 10)` and
the `%d` verb. -/
def strconv.Itoa (n : Int) : String := toString n

/-- Decimal digit value of a character. -/
def digitVal (c : Char) : Option Nat :=
  if '0' ≤ c ∧ c ≤ '9' then some (c.toNat - '0'.toNat) else none

/-- Outcome of reading an unsigned 64-bit decimal number. -/
inductive UintParse
  | ok (n : Nat)
  | syntaxError
  | rangeError
deriving DecidableEq, Repr

/-- The digit loop of `strconv.ParseUint(_, 10, 64)`, left to right from the
value `acc` read so far: a character that is not a decimal digit is a syntax
error, a value that no longer fits 64 bits is a range error, whichever comes
first. -/
def parseUintLoop (acc : Nat) : List Char → UintParse
  | [] => .ok acc
  | c :: cs =>
    match digitVal c with
    | none => .syntaxError
    | some d => if 10 * acc + d ≥ 2 ^ 64 then .rangeError else parseUintLoop (10 * acc + d) cs

/-- Error value `*strconv.NumError` of function `fn` on input `s`. -/
def strconv.NumError [GoToolchain] (fn s why : String) : GoError :=
  GoError.sys .other ("strconv." ++ fn ++ ": parsing " ++ strconv.Quote s ++ ": " ++ why)

/-- Signed 64-bit decimal parse shared by `strconv.ParseInt(s, 10, 64)` and
`strconv.Atoi` (`int` is 64 bits wide): an optional sign followed by at least
one decimal digit, in the range of `int64`. On error the value is `0`
(syntax) or the nearest bound (range). -/
def parseInt64 [GoToolchain] (fn s : String) : Int × Option GoError :=
  let cs := s.toList
  let neg := cs.head? = some '-'
  let ds := if cs.head? = some '-' ∨ cs.head? = some '+' then cs.tail else cs
  if ds = [] then (0, some (strconv.NumError fn s "invalid syntax"))
  else
    match parseUintLoop 0 ds with
    | .syntaxError => (0, some (strconv.NumError fn s "invalid syntax"))
    | .rangeError =>
      if neg then (-(2 ^ 63), some (strconv.NumError fn s "value out of range"))
      else (2 ^ 63 - 1, some (strconv.NumError fn s "value out of range"))
    | .ok n =>
      if neg then
        if n > 2 ^ 63 then (-(2 ^ 63), some (strconv.NumError fn s "value out of range"))
        else (-(n : Int), none)
      else
        if n ≥ 2 ^ 63 then (2 ^ 63 - 1, some (strconv.NumError fn s "value out of range"))
        else ((n : Int), none)

/-- Model of `strconv.ParseInt(s, 10, 64)`. -/
def strconv.ParseInt [GoToolchain] (s : String) : Int × Option GoError := parseInt64 "ParseInt" s

/-- Model of `strconv.Atoi`. -/
def strconv.Atoi [GoToolchain] (s : String) : Int × Option GoError := parseInt64 "Atoi" s

/-- White space in the sense of `unicode.IsSpace`. -/
def isSpace (c : Char) : Bool :=
  c = '\t' || c = '\n' || c.toNat = 0x0B || c.toNat = 0x0C || c = '\r' || c = ' ' ||
  c.toNat = 0x85 || c.toNat = 0xA0 || c.toNat = 0x1680 ||
  (0x2000 ≤ c.toNat && c.toNat ≤ 0x200A) ||
  c.toNat = 0x2028 || c.toNat = 0x2029 || c.toNat = 0x202F || c.toNat = 0x205F ||
  c.toNat = 0x3000

/-- Model of `strings.TrimSpace`: leading and trailing white space removed. -/
def strings.TrimSpace (s : String) : String :=
  String.mk (((s.toList.dropWhile isSpace).reverse.dropWhile isSpace).reverse)

/-- Model of `strings.HasPrefix`. -/
def strings.HasPrefix (s pre : String) : Bool :=
  pre.toList.isPrefixOf s.toList

/-- Model of `strings.TrimPrefix`: `s` without the leading `pre`, or `s` itself
when it does not start with `pre`. -/
def strings.TrimPrefix (s pre : String) : String :=
  if strings.HasPrefix s pre then String.mk (s.toList.drop pre.length) else s

/-- Part of a path after its last slash. -/
def lastElement (cs : List Char) : List Char :=
  (cs.reverse.takeWhile fun c => c ≠ '/').reverse

/-- Model of `filepath.Base` on a slash-separated path: `"."` for the empty
path; otherwise trailing slashes are dropped and the last element is returned,
`"/"` when the path held only slashes. -/
def filepath.Base (path : String) : String :=
  if path = "" then "."
  else
    let stripped := (path.toList.reverse.dropWhile fun c => c = '/').reverse
    let base := lastElement stripped
    if base = [] then "/" else String.mk base

/-- Model of `filepath.Join(dir, name)` for a clean directory and a single
clean element, the only way the package calls it. -/
def filepath.Join (dir name : String) : String := dir ++ "/" ++ name

/-! ## The host: mount utilities, filesystem and zram control files -/

/-- One line of the mount table, `mount.MountPoint`. -/
structure MountPoint where
  Device : String
  Path : String
deriving DecidableEq, Repr

/-- The mount table, `[]mount.MountPoint`. -/
abbrev MountList : Type := List MountPoint

/-- One call made to the host, with the answer the host gave. File handles are
named by the path they were opened on; every file is opened write-only. -/
inductive Event
  | MkdirAll (path : String) (perm : Nat) (err : Option GoError)
  | ReadDir (path : String) (err : Option GoError)
  | Abs (path : String) (abs : String) (err : Option GoError)
  | EvalSymlinks (path : String) (resolved : String) (err : Option GoError)
  | PathExists (path : String) (found : Bool) (err : Option GoError)
  | ReadFile (path : String) (data : String) (err : Option GoError)
  | OpenFile (path : String) (err : Option GoError)
  | WriteString (path : String) (data : String) (err : Option GoError)
  | Close (path : String) (err : Option GoError)
  | Remove (path : String) (err : Option GoError)
  | List (mps : List MountPoint) (err : Option GoError)
  | IsLikelyNotMountPoint (path : String) (notMnt : Bool) (err : Option GoError)
  | Mount (source target fstype : String) (options : List String) (err : Option GoError)
  | Unmount (path : String) (err : Option GoError)
  | FormatAndMount (source target fstype : String) (options : List String)
      (err : Option GoError)
  | CleanupMountPoint (path : String) (err : Option GoError)
deriving DecidableEq, Repr

/-- The mount driver capability, `*mount.SafeFormatAndMount`, over host state
`σ`. `cleanupMountPoint path` is `mount.CleanupMountPoint(path, m, false)`. -/
structure Mounter (σ : Type) where
  list : σ → (List MountPoint × Option GoError) × σ
  isLikelyNotMountPoint : String → σ → (Bool × Option GoError) × σ
  mount : String → String → String → List String → σ → Option GoError × σ
  unmount : String → σ → Option GoError × σ
  formatAndMount : String → String → String → List String → σ → Option GoError × σ
  cleanupMountPoint : String → σ → Option GoError × σ

/-- The operating system under the driver, over host state `σ`: `GOOS` is
`runtime.GOOS`, `mountNew` is what `mount.New("")` with `exec.New()` gives, the
other fields are the `os`, `ioutil`, `filepath` and `mount` functions the
package calls. `readDir` keeps only the error of `ioutil.ReadDir`, the entries
being discarded by the caller. -/
structure Host (σ : Type) where
  GOOS : String
  mountNew : Mounter σ
  mkdirAll : String → Nat → σ → Option GoError × σ
  readDir : String → σ → Option GoError × σ
  abs : String → σ → (String × Option GoError) × σ
  evalSymlinks : String → σ → (String × Option GoError) × σ
  pathExists : String → σ → (Bool × Option GoError) × σ
  readFile : String → σ → (String × Option GoError) × σ
  openFile : String → σ → Option GoError × σ
  writeString : String → String → σ → Option GoError × σ
  close : String → σ → Option GoError × σ
  remove : String → σ → Option GoError × σ

/-- A computation against the host: from the host state to a result, the new
host state and the host calls made, oldest first. -/
def Go (σ : Type) (α : Type) : Type := σ → α × σ × List Event

instance instMonadGo (σ : Type) : Monad (Go σ) where
  pure a := fun s => (a, s, [])
  bind m f := fun s =>
    match m s with
    | (a, s1, t1) =>
      match f a s1 with
      | (b, s2, t2) => (b, s2, t1 ++ t2)

/-- One host call: ask the host, log the call with its answer. -/
def call {σ α : Type} (f : σ → α × σ) (ev : α → Event) : Go σ α := fun s =>
  match f s with
  | (a, s1) => (a, s1, [ev a])

/-- Result of a computation. -/
def Go.result {σ α : Type} (r : α × σ × List Event) : α := r.1

/-- Host state after a computation. -/
def Go.state {σ α : Type} (r : α × σ × List Event) : σ := r.2.1

/-- Host calls made by a computation. -/
def Go.events {σ α : Type} (r : α × σ × List Event) : List Event := r.2.2

section Primitives
variable {σ : Type}

def Mounter.IsLikelyNotMountPoint (m : Mounter σ) (file : String) :
    Go σ (Bool × Option GoError) :=
  call (m.isLikelyNotMountPoint file) fun r => .IsLikelyNotMountPoint file r.1 r.2

def Mounter.Mount (m : Mounter σ) (source target fstype : String) (options : List String) :
    Go σ (Option GoError) :=
  call (m.mount source target fstype options) (.Mount source target fstype options)

def Mounter.Unmount (m : Mounter σ) (target : String) : Go σ (Option GoError) :=
  call (m.unmount target) (.Unmount target)

def Mounter.FormatAndMount (m : Mounter σ) (source target fstype : String)
    (options : List String) : Go σ (Option GoError) :=
  call (m.formatAndMount source target fstype options)
    (.FormatAndMount source target fstype options)

def Mounter.List (m : Mounter σ) : Go σ (MountList × Option GoError) :=
  call m.list fun r => .List r.1 r.2

def mount.CleanupMountPoint (mountPath : String) (m : Mounter σ) : Go σ (Option GoError) :=
  call (m.cleanupMountPoint mountPath) (.CleanupMountPoint mountPath)

def os.MkdirAll (h : Host σ) (path : String) (perm : Nat) : Go σ (Option GoError) :=
  call (h.mkdirAll path perm) (.MkdirAll path perm)

def ioutil.ReadDir (h : Host σ) (dirname : String) : Go σ (Option GoError) :=
  call (h.readDir dirname) (.ReadDir dirname)

def filepath.Abs (h : Host σ) (path : String) : Go σ (String × Option GoError) :=
  call (h.abs path) fun r => .Abs path r.1 r.2

def filepath.EvalSymlinks (h : Host σ) (path : String) : Go σ (String × Option GoError) :=
  call (h.evalSymlinks path) fun r => .EvalSymlinks path r.1 r.2

def mount.PathExists (h : Host σ) (path : String) : Go σ (Bool × Option GoError) :=
  call (h.pathExists path) fun r => .PathExists path r.1 r.2

def ioutil.ReadFile (h : Host σ) (filename : String) : Go σ (String × Option GoError) :=
  call (h.readFile filename) fun r => .ReadFile filename r.1 r.2

def os.OpenFile (h : Host σ) (name : String) : Go σ (Option GoError) :=
  call (h.openFile name) (.OpenFile name)

def File.WriteString (h : Host σ) (fd : String) (data : String) : Go σ (Option GoError) :=
  call (h.writeString fd data) (.WriteString fd data)

def File.Close (h : Host σ) (fd : String) : Go σ (Option GoError) :=
  call (h.close fd) (.Close fd)

def os.Remove (h : Host σ) (name : String) : Go σ (Option GoError) :=
  call (h.remove name) (.Remove name)

end Primitives

/-! ## The per-volume lock table -/

/-- Modelled from the spec: the type `volumeLocks` of the package and its
methods `TryAcquire` and `Release`, whose file is not part of this
development. The lock table is the set of volume ids with an operation in
flight. -/
structure VolumeLocks where
  locks : Finset String
deriving DecidableEq

/-- Modelled from the spec: `newVolumeLocks`, the empty lock table. -/
def newVolumeLocks : VolumeLocks := { locks := ∅ }

/-- Modelled from the spec: try-only acquire. An id already held is refused
and the table is left as it is; a free id is inserted. -/
def VolumeLocks.TryAcquire (vl : VolumeLocks) (volumeID : String) : Bool × VolumeLocks :=
  if volumeID ∈ vl.locks then (false, vl)
  else (true, { locks := insert volumeID vl.locks })

/-- Modelled from the spec: release removes the id from the table. -/
def VolumeLocks.Release (vl : VolumeLocks) (volumeID : String) : VolumeLocks :=
  { locks := vl.locks.erase volumeID }

/-! ## zram_util.go -/

section ZramUtil
variable {σ : Type}

/-- Handle of one zram device, `ZRAMDevice`. -/
structure ZRAMDevice (σ : Type) where
  id : Int
  devPath : String
  sysPath : String
  mounter : Mounter σ

/-- Model of `NewZRAMDevice`: ask the kernel for a fresh device id. -/
def NewZRAMDevice [GoToolchain] (h : Host σ) : Go σ (Except GoError (ZRAMDevice σ)) := do
  let (data, err) ← ioutil.ReadFile h "/sys/class/zram-control/hot_add"
  if let some err := err then
    return .error err
  let (id, err) := strconv.Atoi (strings.TrimSpace data)
  if let some err := err then
    return .error (fmt.Errorf ("invalid device number: " ++ err.Error))
  return .ok {
    id := id
    devPath := "/dev/zram" ++ strconv.Itoa id
    sysPath := "/sys/block/zram" ++ strconv.Itoa id
    mounter := h.mountNew }

/-- Model of `NewZRAMDeviceFromId`. -/
def NewZRAMDeviceFromId (h : Host σ) (id : Int) : Except GoError (ZRAMDevice σ) :=
  .ok {
    id := id
    devPath := "/dev/zram" ++ strconv.Itoa id
    sysPath := "/sys/block/zram" ++ strconv.Itoa id
    mounter := h.mountNew }

/-- Model of `GetDeviceNameFromMountPath`: device of the first mount-table
entry at the (symlink-resolved) mount path, and how many entries have that
device. -/
def GetDeviceNameFromMountPath (h : Host σ) (mounter : Mounter σ) (mountPath : String) :
    Go σ (String × Int × Option GoError) := do
  let (mps, err) ← mounter.List
  if err.isSome then
    return ("", 0, err)
  -- first loop: the first entry whose Path is slTarget gives the device
  let (slTarget, err) ← filepath.EvalSymlinks h mountPath
  let slTarget := if err.isSome then mountPath else slTarget
  let device :=
    match mps.find? fun mp => mp.Path == slTarget with
    | some mp => mp.Device
    | none => ""
  -- second loop: count the entries with that device
  let refCount := mps.countP fun mp => mp.Device == device
  return (device, (refCount : Int), none)

/-- Model of `NewZRAMDeviceFromMountPath`. -/
def NewZRAMDeviceFromMountPath [GoToolchain] (h : Host σ) (mountPath : String) :
    Go σ (Except GoError (ZRAMDevice σ)) := do
  let mounter := h.mountNew
  let (dev, _, err) ← GetDeviceNameFromMountPath h mounter mountPath
  if let some err := err then
    return .error (fmt.Errorf ("faied to get device from mount path: " ++ err.Error))
  let devName := filepath.Base dev
  if !strings.HasPrefix devName "zram" then
    return .error (fmt.Errorf ("invalid device: " ++ dev))
  let (id, err) := strconv.Atoi (strings.TrimPrefix devName "zram")
  if let some err := err then
    return .error (fmt.Errorf ("invalid device: " ++ err.Error))
  return .ok {
    id := id
    devPath := "/dev/zram" ++ strconv.Itoa id
    sysPath := "/sys/block/zram" ++ strconv.Itoa id
    mounter := h.mountNew }

def ZRAMDevice.GetId (d : ZRAMDevice σ) : Int := d.id

def ZRAMDevice.GetDevPath (d : ZRAMDevice σ) : String := d.devPath

def ZRAMDevice.GetSysPath (d : ZRAMDevice σ) : String := d.sysPath

/-- Model of `ZRAMDevice.Remove`: write the id to the hot-remove control file. -/
def ZRAMDevice.Remove (h : Host σ) (d : ZRAMDevice σ) : Go σ (Option GoError) := do
  let err ← os.OpenFile h "/sys/class/zram-control/hot_remove"
  if err.isSome then
    return err
  let err ← File.WriteString h "/sys/class/zram-control/hot_remove" (strconv.Itoa d.id)
  if err.isSome then
    return err
  File.Close h "/sys/class/zram-control/hot_remove"

/-- Model of `ZRAMDevice.writeSysFile`. -/
def ZRAMDevice.writeSysFile (h : Host σ) (d : ZRAMDevice σ) (name data : String) :
    Go σ (Option GoError) := do
  let fileName := filepath.Join d.sysPath name
  let err ← os.OpenFile h fileName
  if err.isSome then
    return some (fmt.Errorf ("failed to open file: " ++ fmtV err))
  let err ← File.WriteString h fileName data
  if err.isSome then
    return some (fmt.Errorf ("failed to write file: " ++ fmtV err))
  File.Close h fileName

def ZRAMDevice.Reset (h : Host σ) (d : ZRAMDevice σ) : Go σ (Option GoError) :=
  d.writeSysFile h "reset" "1"

def ZRAMDevice.SetMaxCompStreams (h : Host σ) (d : ZRAMDevice σ) (maxCompStreams : Int) :
    Go σ (Option GoError) :=
  d.writeSysFile h "max_comp_streams" (strconv.Itoa maxCompStreams)

def ZRAMDevice.SetCompAlgorithm (h : Host σ) (d : ZRAMDevice σ) (compAlgorithm : String) :
    Go σ (Option GoError) :=
  d.writeSysFile h "comp_algorithm" compAlgorithm

def ZRAMDevice.SetDiskSize (h : Host σ) (d : ZRAMDevice σ) (diskSize : Int) :
    Go σ (Option GoError) :=
  d.writeSysFile h "disksize" (strconv.Itoa diskSize)

def ZRAMDevice.SetMemLimit (h : Host σ) (d : ZRAMDevice σ) (memLimit : Int) :
    Go σ (Option GoError) :=
  d.writeSysFile h "mem_limit" (strconv.Itoa memLimit)

/-- Model of `ZRAMDevice.RefCount`. -/
def ZRAMDevice.RefCount (d : ZRAMDevice σ) : Go σ (Int × Option GoError) := do
  let (mps, err) ← d.mounter.List
  if err.isSome then
    return (0, err)
  return (((mps.countP fun mp => mp.Device == d.devPath : Nat) : Int), none)

/-- The loop of `ZRAMDevice.UnmountAndCleanup` over the rest `mps` of the
mount table, `err` being the function's variable `err`. The test after each
cleanup is on `err`, as in the source, not on `mountErr`. -/
def ZRAMDevice.unmountLoop (d : ZRAMDevice σ) :
    List MountPoint → Option GoError → Go σ (Option GoError)
  | [], err => pure err
  | mp :: mps, err => do
    if mp.Device == d.devPath then
      let mountErr ← mount.CleanupMountPoint mp.Path d.mounter
      match err with
      | some e => d.unmountLoop mps (some (multierror.Append e mountErr))
      | none => d.unmountLoop mps err
    else
      d.unmountLoop mps err

/-- Model of `ZRAMDevice.UnmountAndCleanup`. -/
def ZRAMDevice.UnmountAndCleanup (d : ZRAMDevice σ) : Go σ (Option GoError) := do
  let (mps, err) ← d.mounter.List
  if err.isSome then
    return some (fmt.Errorf ("failed to list devices: " ++ fmtV err))
  d.unmountLoop mps err

/-- Model of `ZRAMDevice.FormatAndMount`. -/
def ZRAMDevice.FormatAndMount (h : Host σ) (d : ZRAMDevice σ) (mountPath fsType : String)
    (options : List String) : Go σ (Option GoError) := do
  let (notMnt, err) ← d.mounter.IsLikelyNotMountPoint mountPath
  if err.isSome && !os.IsNotExist err then
    return some (fmt.Errorf ("heuristic determination of mount point failed: " ++ fmtV err))
  if !notMnt then
    return none
  if let some err ← os.MkdirAll h mountPath 0o750 then
    return some err
  let err ← d.mounter.FormatAndMount d.devPath mountPath fsType options
  return err

end ZramUtil

/-! ## zram.go -/

def capacityField : String := "capacity"

/-- The driver, `Driver`, without its lock table, which is threaded through
the handlers as a value. `volumeOperationAlreadyExistsFmt` is the package
constant of that name applied to its one argument; the text of the constant is
declared in a file that is not part of this development and is left open. -/
structure Driver (σ : Type) where
  NodeID : String
  mounter : Mounter σ
  workingMountDir : String
  enableGetVolumeStats : Bool
  enableTopology : Bool
  volumeOperationAlreadyExistsFmt : String → String

/-- Model of `IsCorruptedDir`. -/
def IsCorruptedDir {σ : Type} (h : Host σ) (dir : String) : Go σ Bool := do
  let (_, pathErr) ← mount.PathExists h dir
  return pathErr.isSome && mount.IsCorruptedMnt pathErr

/-! ## Requests and replies -/

/-- Mount descriptor of a capability, `csi.VolumeCapability_MountVolume`. -/
structure MountVolume where
  FsType : String
  MountFlags : List String
deriving DecidableEq, Repr

/-- Block descriptor of a capability, `csi.VolumeCapability_BlockVolume`. -/
structure BlockVolume where
deriving DecidableEq, Repr

/-- The access type of a capability, a one-of whose member may hold a nil
descriptor. -/
inductive AccessType
  | Block (block : Option BlockVolume)
  | Mount (mount : Option MountVolume)
deriving DecidableEq, Repr

/-- A volume capability, `csi.VolumeCapability`; `none` is the unset one-of. -/
structure VolumeCapability where
  AccessType : Option AccessType
deriving DecidableEq, Repr

/-- Getter `GetMount`: the mount descriptor, nil when the access type is not
a mount. -/
def VolumeCapability.GetMount (c : VolumeCapability) : Option MountVolume :=
  match c.AccessType with
  | some (.Mount m) => m
  | _ => none

/-- Getter `GetBlock`: the block descriptor, nil when the access type is not
a block. -/
def VolumeCapability.GetBlock (c : VolumeCapability) : Option BlockVolume :=
  match c.AccessType with
  | some (.Block b) => b
  | _ => none

/-- Getter `GetMountFlags`, safe on a nil descriptor. -/
def MountVolume.GetMountFlags : Option MountVolume → List String
  | some m => m.MountFlags
  | none => []

/-- Request of `NodeStageVolume`. A nil capability is `none`; the volume
context is a list of key-value pairs read by key. -/
structure NodeStageVolumeRequest where
  VolumeId : String
  StagingTargetPath : String
  VolumeCapability : Option VolumeCapability
  VolumeContext : List (String × String)
deriving DecidableEq, Repr

/-- Request of `NodeUnstageVolume`. -/
structure NodeUnstageVolumeRequest where
  VolumeId : String
  StagingTargetPath : String
deriving DecidableEq, Repr

/-- How a handler call ends: with a response and a nil error, with a nil
response and an error, or in a run-time panic (nil pointer dereference). -/
inductive Outcome (ρ : Type)
  | ok (resp : ρ)
  | error (err : GoError)
  | panic
deriving DecidableEq, Repr

/-- Empty response of `NodeStageVolume`. -/
structure NodeStageVolumeResponse where
deriving DecidableEq, Repr

/-- Empty response of `NodeUnstageVolume`. -/
structure NodeUnstageVolumeResponse where
deriving DecidableEq, Repr

/-! ## nodeserver.go -/

section NodeServer
variable {σ : Type}

/-- Model of `makeDir`. -/
def makeDir (h : Host σ) (pathname : String) : Go σ (Option GoError) := do
  let err ← os.MkdirAll h pathname 0o755
  if err.isSome then
    if !os.IsExist err then
      return err
  return none

/-- Last block of `Driver.ensureMountPoint` (from `if !notMnt` to the end), for
the value `notMnt` has when the block is reached. The three variables named
`err` of the first branch are kept apart as in the source: the one of
`ReadDir`, the one scoped to the `if` around `Unmount`, and the one returned
after `notMnt = true`, which is the one of `ReadDir`. -/
def ensureMountPoint.finish (h : Host σ) (d : Driver σ) (target : String) (notMnt : Bool) :
    Go σ (Bool × Option GoError) := do
  if !notMnt then
    let err ← ioutil.ReadDir h target
    if err.isNone then
      return (!notMnt, none)
    if let some err ← d.mounter.Unmount target then
      return (!notMnt, some err)
    -- notMnt = true
    return (!true, err)
  if let some err ← makeDir h target then
    return (!notMnt, some err)
  return (false, none)

/-- Middle block of `Driver.ensureMountPoint` (the mount-table cross-check made
when `runtime.GOOS` is not `"windows"`), for the value `notMnt` has when the
block is reached, followed by the last block. The loop sets `notMnt` to false
at the first entry whose `Path` is `targetAbs`. -/
def ensureMountPoint.crossCheck (h : Host σ) (d : Driver σ) (target : String)
    (notMnt : Bool) : Go σ (Bool × Option GoError) := do
  if h.GOOS != "windows" then
    let (mountList, err) ← d.mounter.List
    if err.isSome then
      return (!notMnt, err)
    let (targetAbs, err) ← filepath.Abs h target
    if err.isSome then
      return (!notMnt, err)
    if mountList.any fun mountPoint => mountPoint.Path == targetAbs then
      ensureMountPoint.finish h d target false
    else
      ensureMountPoint.finish h d target notMnt
  else
    ensureMountPoint.finish h d target notMnt

/-- Model of `Driver.ensureMountPoint`: the point query and the corrupted
directory probe, followed by the middle and last blocks. -/
def ensureMountPoint (h : Host σ) (d : Driver σ) (target : String) :
    Go σ (Bool × Option GoError) := do
  let (notMnt, err) ← d.mounter.IsLikelyNotMountPoint target
  if err.isSome && !os.IsNotExist err then
    if ← IsCorruptedDir h target then
      -- notMnt = false
      ensureMountPoint.crossCheck h d target false
    else
      return (!notMnt, err)
  else
    ensureMountPoint.crossCheck h d target notMnt

/-- The part of `NodeStageVolume` that runs with the lock held, from the
`MkdirAll` of the staging path to the final return. The result of
`dev.FormatAndMount` is dropped, as in the source, and the test that follows it
reads the `err` left by `dev.SetDiskSize`. -/
def NodeStageVolume.locked [GoToolchain] (h : Host σ) (d : Driver σ) (volumeID targetPath : String)
    (context : List (String × String)) (fsType : String) (mountFlags : List String) :
    Go σ (Outcome NodeStageVolumeResponse) := do
  let err ← os.MkdirAll h targetPath 0o750
  if err.isSome then
    return .error (status.Error .Internal
      ("MkdirAll " ++ targetPath ++ " failed with error: " ++ fmtV err))
  let (isDirMounted, err) ← ensureMountPoint h d targetPath
  if err.isSome then
    return .error (status.Error .Internal
      ("Could not mount target " ++ targetPath ++ ": " ++ fmtV err))
  if isDirMounted then
    pure ()
  else
    match context.lookup capacityField with
    | none =>
      return .error (status.Error .Internal "Expected capacity field in volume context")
    | some strCapacity =>
    let (capacity, err) := strconv.ParseInt strCapacity
    if err.isSome then
      return .error (status.Error .Internal
        ("Invalid zram capacity found in volume context: " ++ strCapacity))
    match ← NewZRAMDevice h with
    | .error err =>
      return .error (status.Error .Internal ("Failed to create zram device: " ++ err.Error))
    | .ok dev =>
    let err ← dev.Reset h
    if err.isSome then
      let _ ← dev.Remove h
      return .error (status.Error .Internal
        ("Failed to reset zram device " ++ dev.devPath ++ ": " ++ fmtV err))
    let err ← dev.SetDiskSize h capacity
    if err.isSome then
      let _ ← dev.Remove h
      return .error (status.Error .Internal
        ("Failed to set zram device " ++ dev.devPath ++ " capacity " ++
          strconv.Itoa capacity ++ ": " ++ fmtV err))
    let _ ← dev.FormatAndMount h targetPath fsType mountFlags
    if err.isSome then
      let _ ← dev.Remove h
      return .error (status.Error .Internal
        ("Volume(" ++ volumeID ++ ") mount " ++ strconv.Quote dev.GetDevPath ++ " on " ++
          strconv.Quote targetPath ++ " failed with " ++ fmtV err))
  return .ok {}

/-- Model of `Driver.NodeStageVolume` on lock table `volumeLocks`; returns the
outcome and the lock table at the end of the call. Reading `FsType` through a
nil mount descriptor panics, before the lock is tried. The deferred `Release`
runs after the locked part, whatever its outcome. -/
def NodeStageVolume [GoToolchain] (h : Host σ) (d : Driver σ) (req : NodeStageVolumeRequest)
    (volumeLocks : VolumeLocks) : Go σ (Outcome NodeStageVolumeResponse × VolumeLocks) := do
  let volumeID := req.VolumeId
  if volumeID.length == 0 then
    return (.error (status.Error .InvalidArgument "Volume ID missing in request"), volumeLocks)
  match req.VolumeCapability with
  | none =>
    return (.error (status.Error .InvalidArgument "Volume capability not provided"),
      volumeLocks)
  | some volumeCapability =>
  let targetPath := req.StagingTargetPath
  if targetPath.length == 0 then
    return (.error (status.Error .InvalidArgument "Staging target not provided"), volumeLocks)
  let context := req.VolumeContext
  let mountFlags := MountVolume.GetMountFlags volumeCapability.GetMount
  match volumeCapability.GetMount with
  | none => return (.panic, volumeLocks)
  | some mount =>
  let fsType := mount.FsType
  let (acquired, volumeLocks) := volumeLocks.TryAcquire volumeID
  if !acquired then
    return (.error (status.Error .Aborted (d.volumeOperationAlreadyExistsFmt volumeID)),
      volumeLocks)
  let out ← NodeStageVolume.locked h d volumeID targetPath context fsType mountFlags
  return (out, volumeLocks.Release volumeID)

/-- The part of `NodeUnstageVolume` that runs with the lock held. -/
def NodeUnstageVolume.locked [GoToolchain] (h : Host σ) (stagingTargetPath : String) :
    Go σ (Outcome NodeUnstageVolumeResponse) := do
  match ← NewZRAMDeviceFromMountPath h stagingTargetPath with
  | .error err =>
    return .error (status.Error .Internal
      ("failed to get zram device mounted at staging target " ++ stagingTargetPath ++ ": " ++
        err.Error))
  | .ok dev =>
  let err ← dev.UnmountAndCleanup
  if err.isSome then
    return .error (status.Error .Internal
      ("failed to unmount staging target " ++ stagingTargetPath ++ ": " ++ fmtV err))
  let err ← dev.Remove h
  if err.isSome then
    return .error (status.Error .Internal
      ("failed to remove device " ++ dev.devPath ++ ": " ++ fmtV err))
  return .ok {}

/-- Model of `Driver.NodeUnstageVolume` on lock table `volumeLocks`; returns
the outcome and the lock table at the end of the call. -/
def NodeUnstageVolume [GoToolchain] (h : Host σ) (d : Driver σ) (req : NodeUnstageVolumeRequest)
    (volumeLocks : VolumeLocks) : Go σ (Outcome NodeUnstageVolumeResponse × VolumeLocks) := do
  let volumeID := req.VolumeId
  if volumeID.length == 0 then
    return (.error (status.Error .InvalidArgument "Volume ID missing in request"), volumeLocks)
  let stagingTargetPath := req.StagingTargetPath
  if stagingTargetPath.length == 0 then
    return (.error (status.Error .InvalidArgument "Staging target not provided"), volumeLocks)
  let (acquired, volumeLocks) := volumeLocks.TryAcquire volumeID
  if !acquired then
    return (.error (status.Error .Aborted (d.volumeOperationAlreadyExistsFmt volumeID)),
      volumeLocks)
  let out ← NodeUnstageVolume.locked h stagingTargetPath
  return (out, volumeLocks.Release volumeID)

end NodeServer

/-! ## A simulated node

A small concrete host on which the model is evaluated: a mount table, the
directories that exist, the zram devices that exist, and the faults injected. -/

/-- State of the simulated node. `stale` are the mount points whose link is
broken (listing them fails), `busy` the mount points that cannot be unmounted,
`formatFails` makes every format-and-mount fail. -/
structure Sim where
  mounts : List MountPoint
  dirs : List String
  devices : List Int
  nextId : Nat
  stale : List String
  busy : List String
  formatFails : Bool
deriving DecidableEq, Repr

def Sim.ENOENT (op path : String) : GoError :=
  GoError.sys .notExist (op ++ " " ++ path ++ ": no such file or directory")

def Sim.ENOTCONN (op path : String) : GoError :=
  GoError.sys .corruptedMnt (op ++ " " ++ path ++ ": transport endpoint is not connected")

def Sim.EBUSY (path : String) : GoError :=
  GoError.sys .other ("umount " ++ path ++ ": target is busy")

def Sim.mkfsFailed (source : String) : GoError :=
  GoError.sys .other ("format of disk " ++ source ++ " failed")

/-- Mount utilities of the simulated node. -/
def simMounter : Mounter Sim where
  list s := ((s.mounts, none), s)
  isLikelyNotMountPoint file s :=
    if file ∈ s.stale then ((true, some (Sim.ENOTCONN "stat" file)), s)
    else if file ∉ s.dirs then ((true, some (Sim.ENOENT "stat" file)), s)
    else ((!(s.mounts.any fun mp => mp.Path == file), none), s)
  mount source target _ _ s :=
    (none, { s with mounts := s.mounts ++ [{ Device := source, Path := target }] })
  unmount target s :=
    if target ∈ s.busy then (some (Sim.EBUSY target), s)
    else (none, { s with
      mounts := s.mounts.filter fun mp => mp.Path != target
      stale := s.stale.filter fun p => p != target })
  formatAndMount source target _ _ s :=
    if s.formatFails then (some (Sim.mkfsFailed source), s)
    else (none, { s with mounts := s.mounts ++ [{ Device := source, Path := target }] })
  cleanupMountPoint mountPath s :=
    if mountPath ∈ s.busy then (some (Sim.EBUSY mountPath), s)
    else (none, { s with
      mounts := s.mounts.filter fun mp => mp.Path != mountPath
      dirs := s.dirs.filter fun p => p != mountPath })

/-- Operating system of the simulated node. Reading the hot-add control file
creates the next device; writing an id to the hot-remove file removes it. -/
def simHost : Host Sim where
  GOOS := "linux"
  mountNew := simMounter
  mkdirAll path _ s := (none, if path ∈ s.dirs then s else { s with dirs := s.dirs ++ [path] })
  readDir dirname s :=
    if dirname ∈ s.stale then (some (Sim.ENOTCONN "open" dirname), s)
    else if dirname ∉ s.dirs then (some (Sim.ENOENT "open" dirname), s)
    else (none, s)
  abs path s := ((path, none), s)
  evalSymlinks path s := ((path, none), s)
  pathExists path s :=
    if path ∈ s.stale then ((false, some (Sim.ENOTCONN "stat" path)), s)
    else ((decide (path ∈ s.dirs), none), s)
  readFile filename s :=
    if filename = "/sys/class/zram-control/hot_add" then
      ((toString s.nextId ++ "\n", none),
        { s with devices := s.devices ++ [(s.nextId : Int)], nextId := s.nextId + 1 })
    else (("", some (Sim.ENOENT "open" filename)), s)
  openFile _ s := (none, s)
  writeString fd data s :=
    if fd = "/sys/class/zram-control/hot_remove" then
      (none, { s with devices := s.devices.filter fun i => strconv.Itoa i != data })
    else (none, s)
  close _ s := (none, s)
  remove name s := (none, { s with dirs := s.dirs.filter fun p => p != name })

/-- Driver on the simulated node. -/
def simDriver : Driver Sim where
  NodeID := "node-1"
  mounter := simMounter
  workingMountDir := "/tmp"
  enableGetVolumeStats := false
  enableTopology := false
  volumeOperationAlreadyExistsFmt volumeID :=
    "An operation with the given Volume ID " ++ volumeID ++ " already exists"

/-- A node with nothing mounted, no device and no fault. -/
def Sim.fresh : Sim where
  mounts := []
  dirs := []
  devices := []
  nextId := 0
  stale := []
  busy := []
  formatFails := false

/-- A stage request for `/mnt/x` with an ext4 mount capability and a capacity
of one mebibyte. -/
def stageReq : NodeStageVolumeRequest where
  VolumeId := "a#b#"
  StagingTargetPath := "/mnt/x"
  VolumeCapability := some { AccessType := some (.Mount (some { FsType := "ext4", MountFlags := [] })) }
  VolumeContext := [("capacity", "1048576")]

/-- The matching unstage request. -/
def unstageReq : NodeUnstageVolumeRequest where
  VolumeId := "a#b#"
  StagingTargetPath := "/mnt/x"

/-- The handle of device 0 of the simulated node. -/
def simDevice0 : ZRAMDevice Sim where
  id := 0
  devPath := "/dev/zram0"
  sysPath := "/sys/block/zram0"
  mounter := simMounter

/-- A fresh node on which every format-and-mount fails. -/
def Sim.formatBroken : Sim := { Sim.fresh with formatFails := true }

/-- The format-broken node as `NodeStageVolume` on `stageReq` finds it when it
comes to format and mount: `/mnt/x` exists, device 0 is allocated and sized. -/
def Sim.formatBrokenSized : Sim :=
  { Sim.formatBroken with dirs := ["/mnt/x"], devices := [0], nextId := 1 }

/-- The node after a successful stage of `stageReq`: device 0 mounted at
`/mnt/x`. -/
def Sim.staged : Sim where
  mounts := [{ Device := "/dev/zram0", Path := "/mnt/x" }]
  dirs := ["/mnt/x"]
  devices := [0]
  nextId := 1
  stale := []
  busy := []
  formatFails := false

/-- The staged node with `/mnt/x` busy, so that it cannot be unmounted. -/
def Sim.stagedBusy : Sim := { Sim.staged with busy := ["/mnt/x"] }

/-- The staged node with the mount link of `/mnt/x` broken. -/
def Sim.stagedStale : Sim := { Sim.staged with stale := ["/mnt/x"] }

/-- The staged node with the mount link of `/mnt/x` broken and `/mnt/x` busy. -/
def Sim.stagedStaleBusy : Sim := { Sim.staged with stale := ["/mnt/x"], busy := ["/mnt/x"] }

/-- The lock table in which the volume of `stageReq` is held. -/
def heldLocks : VolumeLocks := (newVolumeLocks.TryAcquire "a#b#").2

/-- The stage request `stageReq` with a block capability in place of the mount
capability. -/
def blockStageReq : NodeStageVolumeRequest :=
  { stageReq with VolumeCapability := some { AccessType := some (.Block (some {})) } }

/-- Host calls that allocate, configure or release a device, or format or
mount one: reads and writes of control files, `Mount` and `FormatAndMount`. -/
def Event.provisions : Event → Bool
  | .ReadFile _ _ _ => true
  | .OpenFile _ _ => true
  | .WriteString _ _ _ => true
  | .Close _ _ => true
  | .Mount _ _ _ _ _ => true
  | .FormatAndMount _ _ _ _ _ => true
  | _ => false

/-- Host calls that change the filesystem or the mount table outside the
device control files: directory creation and removal, unmount and cleanup. -/
def Event.unmountsOrCreates : Event → Bool
  | .MkdirAll _ _ _ => true
  | .Remove _ _ => true
  | .Unmount _ _ => true
  | .CleanupMountPoint _ _ => true
  | _ => false

/-! ## Functions of the repository outside the three files -/

/-- What `fs.Info` reports about a path, in the order of its results. -/
structure FsInfo where
  available : Int
  capacity : Int
  usage : Int
  inodes : Int
  inodesFree : Int
  inodesUsed : Int
deriving DecidableEq, Repr

/-- Modelled from the spec: the source files of `preparePublishPath(path, m)`,
`Unmount(m, target, extensiveMountPointCheck)` and `fs.Info(path)` are missing,
and the spec does not say what they do, so each is left open: an arbitrary
state-passing function on the host state that may fail. `lstat` is `os.Lstat`.
The host calls these functions make themselves are not logged. -/
structure Helpers (σ : Type) where
  lstat : String → σ → Option GoError × σ
  preparePublishPath : String → Mounter σ → σ → Option GoError × σ
  Unmount : Mounter σ → String → Bool → σ → Option GoError × σ
  fsInfo : String → σ → (FsInfo × Option GoError) × σ

/-- A call that leaves no entry in the log. -/
def quiet {σ α : Type} (f : σ → α × σ) : Go σ α := fun s =>
  match f s with
  | (a, s1) => (a, s1, [])

/-! ## controllerserver.go -/

section ControllerServer
variable {σ : Type}

def TopologyKeyNode : String := "topology.hostpath.csi/node"

/-- The loop of `isValidVolumeCapabilities`. -/
def isValidVolumeCapabilities.loop : List VolumeCapability → Option GoError
  | [] => none
  | c :: volCaps =>
    if c.GetBlock.isSome then some (fmt.Errorf "block volume capability not supported")
    else isValidVolumeCapabilities.loop volCaps

/-- Model of `isValidVolumeCapabilities`. A nil entry of the Go slice answers
every getter with nil, as does an entry with an unset access type, which stands
for it here. -/
def isValidVolumeCapabilities (volCaps : List VolumeCapability) : Option GoError :=
  if volCaps.length == 0 then some (fmt.Errorf "volume capabilities missing in request")
  else isValidVolumeCapabilities.loop volCaps

/-- Capacity range of a request, `csi.CapacityRange`. -/
structure CapacityRange where
  RequiredBytes : Int
  LimitBytes : Int
deriving DecidableEq, Repr

/-- Getter `GetRequiredBytes`, safe on a nil range. -/
def CapacityRange.GetRequiredBytes : Option CapacityRange → Int
  | some r => r.RequiredBytes
  | none => 0

/-- Request of `CreateVolume`. A nil parameter map is `none`. -/
structure CreateVolumeRequest where
  Name : String
  VolumeCapabilities : List VolumeCapability
  CapacityRange : Option CapacityRange
  Parameters : Option (List (String × String))
deriving DecidableEq, Repr

/-- A topology, `csi.Topology`. -/
structure Topology where
  Segments : List (String × String)
deriving DecidableEq, Repr

/-- A volume descriptor, `csi.Volume`. -/
structure Volume where
  CapacityBytes : Int
  VolumeId : String
  VolumeContext : List (String × String)
  AccessibleTopology : List Topology
deriving DecidableEq, Repr

/-- Response of `CreateVolume`. -/
structure CreateVolumeResponse where
  volume : Volume
deriving DecidableEq, Repr

/-- Assignment `m[key] = value` on a map kept as a list of pairs read by key. -/
def mapSet (m : List (String × String)) (key value : String) : List (String × String) :=
  (key, value) :: m.filter fun kv => kv.1 != key

/-- Model of `Driver.CreateVolume`. -/
def CreateVolume (d : Driver σ) (req : CreateVolumeRequest) : Outcome CreateVolumeResponse :=
  let name := req.Name
  if name.length == 0 then
    .error (status.Error .InvalidArgument "CreateVolume name must be provided")
  else
    let volumeCapabilities := req.VolumeCapabilities
    match isValidVolumeCapabilities volumeCapabilities with
    | some err => .error (status.Error .InvalidArgument err.Error)
    | none =>
      let reqCapacity := CapacityRange.GetRequiredBytes req.CapacityRange
      let parameters :=
        match req.Parameters with
        | none => []
        | some parameters => parameters
      let parameters := mapSet parameters capacityField (strconv.Itoa reqCapacity)
      let topologies : List Topology :=
        if d.enableTopology then [{ Segments := [(TopologyKeyNode, d.NodeID)] }] else []
      .ok { volume := {
        CapacityBytes := 0
        VolumeId := name
        VolumeContext := parameters
        AccessibleTopology := topologies } }

/-- Request of `DeleteVolume`. -/
structure DeleteVolumeRequest where
  VolumeId : String
deriving DecidableEq, Repr

/-- Response of a handler that answers with an empty message, and response
type of the handlers that never build a response. -/
structure EmptyResponse where
deriving DecidableEq, Repr

/-- Model of `Driver.DeleteVolume`. -/
def DeleteVolume (req : DeleteVolumeRequest) : Outcome EmptyResponse :=
  let name := req.VolumeId
  if name = "" then .error (status.Error .InvalidArgument "volume id is empty")
  else .ok {}

/-- Request of the handlers that do not read their request. -/
structure UnreadRequest where
  VolumeId : String
  Name : String
deriving DecidableEq, Repr

/-- Model of `Driver.ControllerGetVolume`. -/
def ControllerGetVolume (_ : UnreadRequest) : Outcome EmptyResponse :=
  .error (status.Error .Unimplemented "")

/-- Model of `Driver.ControllerPublishVolume`. -/
def ControllerPublishVolume (_ : UnreadRequest) : Outcome EmptyResponse :=
  .error (status.Error .Unimplemented "")

/-- Model of `Driver.ControllerUnpublishVolume`. -/
def ControllerUnpublishVolume (_ : UnreadRequest) : Outcome EmptyResponse :=
  .error (status.Error .Unimplemented "")

/-- Model of `Driver.ControllerGetCapabilities`; `Cap` is the field of that
name of the embedded `csicommon.CSIDriver`. -/
def ControllerGetCapabilities {κ : Type} (Cap : List κ) (_ : UnreadRequest) :
    Outcome (List κ) :=
  .ok Cap

/-- Request of `ValidateVolumeCapabilities`. -/
structure ValidateVolumeCapabilitiesRequest where
  VolumeId : String
  VolumeCapabilities : List VolumeCapability
deriving DecidableEq, Repr

/-- Response of `ValidateVolumeCapabilities`: the confirmed capabilities and
the message. -/
structure ValidateVolumeCapabilitiesResponse where
  Confirmed : List VolumeCapability
  Message : String
deriving DecidableEq, Repr

/-- Model of `Driver.ValidateVolumeCapabilities`. -/
def ValidateVolumeCapabilities (req : ValidateVolumeCapabilitiesRequest) :
    Outcome ValidateVolumeCapabilitiesResponse :=
  if req.VolumeId.length == 0 then
    .error (status.Error .InvalidArgument "Volume ID missing in request")
  else
    match isValidVolumeCapabilities req.VolumeCapabilities with
    | some err => .error (status.Error .InvalidArgument err.Error)
    | none => .ok { Confirmed := req.VolumeCapabilities, Message := "" }

/-- Model of `Driver.GetCapacity`. -/
def GetCapacity (_ : UnreadRequest) : Outcome EmptyResponse :=
  .error (status.Error .Unimplemented "")

/-- Model of `Driver.ListVolumes`. -/
def ListVolumes (_ : UnreadRequest) : Outcome EmptyResponse :=
  .error (status.Error .Unimplemented "")

/-- Model of `Driver.ControllerExpandVolume`. -/
def ControllerExpandVolume (_ : UnreadRequest) : Outcome EmptyResponse :=
  .error (status.Error .Unimplemented "")

/-- Model of `Driver.CreateSnapshot`. -/
def CreateSnapshot (_ : UnreadRequest) : Outcome EmptyResponse :=
  .error (status.Error .Unimplemented "")

/-- Model of `Driver.DeleteSnapshot`. -/
def DeleteSnapshot (_ : UnreadRequest) : Outcome EmptyResponse :=
  .error (status.Error .Unimplemented "")

/-- Model of `Driver.ListSnapshots`. -/
def ListSnapshots (_ : UnreadRequest) : Outcome EmptyResponse :=
  .error (status.Error .Unimplemented "")

end ControllerServer

/-! ## nodeserver.go: publish, unpublish and the query handlers -/

section NodeServerPublish
variable {σ : Type}

/-- Request of `NodePublishVolume`. A nil capability is `none`. -/
structure NodePublishVolumeRequest where
  VolumeId : String
  StagingTargetPath : String
  TargetPath : String
  VolumeCapability : Option VolumeCapability
  Readonly : Bool
deriving DecidableEq, Repr

/-- Empty response of `NodePublishVolume`. -/
structure NodePublishVolumeResponse where
deriving DecidableEq, Repr

/-- Model of `Driver.NodePublishVolume`. The error of `preparePublishPath` is
wrapped with `fmt.Errorf`, the others with `status.Errorf`, as in the source. -/
def NodePublishVolume [GoToolchain] (h : Host σ) (x : Helpers σ) (d : Driver σ)
    (req : NodePublishVolumeRequest) : Go σ (Outcome NodePublishVolumeResponse) := do
  if req.VolumeCapability.isNone then
    return .error (status.Error .InvalidArgument "Volume capability missing in request")
  if req.VolumeId.length == 0 then
    return .error (status.Error .InvalidArgument "Volume ID missing in request")
  let target := req.TargetPath
  if target.length == 0 then
    return .error (status.Error .InvalidArgument "Target path not provided")
  let source := req.StagingTargetPath
  if source.length == 0 then
    return .error (status.Error .InvalidArgument "Staging target not provided")
  let mountOptions := if req.Readonly then ["bind"] ++ ["ro"] else ["bind"]
  let (mnt, err) ← ensureMountPoint h d target
  if err.isSome then
    return .error (status.Error .Internal
      ("Could not mount target " ++ strconv.Quote target ++ ": " ++ fmtV err))
  if mnt then
    return .ok {}
  let err ← quiet (x.preparePublishPath target d.mounter)
  if err.isSome then
    return .error (fmt.Errorf
      ("prepare publish failed for " ++ target ++ " with error: " ++ fmtV err))
  if let some err ← d.mounter.Mount source target "" mountOptions then
    if let some removeErr ← os.Remove h target then
      return .error (status.Error .Internal
        ("Could not remove mount target " ++ strconv.Quote target ++ ": " ++ removeErr.Error))
    return .error (status.Error .Internal
      ("Could not mount " ++ strconv.Quote source ++ " at " ++ strconv.Quote target ++ ": " ++
        err.Error))
  return .ok {}

/-- Request of `NodeUnpublishVolume`. -/
structure NodeUnpublishVolumeRequest where
  VolumeId : String
  TargetPath : String
deriving DecidableEq, Repr

/-- Model of `Driver.NodeUnpublishVolume`. -/
def NodeUnpublishVolume [GoToolchain] (x : Helpers σ) (d : Driver σ) (req : NodeUnpublishVolumeRequest) :
    Go σ (Outcome EmptyResponse) := do
  if req.VolumeId.length == 0 then
    return .error (status.Error .InvalidArgument "Volume ID missing in request")
  let targetPath := req.TargetPath
  if targetPath.length == 0 then
    return .error (status.Error .InvalidArgument "Target path missing in request")
  let err ← quiet (x.Unmount d.mounter targetPath true)
  if err.isSome then
    return .error (status.Error .Internal
      ("failed to unmount target " ++ strconv.Quote targetPath ++ ": " ++ fmtV err))
  return .ok {}

/-- Model of `Driver.NodeGetCapabilities`; `NSCap` is the field of that name of
the embedded `csicommon.CSIDriver`. -/
def NodeGetCapabilities {κ : Type} (NSCap : List κ) (_ : UnreadRequest) : Outcome (List κ) :=
  .ok NSCap

/-- Response of `NodeGetInfo`; a nil topology is `none`. -/
structure NodeGetInfoResponse where
  NodeId : String
  AccessibleTopology : Option Topology
deriving DecidableEq, Repr

/-- Model of `Driver.NodeGetInfo`. -/
def NodeGetInfo (d : Driver σ) (_ : UnreadRequest) : Outcome NodeGetInfoResponse :=
  .ok {
    NodeId := d.NodeID
    AccessibleTopology :=
      if d.enableTopology then some { Segments := [(TopologyKeyNode, d.NodeID)] } else none }

/-- Request of `NodeGetVolumeStats`. -/
structure NodeGetVolumeStatsRequest where
  VolumeId : String
  VolumePath : String
deriving DecidableEq, Repr

/-- Unit of a usage entry. -/
inductive VolumeUsage_Unit
  | BYTES
  | INODES
deriving DecidableEq, Repr

/-- One usage entry of the response of `NodeGetVolumeStats`. -/
structure VolumeUsage where
  Unit : VolumeUsage_Unit
  Available : Int
  Total : Int
  Used : Int
deriving DecidableEq, Repr

/-- Response of `NodeGetVolumeStats`. -/
structure NodeGetVolumeStatsResponse where
  Usage : List VolumeUsage
deriving DecidableEq, Repr

/-- Model of `Driver.NodeGetVolumeStats`. -/
def NodeGetVolumeStats (x : Helpers σ) (req : NodeGetVolumeStatsRequest) :
    Go σ (Outcome NodeGetVolumeStatsResponse) := do
  if req.VolumeId.length == 0 then
    return .error (status.Error .InvalidArgument "NodeGetVolumeStats volume ID was empty")
  if req.VolumePath.length == 0 then
    return .error (status.Error .InvalidArgument "NodeGetVolumeStats volume path was empty")
  let err ← quiet (x.lstat req.VolumePath)
  if err.isSome then
    if os.IsNotExist err then
      return .error (status.Error .NotFound ("path " ++ req.VolumePath ++ " does not exist"))
    return .error (status.Error .Internal
      ("failed to stat path " ++ req.VolumePath ++ ": " ++ fmtV err))
  let (info, err) ← quiet (x.fsInfo req.VolumePath)
  if err.isSome then
    return .error (status.Error .Internal
      ("failed to statfs path " ++ req.VolumePath ++ ": " ++ fmtV err))
  return .ok { Usage := [
    { Unit := .BYTES, Available := info.available, Total := info.capacity, Used := info.usage },
    { Unit := .INODES, Available := info.inodesFree, Total := info.inodes,
      Used := info.inodesUsed }] }

/-- Model of `Driver.NodeExpandVolume`. -/
def NodeExpandVolume (_ : UnreadRequest) : Outcome EmptyResponse :=
  .error (status.Error .Unimplemented "")

end NodeServerPublish

/-! ## The error taxonomy and the device naming convention, as the spec words them -/

/-- The five status codes of the taxonomy. -/
def taxonomy : List Code :=
  [.InvalidArgument, .Aborted, .Internal, .NotFound, .Unimplemented]

/-- An error that is a status error whose code is in the taxonomy. -/
def GoError.inTaxonomy (e : GoError) : Bool :=
  match e.code? with
  | some c => decide (c ∈ taxonomy)
  | none => false

/-- A call that did not end with an error outside the taxonomy: every error it
returns is a status error with a code of the taxonomy. -/
def Outcome.conforms {ρ : Type} : Outcome ρ → Bool
  | .error e => e.inTaxonomy
  | _ => true

/-- A decimal integer numeral: an optional sign followed by at least one
decimal digit. -/
def isDecimalInteger (t : String) : Bool :=
  let cs := t.toList
  let ds := if cs.head? = some '-' ∨ cs.head? = some '+' then cs.tail else cs
  !ds.isEmpty && ds.all fun c => (digitVal c).isSome

/-! ## More of the simulated node -/

def Sim.EPERM (op path : String) : GoError :=
  GoError.sys .other (op ++ " " ++ path ++ ": operation not permitted")

/-- Modelled from the spec: the source files of `preparePublishPath`, `Unmount`
and `fs.Info` are missing. On the simulated node `preparePublishPath` does
nothing, `Unmount` is the cleanup of the mount utilities, `fs.Info` reports an
empty filesystem; `lstat` finds the directories that exist. -/
def simHelpers : Helpers Sim where
  lstat path s := (if path ∈ s.dirs then none else some (Sim.ENOENT "lstat" path), s)
  preparePublishPath _ _ s := (none, s)
  Unmount m target _ s := m.cleanupMountPoint target s
  fsInfo _ s := ((⟨0, 0, 0, 0, 0, 0⟩, none), s)

/-- Modelled from the spec: the source file of `preparePublishPath` is missing;
here it fails on every path. -/
def simHelpersPrepareFails : Helpers Sim :=
  { simHelpers with
    preparePublishPath := fun path _ s => (some (Sim.EPERM "remove" path), s) }

/-- Mount utilities of the simulated node on which every mount fails. -/
def simMounterMountFails : Mounter Sim :=
  { simMounter with
    mount := fun source _ _ _ s => (some (Sim.EPERM "mount" source), s) }

/-- Driver on the simulated node whose every mount fails. -/
def simDriverMountFails : Driver Sim := { simDriver with mounter := simMounterMountFails }

/-- Operating system of the simulated node on which no directory can be
removed. -/
def simHostRemoveFails : Host Sim :=
  { simHost with remove := fun name s => (some (Sim.EPERM "remove" name), s) }

/-- A publish request of the staged volume at `/pod/x`. -/
def publishReq : NodePublishVolumeRequest where
  VolumeId := "a#b#"
  StagingTargetPath := "/mnt/x"
  TargetPath := "/pod/x"
  VolumeCapability := some { AccessType := some (.Mount (some { FsType := "ext4", MountFlags := [] })) }
  Readonly := false

/-- The staged node after `publishReq`: `/mnt/x` bind-mounted at `/pod/x`. -/
def Sim.published : Sim :=
  { Sim.staged with
    mounts := [{ Device := "/dev/zram0", Path := "/mnt/x" }, { Device := "/mnt/x", Path := "/pod/x" }]
    dirs := ["/mnt/x", "/pod/x"] }

/-- The stage request `stageReq` with an empty volume context. -/
def stageReqNoCapacity : NodeStageVolumeRequest := { stageReq with VolumeContext := [] }

/-- A node on which a disk partition, not a zram device, is mounted at
`/mnt/x`. -/
def Sim.foreign : Sim :=
  { Sim.fresh with mounts := [{ Device := "/dev/sda1", Path := "/mnt/x" }], dirs := ["/mnt/x"] }

/-- A capability of block type. -/
def blockCapability : VolumeCapability := { AccessType := some (.Block (some {})) }

/-- A capability of mount type. -/
def mountCapability : VolumeCapability :=
  { AccessType := some (.Mount (some { FsType := "ext4", MountFlags := [] })) }

/-- A `ValidateVolumeCapabilities` request with a block capability. -/
def validateBlockReq : ValidateVolumeCapabilitiesRequest where
  VolumeId := "a#b#"
  VolumeCapabilities := [mountCapability, blockCapability]

/-- A `CreateVolume` request with a block capability. -/
def createBlockReq : CreateVolumeRequest where
  Name := "pv1"
  VolumeCapabilities := [blockCapability]
  CapacityRange := some { RequiredBytes := 1048576, LimitBytes := 0 }
  Parameters := none

/-! ## zram.go: substitution in a template -/

/-- Left-to-right replacement of the non-overlapping occurrences of the
non-empty `old` by `new`; `skip` characters, the rest of an occurrence just
replaced, are dropped first. -/
def strings.replaceFrom (old new : List Char) : Nat → List Char → List Char
  | _, [] => []
  | skip + 1, _ :: cs => strings.replaceFrom old new skip cs
  | 0, c :: cs =>
    if old.isPrefixOf (c :: cs) then new ++ strings.replaceFrom old new (old.length - 1) cs
    else c :: strings.replaceFrom old new 0 cs

/-- Model of `strings.ReplaceAll` on strings of valid UTF-8: `s` itself when
`old` and `new` are equal, `new` before every character and at the end when
`old` is empty, and otherwise every non-overlapping occurrence of `old`, found
from the left, replaced by `new`. -/
def strings.ReplaceAll (s old new : String) : String :=
  if old = new then s
  else if old = "" then String.mk (new.toList ++ s.toList.flatMap fun c => c :: new.toList)
  else String.mk (strings.replaceFrom old.toList new.toList 0 s.toList)

/-- Model of `replaceWithMap`. The map is given as the list of its entries in
the order in which the `range` loop visits them, an order Go leaves open. -/
def replaceWithMap (str : String) : List (String × String) → String
  | [] => str
  | (k, v) :: m =>
    if k != "" then replaceWithMap (strings.ReplaceAll str k v) m
    else replaceWithMap str m

/-! ## The volume id codec -/

/-- Parts of a list of characters between the occurrences of `sep`, as
`strings.Split` cuts a string at a one-character separator. -/
def splitChars (sep : Char) : List Char → List (List Char)
  | [] => [[]]
  | c :: cs =>
    if c = sep then [] :: splitChars sep cs
    else
      match splitChars sep cs with
      | part :: parts => (c :: part) :: parts
      | [] => [[c]]

/-- Model of `strings.Split(s, sep)` for a separator of one character. -/
def strings.Split (s : String) (sep : Char) : List String :=
  (splitChars sep s.toList).map String.mk

/-- Model of `strings.Join`. -/
def strings.Join : List String → String → String
  | [], _ => ""
  | [a], _ => a
  | a :: b :: rest, sep => a ++ sep ++ strings.Join (b :: rest) sep

/-- Modelled from the spec: the type `zramVolume` of a decoded volume id is
missing from the source files; its three fields are those the tests read. -/
structure zramVolume where
  source : String
  subDir : String
  uuid : String
deriving DecidableEq, Repr

/-- Modelled from the spec: `getVolumeIDFromZramVol` is missing from the source
files. After spec section 4.1: the leading slashes of `source` are stripped and
`source`, `subDir`, `uuid` are joined with `#`. -/
def getVolumeIDFromZramVol (vol : zramVolume) : String :=
  strings.Join
    [String.mk (vol.source.toList.dropWhile fun c => c = '/'), vol.subDir, vol.uuid] "#"

/-- Modelled from the spec: `getZramVolFromID` is missing from the source
files. After spec section 4.1: the id is split on `#`; fewer than two parts is
a format error; with two parts the second is `subDir` and `uuid` is empty; with
three or more the last is `uuid` and the middle parts, rejoined with `#`, are
`subDir`; `source` is the first part prefixed with `//`. A first part that
already begins with `//` is kept as it is, which is what `TestGetZramVolFromID`
expects of such an id. -/
def getZramVolFromID [GoToolchain] (id : String) : Except GoError zramVolume :=
  match strings.Split id '#' with
  | [] => .error (fmt.Errorf ("could not split " ++ strconv.Quote id))
  | [_] => .error (fmt.Errorf ("could not split " ++ strconv.Quote id))
  | first :: second :: rest =>
    let source := if strings.HasPrefix first "//" then first else "//" ++ first
    match rest.getLast? with
    | none => .ok { source := source, subDir := second, uuid := "" }
    | some last =>
      .ok { source := source, subDir := strings.Join (second :: rest.dropLast) "#", uuid := last }

/-! ## Further states and requests of the simulated node -/

/-- A node whose mount table has device 0 at `/mnt/x` while the directory
`/mnt/x` does not exist. -/
def Sim.mountedNoDir : Sim := { Sim.staged with dirs := [] }

/-- A node on which a device named `zram+05` of another directory is mounted
at `/mnt/x`. -/
def Sim.lenientName : Sim :=
  { Sim.fresh with mounts := [{ Device := "/tmp/zram+05", Path := "/mnt/x" }], dirs := ["/mnt/x"] }

/-- A node on which device 0 is mounted at `/mnt/x` and at `/mnt/z`, a disk
partition at `/mnt/y` between them, and `/mnt/x` cannot be unmounted. -/
def Sim.twiceMounted : Sim :=
  { Sim.staged with
    mounts := [{ Device := "/dev/zram0", Path := "/mnt/x" },
      { Device := "/dev/sda1", Path := "/mnt/y" }, { Device := "/dev/zram0", Path := "/mnt/z" }]
    dirs := ["/mnt/x", "/mnt/y", "/mnt/z"]
    busy := ["/mnt/x"] }

/-- The stage request `stageReq` with a capability whose access type is unset. -/
def unsetStageReq : NodeStageVolumeRequest :=
  { stageReq with VolumeCapability := some { AccessType := none } }

/-- A `CreateVolume` request for one mebibyte whose parameters already hold a
capacity. -/
def createReq : CreateVolumeRequest where
  Name := "pv1"
  VolumeCapabilities := [mountCapability]
  CapacityRange := some { RequiredBytes := 1048576, LimitBytes := 0 }
  Parameters := some [("source", "//srv/share"), ("capacity", "7")]

/-- The stage request `stageReq` with the volume context that `CreateVolume`
returns for `createReq`. -/
def stageReqCreated : NodeStageVolumeRequest :=
  { stageReq with VolumeContext := [("capacity", "1048576"), ("source", "//srv/share")] }

/-- The fresh node once the staging directory `/mnt/x` is made. -/
def Sim.dirMade : Sim := { Sim.fresh with dirs := ["/mnt/x"] }

/-- The fresh node once `/mnt/x` is made and device 0 is allocated. -/
def Sim.allocated : Sim := { Sim.fresh with dirs := ["/mnt/x"], devices := [0], nextId := 1 }

/-- Mount utilities of the simulated node whose point query does not look at
the mount table: it answers not-a-mount for every directory that exists, as
`IsLikelyNotMountPoint` does for a bind mount within one filesystem. -/
def simMounterBlind : Mounter Sim :=
  { simMounter with
    isLikelyNotMountPoint := fun file s =>
      if file ∈ s.stale then ((true, some (Sim.ENOTCONN "stat" file)), s)
      else if file ∉ s.dirs then ((true, some (Sim.ENOENT "stat" file)), s)
      else ((true, none), s) }

/-- Driver on the simulated node with the point query that misses bind
mounts. -/
def simDriverBlind : Driver Sim := { simDriver with mounter := simMounterBlind }

/-- Whether `b` can begin at offset `i` of `a` in some text: from that offset
on the two agree as far as both go. -/
def strings.fitsAt (a b : List Char) (i : Nat) : Bool :=
  (a.drop i).isPrefixOf b || b.isPrefixOf (a.drop i)

/-- Whether two texts overlap: one can begin at an offset of the other, that
is, a non-empty end of one is a beginning of the other or one lies inside the
other; the empty text lies inside every non-empty one. -/
def strings.overlap (a b : String) : Bool :=
  ((List.range a.length).any fun i => strings.fitsAt a.toList b.toList i) ||
    ((List.range b.length).any fun i => strings.fitsAt b.toList a.toList i)

/-! ## The toolchain of the simulated node -/

/-- Toolchain that builds the driver of the simulated node: a Go of version
1.19 or later in which every character above U+00FF counts as printable. The
paths and ids of the simulated node are ASCII, so that the tables are never
read there. -/
instance simToolchain : GoToolchain where
  isPrint _ := true
  delAsHex := true

/-! ## Running host computations -/

section Run
variable {σ : Type}

theorem Go.pure_apply {α : Type} (a : α) (s : σ) : (pure a : Go σ α) s = (a, s, []) := rfl

theorem Go.bind_apply {α β : Type} (m : Go σ α) (f : α → Go σ β) (s : σ) :
    (m >>= f) s =
      match m s with
      | (a, s1, t1) =>
        match f a s1 with
        | (b, s2, t2) => (b, s2, t1 ++ t2) := rfl

theorem Go.ite_apply {α : Type} (c : Prop) [Decidable c] (m1 m2 : Go σ α) (s : σ) :
    (if c then m1 else m2) s = if c then m1 s else m2 s := by
  split <;> rfl

theorem call_apply {α : Type} (f : σ → α × σ) (ev : α → Event) (s : σ) :
    call f ev s = ((f s).1, (f s).2, [ev (f s).1]) := rfl

end Run

/-! ## The lock table -/

theorem VolumeLocks.tryAcquire_held (vl : VolumeLocks) (id : String) (hheld : id ∈ vl.locks) :
    vl.TryAcquire id = (false, vl) := by
  simp [VolumeLocks.TryAcquire, hheld]

theorem VolumeLocks.tryAcquire_free (vl : VolumeLocks) (id : String) (hfree : id ∉ vl.locks) :
    (vl.TryAcquire id).1 = true := by
  simp [VolumeLocks.TryAcquire, hfree]

theorem VolumeLocks.release_tryAcquire (vl : VolumeLocks) (id : String)
    (hfree : id ∉ vl.locks) : ((vl.TryAcquire id).2.Release id).locks = vl.locks := by
  simp [VolumeLocks.TryAcquire, VolumeLocks.Release, hfree]

/-! ## Stage and unstage: outcomes on the simulated node -/

/-- C1, evaluated: on a node where format-and-mount fails, `NodeStageVolume`
gets as far as `ZRAMDevice.FormatAndMount`, which returns an error, and still
answers with success; no call touches the hot-remove control file, device 0
stays allocated and nothing is mounted. -/
theorem NodeStageVolume_formatAndMount_error_dropped :
    Go.result (simDevice0.FormatAndMount simHost "/mnt/x" "ext4" [] Sim.formatBrokenSized) =
        some (Sim.mkfsFailed "/dev/zram0") ∧
      Go.result (NodeStageVolume simHost simDriver stageReq newVolumeLocks Sim.formatBroken) =
        (Outcome.ok {}, newVolumeLocks) ∧
      Go.events (NodeStageVolume simHost simDriver stageReq newVolumeLocks Sim.formatBroken) =
        [Event.MkdirAll "/mnt/x" 0o750 none,
          Event.IsLikelyNotMountPoint "/mnt/x" true none,
          Event.List [] none,
          Event.Abs "/mnt/x" "/mnt/x" none,
          Event.MkdirAll "/mnt/x" 0o755 none,
          Event.ReadFile "/sys/class/zram-control/hot_add" "0\n" none,
          Event.OpenFile "/sys/block/zram0/reset" none,
          Event.WriteString "/sys/block/zram0/reset" "1" none,
          Event.Close "/sys/block/zram0/reset" none,
          Event.OpenFile "/sys/block/zram0/disksize" none,
          Event.WriteString "/sys/block/zram0/disksize" "1048576" none,
          Event.Close "/sys/block/zram0/disksize" none,
          Event.IsLikelyNotMountPoint "/mnt/x" true none,
          Event.MkdirAll "/mnt/x" 0o750 none,
          Event.FormatAndMount "/dev/zram0" "/mnt/x" "ext4" []
            (some (Sim.mkfsFailed "/dev/zram0"))] ∧
      (Go.state (NodeStageVolume simHost simDriver stageReq newVolumeLocks
        Sim.formatBroken)).devices = [0] ∧
      (Go.state (NodeStageVolume simHost simDriver stageReq newVolumeLocks
        Sim.formatBroken)).mounts = [] := by
  decide

/-- The loop of `UnmountAndCleanup` started with a nil `err` ends with a nil
`err`, whatever the cleanups answer. -/
theorem ZRAMDevice.unmountLoop_nil {σ : Type} (d : ZRAMDevice σ) (mps : List MountPoint) :
    ∀ s : σ, Go.result (d.unmountLoop mps none s) = none := by
  induction mps with
  | nil => intro s; rfl
  | cons mp mps ih =>
    intro s
    unfold ZRAMDevice.unmountLoop
    by_cases hdev : (mp.Device == d.devPath) = true
    · simp only [hdev, if_true, Go.bind_apply, Go.result]
      exact ih _
    · simp only [hdev, Bool.false_eq_true, if_false]
      exact ih s

/-- Whenever the mount table lists without error, `UnmountAndCleanup` returns
nil, whatever the cleanups answer. -/
theorem ZRAMDevice.UnmountAndCleanup_nil_of_list {σ : Type} (d : ZRAMDevice σ) (s : σ)
    (hlist : (d.mounter.list s).1.2 = none) :
    Go.result (d.UnmountAndCleanup s) = none := by
  unfold ZRAMDevice.UnmountAndCleanup
  simp only [Go.bind_apply, Mounter.List, call_apply, hlist, Option.isSome_none,
    Bool.false_eq_true, if_false, Go.result]
  exact ZRAMDevice.unmountLoop_nil d _ _

/-- C2, evaluated: device 0 is mounted at `/mnt/x`, the mount table lists, the
cleanup of `/mnt/x` fails, and `UnmountAndCleanup` returns nil. -/
theorem UnmountAndCleanup_cleanup_error_dropped :
    Go.events (simDevice0.UnmountAndCleanup Sim.stagedBusy) =
        [Event.List [{ Device := "/dev/zram0", Path := "/mnt/x" }] none,
          Event.CleanupMountPoint "/mnt/x" (some (Sim.EBUSY "/mnt/x"))] ∧
      Go.result (simDevice0.UnmountAndCleanup Sim.stagedBusy) = none := by
  decide

/-- C3, evaluated: the unmount of `/mnt/x` fails, yet `NodeUnstageVolume`
goes on to write the device id to the hot-remove control file and answers with
success; the device is gone while `/mnt/x` is still in the mount table. -/
theorem NodeUnstageVolume_removes_after_failed_unmount :
    Go.result (NodeUnstageVolume simHost simDriver unstageReq newVolumeLocks Sim.stagedBusy) =
        (Outcome.ok {}, newVolumeLocks) ∧
      Go.events (NodeUnstageVolume simHost simDriver unstageReq newVolumeLocks
          Sim.stagedBusy) =
        [Event.List [{ Device := "/dev/zram0", Path := "/mnt/x" }] none,
          Event.EvalSymlinks "/mnt/x" "/mnt/x" none,
          Event.List [{ Device := "/dev/zram0", Path := "/mnt/x" }] none,
          Event.CleanupMountPoint "/mnt/x" (some (Sim.EBUSY "/mnt/x")),
          Event.OpenFile "/sys/class/zram-control/hot_remove" none,
          Event.WriteString "/sys/class/zram-control/hot_remove" "0" none,
          Event.Close "/sys/class/zram-control/hot_remove" none] ∧
      (Go.state (NodeUnstageVolume simHost simDriver unstageReq newVolumeLocks
        Sim.stagedBusy)).devices = [] ∧
      (Go.state (NodeUnstageVolume simHost simDriver unstageReq newVolumeLocks
        Sim.stagedBusy)).mounts = [{ Device := "/dev/zram0", Path := "/mnt/x" }] := by
  decide

/-! ## The lock table across a call -/

section Locks
variable {σ : Type}

theorem String.length_ne_zero_of_ne_empty (x : String) (hx : x ≠ "") :
    (x.length == 0) = false := by
  have hlen : x.length ≠ 0 := by
    intro h0
    apply hx
    have hdata : x.data = [] := List.length_eq_zero.mp h0
    exact String.ext hdata
  simpa using hlen

/-- C4: for every host, driver, request, lock table and host state, the set of
volume ids held when `NodeStageVolume` returns is the set held when it was
called, and so for `NodeUnstageVolume`, whatever the outcome. -/
theorem lock_table_unchanged_by_stage_and_unstage [GoToolchain] (h : Host σ) (d : Driver σ)
    (sreq : NodeStageVolumeRequest) (ureq : NodeUnstageVolumeRequest) (vl : VolumeLocks)
    (s : σ) :
    (Go.result (NodeStageVolume h d sreq vl s)).2.locks = vl.locks ∧
      (Go.result (NodeUnstageVolume h d ureq vl s)).2.locks = vl.locks := by
  constructor
  · unfold NodeStageVolume Go.result
    by_cases hheld : sreq.VolumeId ∈ vl.locks
    · simp only [VolumeLocks.tryAcquire_held vl _ hheld]
      repeat (first | rfl | split | simp only [Go.bind_apply, Go.pure_apply, Go.ite_apply])
    · have hacq := VolumeLocks.tryAcquire_free vl _ hheld
      have hrel := VolumeLocks.release_tryAcquire vl _ hheld
      simp only [hacq]
      repeat (first | rfl | split | simp only [Go.bind_apply, Go.pure_apply, Go.ite_apply])
      all_goals simp_all [Go.bind_apply, Go.pure_apply]
  · unfold NodeUnstageVolume Go.result
    by_cases hheld : ureq.VolumeId ∈ vl.locks
    · simp only [VolumeLocks.tryAcquire_held vl _ hheld]
      repeat (first | rfl | split | simp only [Go.bind_apply, Go.pure_apply, Go.ite_apply])
    · have hacq := VolumeLocks.tryAcquire_free vl _ hheld
      have hrel := VolumeLocks.release_tryAcquire vl _ hheld
      simp only [hacq]
      repeat (first | rfl | split | simp only [Go.bind_apply, Go.pure_apply, Go.ite_apply])
      all_goals simp_all [Go.bind_apply, Go.pure_apply]

/-- A stage request with its required fields and a mount descriptor, on a
volume id that is held, is refused with `Aborted`: no host call is made, the
host state and the lock table are as before. -/
theorem NodeStageVolume_aborted_of_held [GoToolchain] (h : Host σ) (d : Driver σ)
    (req : NodeStageVolumeRequest) (cap : VolumeCapability) (m : MountVolume)
    (vl : VolumeLocks) (s : σ)
    (hid : req.VolumeId ≠ "") (hcap : req.VolumeCapability = some cap)
    (hmount : cap.GetMount = some m) (hpath : req.StagingTargetPath ≠ "")
    (hheld : req.VolumeId ∈ vl.locks) :
    NodeStageVolume h d req vl s =
      ((Outcome.error (status.Error .Aborted (d.volumeOperationAlreadyExistsFmt req.VolumeId)),
        vl), s, []) := by
  unfold NodeStageVolume
  simp [String.length_ne_zero_of_ne_empty _ hid, String.length_ne_zero_of_ne_empty _ hpath,
    hcap, hmount, VolumeLocks.tryAcquire_held vl _ hheld, Go.bind_apply, Go.pure_apply]

/-- An unstage request with its required fields, on a volume id that is held,
is refused with `Aborted`: no host call is made, the host state and the lock
table are as before. -/
theorem NodeUnstageVolume_aborted_of_held [GoToolchain] (h : Host σ) (d : Driver σ)
    (req : NodeUnstageVolumeRequest) (vl : VolumeLocks) (s : σ)
    (hid : req.VolumeId ≠ "") (hpath : req.StagingTargetPath ≠ "")
    (hheld : req.VolumeId ∈ vl.locks) :
    NodeUnstageVolume h d req vl s =
      ((Outcome.error (status.Error .Aborted (d.volumeOperationAlreadyExistsFmt req.VolumeId)),
        vl), s, []) := by
  unfold NodeUnstageVolume
  simp [String.length_ne_zero_of_ne_empty _ hid, String.length_ne_zero_of_ne_empty _ hpath,
    VolumeLocks.tryAcquire_held vl _ hheld, Go.bind_apply, Go.pure_apply]

/-- C5, evaluated: a stage request with all three required fields, whose
capability is of block type, on a volume id that is held, ends in a panic
(the read of `FsType` through the nil mount descriptor comes before the lock
is tried) instead of an `Aborted` error. -/
theorem NodeStageVolume_held_block_capability_panics :
    blockStageReq.VolumeId ≠ "" ∧ blockStageReq.VolumeCapability ≠ none ∧
      blockStageReq.StagingTargetPath ≠ "" ∧ blockStageReq.VolumeId ∈ heldLocks.locks ∧
      NodeStageVolume simHost simDriver blockStageReq heldLocks Sim.fresh =
        ((Outcome.panic, heldLocks), Sim.fresh, []) := by
  decide

end Locks


/-! ## ensureMountPoint -/

section EnsureMountPoint
variable {σ : Type}

theorem makeDir_run (h : Host σ) (pathname : String) (s : σ) :
    makeDir h pathname s =
      (if (h.mkdirAll pathname 0o755 s).1.isSome && !os.IsExist (h.mkdirAll pathname 0o755 s).1
        then (h.mkdirAll pathname 0o755 s).1 else none,
        (h.mkdirAll pathname 0o755 s).2,
        [Event.MkdirAll pathname 0o755 (h.mkdirAll pathname 0o755 s).1]) := by
  unfold makeDir
  simp only [Go.bind_apply, Go.pure_apply, Go.ite_apply, os.MkdirAll, call_apply]
  generalize h.mkdirAll pathname 0o755 s = r
  obtain ⟨me, s1⟩ := r
  cases me with
  | none => rfl
  | some e => cases hex : os.IsExist (some e) <;> simp [hex, Go.bind_apply, Go.pure_apply]

theorem finish_cases (h : Host σ) (d : Driver σ) (target : String) (notMnt : Bool) (s : σ) :
    (notMnt = false ∧
        Go.result (ensureMountPoint.finish h d target notMnt s) = (true, none) ∧
        Go.events (ensureMountPoint.finish h d target notMnt s) = [Event.ReadDir target none]) ∨
      (notMnt = false ∧ ∃ e u,
        Go.result (ensureMountPoint.finish h d target notMnt s) = (true, some u) ∧
        Go.events (ensureMountPoint.finish h d target notMnt s) =
          [Event.ReadDir target (some e), Event.Unmount target (some u)]) ∨
      (notMnt = false ∧ ∃ e,
        Go.result (ensureMountPoint.finish h d target notMnt s) = (false, some e) ∧
        Go.events (ensureMountPoint.finish h d target notMnt s) =
          [Event.ReadDir target (some e), Event.Unmount target none]) ∨
      (notMnt = true ∧ ∃ me,
        Go.result (ensureMountPoint.finish h d target notMnt s) =
          (false, if me.isSome && !os.IsExist me then me else none) ∧
        Go.events (ensureMountPoint.finish h d target notMnt s) =
          [Event.MkdirAll target 0o755 me]) := by
  cases notMnt with
  | false =>
    unfold ensureMountPoint.finish Go.result Go.events
    simp only [Go.bind_apply, Go.pure_apply, Go.ite_apply, ioutil.ReadDir, Mounter.Unmount,
      call_apply]
    generalize h.readDir target s = r
    obtain ⟨e, s1⟩ := r
    cases e with
    | none => left; simp
    | some e =>
      right
      generalize hu : d.mounter.unmount target s1 = r
      obtain ⟨u, s2⟩ := r
      cases u with
      | none => right; left; simp [hu, Go.bind_apply, Go.pure_apply]
      | some u => left; simp [hu, Go.bind_apply, Go.pure_apply]
  | true =>
    right; right; right
    refine ⟨rfl, (h.mkdirAll target 0o755 s).1, ?_, ?_⟩
    · unfold ensureMountPoint.finish Go.result
      simp only [Go.bind_apply, Go.pure_apply, Go.ite_apply, makeDir_run]
      cases hme : (h.mkdirAll target 0o755 s).1 with
      | none => simp [Go.bind_apply, Go.pure_apply]
      | some e => cases hex : os.IsExist (some e) <;> simp [hex, Go.bind_apply, Go.pure_apply]
    · unfold ensureMountPoint.finish Go.events
      simp only [Go.bind_apply, Go.pure_apply, Go.ite_apply, makeDir_run]
      cases hme : (h.mkdirAll target 0o755 s).1 with
      | none => simp [Go.bind_apply, Go.pure_apply]
      | some e => cases hex : os.IsExist (some e) <;> simp [hex, Go.bind_apply, Go.pure_apply]

theorem crossCheck_cases (h : Host σ) (d : Driver σ) (target : String) (notMnt : Bool) (s : σ) :
    (h.GOOS = "windows" ∧
        ensureMountPoint.crossCheck h d target notMnt s =
          ensureMountPoint.finish h d target notMnt s) ∨
      (h.GOOS ≠ "windows" ∧ ∃ mps le,
        Go.result (ensureMountPoint.crossCheck h d target notMnt s) = (!notMnt, some le) ∧
        Go.events (ensureMountPoint.crossCheck h d target notMnt s) =
          [Event.List mps (some le)]) ∨
      (h.GOOS ≠ "windows" ∧ ∃ mps a ae,
        Go.result (ensureMountPoint.crossCheck h d target notMnt s) = (!notMnt, some ae) ∧
        Go.events (ensureMountPoint.crossCheck h d target notMnt s) =
          [Event.List mps none, Event.Abs target a (some ae)]) ∨
      (h.GOOS ≠ "windows" ∧ ∃ mps a s1,
        Go.result (ensureMountPoint.crossCheck h d target notMnt s) =
          Go.result (ensureMountPoint.finish h d target
            (notMnt && !(mps.any fun mountPoint => mountPoint.Path == a)) s1) ∧
        Go.events (ensureMountPoint.crossCheck h d target notMnt s) =
          [Event.List mps none, Event.Abs target a none] ++
            Go.events (ensureMountPoint.finish h d target
              (notMnt && !(mps.any fun mountPoint => mountPoint.Path == a)) s1)) := by
  by_cases hos : h.GOOS = "windows"
  · left
    refine ⟨hos, ?_⟩
    unfold ensureMountPoint.crossCheck
    simp [hos]
  · right
    unfold ensureMountPoint.crossCheck Go.result Go.events
    simp only [bne_iff_ne, ne_eq, hos, not_false_eq_true, if_true, Go.bind_apply, Go.pure_apply,
      Go.ite_apply, Mounter.List, filepath.Abs, call_apply]
    generalize d.mounter.list s = r
    obtain ⟨⟨mps, le⟩, s1⟩ := r
    cases le with
    | some le => left; exact ⟨trivial, mps, le, by simp⟩
    | none =>
      right
      generalize hr : h.abs target s1 = r
      obtain ⟨⟨a, ae⟩, s2⟩ := r
      cases ae with
      | some ae => left; exact ⟨trivial, mps, a, ae, by simp [hr]⟩
      | none =>
        right
        refine ⟨trivial, mps, a, s2, ?_⟩
        cases hany : (mps.any fun mountPoint => mountPoint.Path == a) <;>
          cases notMnt <;> simp [hr, hany]

theorem ensureMountPoint_cases (h : Host σ) (d : Driver σ) (target : String) (s : σ) :
    (∃ nm e b pe, os.IsNotExist (some e) = false ∧
        (pe.isSome && mount.IsCorruptedMnt pe) = false ∧
        Go.result (ensureMountPoint h d target s) = (!nm, some e) ∧
        Go.events (ensureMountPoint h d target s) =
          [Event.IsLikelyNotMountPoint target nm (some e), Event.PathExists target b pe]) ∨
      (∃ nm e b pe s1, os.IsNotExist (some e) = false ∧
        (pe.isSome && mount.IsCorruptedMnt pe) = true ∧
        Go.result (ensureMountPoint h d target s) =
          Go.result (ensureMountPoint.crossCheck h d target false s1) ∧
        Go.events (ensureMountPoint h d target s) =
          [Event.IsLikelyNotMountPoint target nm (some e), Event.PathExists target b pe] ++
            Go.events (ensureMountPoint.crossCheck h d target false s1)) ∨
      (∃ nm e s1, (e = none ∨ os.IsNotExist e = true) ∧
        Go.result (ensureMountPoint h d target s) =
          Go.result (ensureMountPoint.crossCheck h d target nm s1) ∧
        Go.events (ensureMountPoint h d target s) =
          [Event.IsLikelyNotMountPoint target nm e] ++
            Go.events (ensureMountPoint.crossCheck h d target nm s1)) := by
  unfold ensureMountPoint Go.result Go.events
  simp only [Go.bind_apply, Go.pure_apply, Go.ite_apply, Mounter.IsLikelyNotMountPoint,
    IsCorruptedDir, mount.PathExists, call_apply]
  generalize d.mounter.isLikelyNotMountPoint target s = r
  obtain ⟨⟨nm, e⟩, s1⟩ := r
  cases e with
  | none =>
    right; right
    exact ⟨nm, none, s1, Or.inl rfl, by simp⟩
  | some e =>
    cases hne : os.IsNotExist (some e) with
    | true =>
      right; right
      exact ⟨nm, some e, s1, Or.inr hne, by simp [hne]⟩
    | false =>
      generalize hr : h.pathExists target s1 = r
      obtain ⟨⟨b, pe⟩, s2⟩ := r
      cases hcor : (pe.isSome && mount.IsCorruptedMnt pe) with
      | false =>
        left
        refine ⟨nm, e, b, pe, hne, hcor, ?_⟩
        simp [hne, hr, hcor]
      | true =>
        right; left
        refine ⟨nm, e, b, pe, s2, hne, hcor, ?_⟩
        simp [hne, hr, hcor]

theorem finish_broken (h : Host σ) (d : Driver σ) (target : String) (notMnt : Bool) (s : σ)
    (e : GoError)
    (hread : Event.ReadDir target (some e) ∈
      Go.events (ensureMountPoint.finish h d target notMnt s)) :
    ∃ u, Event.Unmount target u ∈ Go.events (ensureMountPoint.finish h d target notMnt s) ∧
      Go.result (ensureMountPoint.finish h d target notMnt s) =
        if u.isSome then (true, u) else (false, some e) := by
  rcases finish_cases h d target notMnt s with
    ⟨_, hr, he⟩ | ⟨_, e1, u, hr, he⟩ | ⟨_, e1, hr, he⟩ | ⟨_, me, hr, he⟩
  · rw [he] at hread; simp at hread
  · rw [he] at hread ⊢
    simp at hread
    subst hread
    exact ⟨some u, by simp, by simp [hr]⟩
  · rw [he] at hread ⊢
    simp at hread
    subst hread
    exact ⟨none, by simp, by simp [hr]⟩
  · rw [he] at hread; simp at hread

theorem crossCheck_broken (h : Host σ) (d : Driver σ) (target : String) (notMnt : Bool) (s : σ)
    (e : GoError)
    (hread : Event.ReadDir target (some e) ∈
      Go.events (ensureMountPoint.crossCheck h d target notMnt s)) :
    ∃ u, Event.Unmount target u ∈ Go.events (ensureMountPoint.crossCheck h d target notMnt s) ∧
      Go.result (ensureMountPoint.crossCheck h d target notMnt s) =
        if u.isSome then (true, u) else (false, some e) := by
  rcases crossCheck_cases h d target notMnt s with
    ⟨_, heq⟩ | ⟨_, mps, le, hr, he⟩ | ⟨_, mps, a, ae, hr, he⟩ | ⟨_, mps, a, s1, hr, he⟩
  · rw [heq] at hread ⊢
    exact finish_broken h d target notMnt s e hread
  · rw [he] at hread; simp at hread
  · rw [he] at hread; simp at hread
  · rw [he] at hread ⊢
    simp only [List.mem_append, List.mem_cons, List.mem_singleton, reduceCtorEq, List.not_mem_nil,
      or_false, false_or] at hread
    obtain ⟨u, hu, hres⟩ := finish_broken h d target _ s1 e hread
    exact ⟨u, by simp [hu], by rw [hr, hres]⟩

/-- C7, amended: whenever `ensureMountPoint` lists the target directory (which
it does only for a target it has determined to be a mount) and the listing
fails with `e`, it issues an unmount of the target; when the unmount fails
with `u` it returns `(true, u)`, and when the unmount succeeds it returns
`(false, e)`, the listing error. The error returned is never nil. -/
theorem ensureMountPoint_broken_mount (h : Host σ) (d : Driver σ) (target : String) (s : σ) (e : GoError)
    (hread : Event.ReadDir target (some e) ∈ Go.events (ensureMountPoint h d target s)) :
    ∃ u, Event.Unmount target u ∈ Go.events (ensureMountPoint h d target s) ∧
      Go.result (ensureMountPoint h d target s) =
        if u.isSome then (true, u) else (false, some e) := by
  rcases ensureMountPoint_cases h d target s with
    ⟨nm, e0, b, pe, _, _, hr, he⟩ | ⟨nm, e0, b, pe, s1, _, _, hr, he⟩ | ⟨nm, e0, s1, _, hr, he⟩
  · rw [he] at hread; simp at hread
  · rw [he] at hread ⊢
    simp only [List.mem_append, List.mem_cons, List.mem_singleton, reduceCtorEq, List.not_mem_nil,
      or_false, false_or] at hread
    obtain ⟨u, hu, hres⟩ := crossCheck_broken h d target _ s1 e hread
    exact ⟨u, by simp [hu], by rw [hr, hres]⟩
  · rw [he] at hread ⊢
    simp only [List.mem_append, List.mem_cons, List.mem_singleton, reduceCtorEq, List.not_mem_nil,
      or_false, false_or] at hread
    obtain ⟨u, hu, hres⟩ := crossCheck_broken h d target _ s1 e hread
    exact ⟨u, by simp [hu], by rw [hr, hres]⟩

/-- The healthy mount read off the host calls of the run: on a host that is
not Windows, `ensureMountPoint` returns `(true, nil)` if and only if, in that
run, the mount table listed without error, the target was determined to be a
mount and the listing of the target directory succeeded; in that case no
unmount, cleanup, directory creation or removal is among the host calls. -/
theorem ensureMountPoint_healthy_mount_events (h : Host σ) (d : Driver σ) (target : String) (s : σ) (hos : h.GOOS ≠ "windows") :
    (Go.result (ensureMountPoint h d target s) = (true, none) ↔
      (∃ mps, Event.List mps none ∈ Go.events (ensureMountPoint h d target s)) ∧
      ((∃ e, Event.IsLikelyNotMountPoint target false e ∈
            Go.events (ensureMountPoint h d target s)) ∨
        (∃ b pe, Event.PathExists target b pe ∈ Go.events (ensureMountPoint h d target s) ∧
            pe.isSome = true ∧ mount.IsCorruptedMnt pe = true) ∨
        (∃ mps a, Event.List mps none ∈ Go.events (ensureMountPoint h d target s) ∧
            Event.Abs target a none ∈ Go.events (ensureMountPoint h d target s) ∧
            ∃ mp ∈ mps, mp.Path = a)) ∧
      Event.ReadDir target none ∈ Go.events (ensureMountPoint h d target s)) ∧
    (Go.result (ensureMountPoint h d target s) = (true, none) →
      ∀ ev ∈ Go.events (ensureMountPoint h d target s), ev.unmountsOrCreates = false) := by
  rcases ensureMountPoint_cases h d target s with
    ⟨nm, e0, b, pe, hne, hcor, hr, he⟩ | ⟨nm, e0, b, pe, s1, hne, hcor, hr, he⟩ |
    ⟨nm, e0, s1, hq, hr, he⟩
  · rw [he, hr]; simp
  · rcases crossCheck_cases h d target false s1 with
      ⟨hw, _⟩ | ⟨_, mps, le, hr1, he1⟩ | ⟨_, mps, a, ae, hr1, he1⟩ | ⟨_, mps, a, s2, hr1, he1⟩
    · exact absurd hw hos
    · rw [he, hr, he1, hr1]; simp
    · rw [he, hr, he1, hr1]; simp
    · rcases finish_cases h d target (false && !(mps.any fun mountPoint => mountPoint.Path == a)) s2 with
        ⟨hnm, hr2, he2⟩ | ⟨hnm, e1, u, hr2, he2⟩ | ⟨hnm, e1, hr2, he2⟩ | ⟨hnm, me, hr2, he2⟩
      · rw [he, hr, he1, hr1, he2, hr2]
        simp only [Bool.and_eq_true] at hcor
        simp [Event.unmountsOrCreates]
        right; left
        cases b <;> simp [hcor]
      · rw [he, hr, he1, hr1, he2, hr2]; simp
      · rw [he, hr, he1, hr1, he2, hr2]; simp
      · rw [he, hr, he1, hr1, he2, hr2]; simp
  · rcases crossCheck_cases h d target nm s1 with
      ⟨hw, _⟩ | ⟨_, mps, le, hr1, he1⟩ | ⟨_, mps, a, ae, hr1, he1⟩ | ⟨_, mps, a, s2, hr1, he1⟩
    · exact absurd hw hos
    · rw [he, hr, he1, hr1]; simp
    · rw [he, hr, he1, hr1]; simp
    · rcases finish_cases h d target (nm && !(mps.any fun mountPoint => mountPoint.Path == a)) s2 with
        ⟨hnm, hr2, he2⟩ | ⟨hnm, e1, u, hr2, he2⟩ | ⟨hnm, e1, hr2, he2⟩ | ⟨hnm, me, hr2, he2⟩
      · rw [he, hr, he1, hr1, he2, hr2]
        simp [Event.unmountsOrCreates]
        cases nm with
        | false => left; rfl
        | true => right; simpa using hnm
      · rw [he, hr, he1, hr1, he2, hr2]; simp
      · rw [he, hr, he1, hr1, he2, hr2]; simp
      · rw [he, hr, he1, hr1, he2, hr2]; simp

theorem finish_events_kind (h : Host σ) (d : Driver σ) (target : String) (notMnt : Bool)
    (s : σ) (ev : Event) (hev : ev ∈ Go.events (ensureMountPoint.finish h d target notMnt s)) :
    (∃ e, ev = Event.ReadDir target e) ∨ (∃ u, ev = Event.Unmount target u) ∨
      (∃ me, ev = Event.MkdirAll target 0o755 me) := by
  rcases finish_cases h d target notMnt s with
    ⟨_, _, he⟩ | ⟨_, e1, u, _, he⟩ | ⟨_, e1, _, he⟩ | ⟨_, me, _, he⟩ <;>
  rw [he] at hev <;> simp at hev
  · exact Or.inl ⟨_, hev⟩
  · rcases hev with rfl | rfl
    · exact Or.inl ⟨_, rfl⟩
    · exact Or.inr (Or.inl ⟨_, rfl⟩)
  · rcases hev with rfl | rfl
    · exact Or.inl ⟨_, rfl⟩
    · exact Or.inr (Or.inl ⟨_, rfl⟩)
  · exact Or.inr (Or.inr ⟨_, hev⟩)

theorem finish_no_query (h : Host σ) (d : Driver σ) (target : String) (notMnt : Bool)
    (s : σ) (p : String) (nm : Bool) (e : Option GoError) :
    Event.IsLikelyNotMountPoint p nm e ∉
      Go.events (ensureMountPoint.finish h d target notMnt s) := by
  intro hmem
  rcases finish_events_kind h d target notMnt s _ hmem with ⟨_, hk⟩ | ⟨_, hk⟩ | ⟨_, hk⟩ <;>
  simp at hk

theorem finish_no_list (h : Host σ) (d : Driver σ) (target : String) (notMnt : Bool)
    (s : σ) (mps : List MountPoint) (e : Option GoError) :
    Event.List mps e ∉ Go.events (ensureMountPoint.finish h d target notMnt s) := by
  intro hmem
  rcases finish_events_kind h d target notMnt s _ hmem with ⟨_, hk⟩ | ⟨_, hk⟩ | ⟨_, hk⟩ <;>
  simp at hk

theorem finish_no_abs (h : Host σ) (d : Driver σ) (target : String) (notMnt : Bool)
    (s : σ) (p a : String) (e : Option GoError) :
    Event.Abs p a e ∉ Go.events (ensureMountPoint.finish h d target notMnt s) := by
  intro hmem
  rcases finish_events_kind h d target notMnt s _ hmem with ⟨_, hk⟩ | ⟨_, hk⟩ | ⟨_, hk⟩ <;>
  simp at hk

theorem crossCheck_no_query (h : Host σ) (d : Driver σ) (target : String) (notMnt : Bool)
    (s : σ) (p : String) (nm : Bool) (e : Option GoError) :
    Event.IsLikelyNotMountPoint p nm e ∉
      Go.events (ensureMountPoint.crossCheck h d target notMnt s) := by
  intro hmem
  rcases crossCheck_cases h d target notMnt s with
    ⟨_, heq⟩ | ⟨_, mps, le, _, he⟩ | ⟨_, mps, a, ae, _, he⟩ | ⟨_, mps, a, s1, _, he⟩
  · rw [heq] at hmem
    exact finish_no_query h d target notMnt s p nm e hmem
  · rw [he] at hmem; simp at hmem
  · rw [he] at hmem; simp at hmem
  · rw [he] at hmem
    simp only [List.mem_append, List.mem_cons, List.mem_singleton, reduceCtorEq,
      List.not_mem_nil, or_false, false_or] at hmem
    exact finish_no_query h d target _ s1 p nm e hmem

/-- C9: when the point query answers not-a-mount, with a nil error or with a
path-does-not-exist error, and (unless the host is Windows) the mount table
lists without error and has no entry at the absolute path of the target,
`ensureMountPoint` calls `MkdirAll` on the target with mode 0755 and returns
`(false, nil)` when the creation succeeds or fails with an already-exists
error, and `(false, err)` with the creation error otherwise. -/
theorem ensureMountPoint_not_a_mount (h : Host σ) (d : Driver σ) (target : String) (s : σ) (e : Option GoError)
    (hq : Event.IsLikelyNotMountPoint target true e ∈ Go.events (ensureMountPoint h d target s))
    (he : e = none ∨ os.IsNotExist e = true)
    (hl : h.GOOS = "windows" ∨
      ∃ mps a, Event.List mps none ∈ Go.events (ensureMountPoint h d target s) ∧
        Event.Abs target a none ∈ Go.events (ensureMountPoint h d target s) ∧
        ∀ mp ∈ mps, mp.Path ≠ a) :
    ∃ me, Event.MkdirAll target 0o755 me ∈ Go.events (ensureMountPoint h d target s) ∧
      Go.result (ensureMountPoint h d target s) =
        (false, if me.isSome && !os.IsExist me then me else none) := by
  rcases ensureMountPoint_cases h d target s with
    ⟨nm, e0, b, pe, hne, hcor, hr, hev⟩ | ⟨nm, e0, b, pe, s1, hne, hcor, hr, hev⟩ |
    ⟨nm, e0, s1, _, hr, hev⟩
  · rw [hev] at hq
    simp at hq
    obtain ⟨_, rfl⟩ := hq
    simp [hne] at he
  · rw [hev] at hq
    simp only [List.mem_append, List.mem_cons, List.mem_singleton, reduceCtorEq,
      List.not_mem_nil, or_false, false_or, crossCheck_no_query, Event.IsLikelyNotMountPoint.injEq,
      true_and] at hq
    obtain ⟨_, rfl⟩ := hq
    simp [hne] at he
  · rw [hev] at hq
    simp only [List.mem_append, List.mem_cons, List.mem_singleton, reduceCtorEq,
      List.not_mem_nil, or_false, false_or, crossCheck_no_query, Event.IsLikelyNotMountPoint.injEq,
      true_and] at hq
    obtain ⟨rfl, rfl⟩ := hq
    rw [hev, hr]
    rw [hev] at hl
    rcases crossCheck_cases h d target true s1 with
      ⟨hw, heq⟩ | ⟨hnw, mps, le, hr1, he1⟩ | ⟨hnw, mps, a, ae, hr1, he1⟩ |
      ⟨hnw, mps, a, s2, hr1, he1⟩
    · rw [heq]
      rcases finish_cases h d target true s1 with
        ⟨hnm, _⟩ | ⟨hnm, _⟩ | ⟨hnm, _⟩ | ⟨_, me, hr2, he2⟩
      · simp at hnm
      · simp at hnm
      · simp at hnm
      · exact ⟨me, by simp [he2], hr2⟩
    · rw [he1] at hl
      simp [hnw] at hl
    · rw [he1] at hl
      simp [hnw] at hl
    · rw [he1] at hl
      simp only [hnw, false_or, List.mem_append, List.mem_cons, List.mem_singleton, reduceCtorEq,
        List.not_mem_nil, or_false, finish_no_list, finish_no_abs, Event.List.injEq,
        Event.Abs.injEq, and_true, true_and] at hl
      obtain ⟨mps1, a1, rfl, rfl, hno⟩ := hl
      have hany : (mps1.any fun mountPoint => mountPoint.Path == a1) = false := by
        simpa using hno
      rw [hany] at hr1 he1
      simp only [Bool.not_false, Bool.and_true] at hr1 he1
      rw [he1, hr1]
      rcases finish_cases h d target true s2 with
        ⟨hnm, _⟩ | ⟨hnm, _⟩ | ⟨hnm, _⟩ | ⟨_, me, hr2, he2⟩
      · simp at hnm
      · simp at hnm
      · simp at hnm
      · exact ⟨me, by simp [he2], hr2⟩

theorem crossCheck_no_provision (h : Host σ) (d : Driver σ) (target : String) (notMnt : Bool)
    (s : σ) (ev : Event) (hev : ev ∈ Go.events (ensureMountPoint.crossCheck h d target notMnt s)) :
    ev.provisions = false := by
  rcases crossCheck_cases h d target notMnt s with
    ⟨_, heq⟩ | ⟨_, mps, le, _, he⟩ | ⟨_, mps, a, ae, _, he⟩ | ⟨_, mps, a, s1, _, he⟩
  · rw [heq] at hev
    rcases finish_events_kind h d target notMnt s ev hev with ⟨_, rfl⟩ | ⟨_, rfl⟩ | ⟨_, rfl⟩ <;> rfl
  · rw [he] at hev; simp at hev; subst hev; rfl
  · rw [he] at hev; simp at hev; rcases hev with rfl | rfl <;> rfl
  · rw [he] at hev
    simp only [List.mem_append, List.mem_cons, List.mem_singleton, List.not_mem_nil, or_false]
      at hev
    rcases hev with (rfl | rfl) | hev
    · rfl
    · rfl
    · rcases finish_events_kind h d target _ s1 ev hev with ⟨_, rfl⟩ | ⟨_, rfl⟩ | ⟨_, rfl⟩ <;> rfl

theorem ensureMountPoint_no_provision (h : Host σ) (d : Driver σ) (target : String) (s : σ)
    (ev : Event) (hev : ev ∈ Go.events (ensureMountPoint h d target s)) :
    ev.provisions = false := by
  rcases ensureMountPoint_cases h d target s with
    ⟨nm, e0, b, pe, _, _, _, he⟩ | ⟨nm, e0, b, pe, s1, _, _, _, he⟩ | ⟨nm, e0, s1, _, _, he⟩
  · rw [he] at hev; simp at hev; rcases hev with rfl | rfl <;> rfl
  · rw [he] at hev
    simp only [List.mem_append, List.mem_cons, List.mem_singleton, List.not_mem_nil, or_false]
      at hev
    rcases hev with (rfl | rfl) | hev
    · rfl
    · rfl
    · exact crossCheck_no_provision h d target false s1 ev hev
  · rw [he] at hev
    simp only [List.mem_append, List.mem_cons, List.mem_singleton, List.not_mem_nil, or_false]
      at hev
    rcases hev with rfl | hev
    · rfl
    · exact crossCheck_no_provision h d target nm s1 ev hev

/-- The short circuit of a restage: for a stage request with its required
fields on a free volume id that
reaches `ensureMountPoint` (the capability has a mount descriptor and the
`MkdirAll` of the staging path succeeds), if `ensureMountPoint` returns
`(true, nil)` then `NodeStageVolume` answers with success whatever the volume
context holds, the lock table is as before, and the host calls are that
`MkdirAll` followed by those of `ensureMountPoint`: none of them reads or
writes a control file, formats or mounts. -/
theorem NodeStageVolume_restage_short_circuit [GoToolchain] (h : Host σ) (d : Driver σ) (req : NodeStageVolumeRequest)
    (cap : VolumeCapability) (m : MountVolume) (vl : VolumeLocks) (s : σ)
    (hid : req.VolumeId ≠ "") (hcap : req.VolumeCapability = some cap)
    (hmount : cap.GetMount = some m) (hpath : req.StagingTargetPath ≠ "")
    (hfree : req.VolumeId ∉ vl.locks)
    (hmk : (h.mkdirAll req.StagingTargetPath 0o750 s).1 = none)
    (hens : Go.result (ensureMountPoint h d req.StagingTargetPath
      (h.mkdirAll req.StagingTargetPath 0o750 s).2) = (true, none)) :
    (Go.result (NodeStageVolume h d req vl s)).1 = Outcome.ok {} ∧
      (Go.result (NodeStageVolume h d req vl s)).2.locks = vl.locks ∧
      Go.state (NodeStageVolume h d req vl s) =
        Go.state (ensureMountPoint h d req.StagingTargetPath
          (h.mkdirAll req.StagingTargetPath 0o750 s).2) ∧
      Go.events (NodeStageVolume h d req vl s) =
        Event.MkdirAll req.StagingTargetPath 0o750 none ::
          Go.events (ensureMountPoint h d req.StagingTargetPath
            (h.mkdirAll req.StagingTargetPath 0o750 s).2) ∧
      ∀ ev ∈ Go.events (NodeStageVolume h d req vl s), ev.provisions = false := by
  have hrun : NodeStageVolume h d req vl s =
      ((Outcome.ok {}, (vl.TryAcquire req.VolumeId).2.Release req.VolumeId),
        Go.state (ensureMountPoint h d req.StagingTargetPath
          (h.mkdirAll req.StagingTargetPath 0o750 s).2),
        Event.MkdirAll req.StagingTargetPath 0o750 none ::
          Go.events (ensureMountPoint h d req.StagingTargetPath
            (h.mkdirAll req.StagingTargetPath 0o750 s).2)) := by
    unfold NodeStageVolume NodeStageVolume.locked
    revert hens
    unfold Go.result Go.state Go.events
    generalize hr : ensureMountPoint h d req.StagingTargetPath
      (h.mkdirAll req.StagingTargetPath 0o750 s).2 = r
    obtain ⟨⟨b, e⟩, s2, t2⟩ := r
    intro hens
    simp only [Prod.mk.injEq] at hens
    obtain ⟨rfl, rfl⟩ := hens
    simp [String.length_ne_zero_of_ne_empty _ hid, String.length_ne_zero_of_ne_empty _ hpath,
      hcap, hmount, VolumeLocks.tryAcquire_free vl _ hfree, Go.bind_apply, Go.pure_apply,
      Go.ite_apply, os.MkdirAll, call_apply, hmk, hr]
  rw [hrun]
  refine ⟨rfl, VolumeLocks.release_tryAcquire vl _ hfree, rfl, rfl, ?_⟩
  intro ev hev
  simp only [Go.events, List.mem_cons] at hev
  rcases hev with rfl | hev
  · rfl
  · exact ensureMountPoint_no_provision h d _ _ ev hev

end EnsureMountPoint

/-! ## ensureMountPoint: the healthy mount, from the answers of the host -/

section HealthyMount
variable {σ : Type}

/-- The last block of `ensureMountPoint` returns `(true, nil)` exactly when it
is entered with the target determined to be a mount and the listing of the
target directory succeeds. -/
theorem finish_healthy_iff (h : Host σ) (d : Driver σ) (target : String) (notMnt : Bool)
    (s s1 : σ) (re : Option GoError) (hr : h.readDir target s = (re, s1)) :
    Go.result (ensureMountPoint.finish h d target notMnt s) = (true, none) ↔
      notMnt = false ∧ re = none := by
  cases notMnt with
  | false =>
    unfold ensureMountPoint.finish Go.result
    simp only [Go.bind_apply, Go.pure_apply, Go.ite_apply, ioutil.ReadDir, Mounter.Unmount,
      call_apply, hr]
    cases re with
    | none => simp
    | some e =>
      generalize hu : d.mounter.unmount target s1 = r
      obtain ⟨u, s2⟩ := r
      cases u <;> simp [hu, Go.bind_apply, Go.pure_apply]
  | true =>
    rcases finish_cases h d target true s with
      ⟨hnm, _⟩ | ⟨hnm, _⟩ | ⟨hnm, _⟩ | ⟨_, me, hres, _⟩
    · simp at hnm
    · simp at hnm
    · simp at hnm
    · rw [hres]; simp

/-- The middle block of `ensureMountPoint` on a host that is not Windows
returns `(true, nil)` exactly when the mount table lists, the absolute path of
the target resolves, the target is determined to be a mount on entry or its
absolute path is the path of an entry of the table, and the listing of the
target directory succeeds. -/
theorem crossCheck_healthy_iff (h : Host σ) (d : Driver σ) (target : String) (notMnt : Bool)
    (s s2 s3 s4 : σ) (le ae re : Option GoError) (mps : MountList) (abs : String)
    (hos : h.GOOS ≠ "windows")
    (hl : d.mounter.list s = ((mps, le), s2))
    (ha : h.abs target s2 = ((abs, ae), s3))
    (hr : h.readDir target s3 = (re, s4)) :
    Go.result (ensureMountPoint.crossCheck h d target notMnt s) = (true, none) ↔
      le = none ∧ ae = none ∧ (notMnt = false ∨ ∃ mp ∈ mps, mp.Path = abs) ∧ re = none := by
  have hos' : (h.GOOS != "windows") = true := by simpa using hos
  have hany : (mps.any fun mountPoint => mountPoint.Path == abs) = true ↔
      ∃ mp ∈ mps, mp.Path = abs := by simp
  unfold ensureMountPoint.crossCheck
  simp only [hos', if_true]
  cases le with
  | some e =>
    simp [Go.result, Go.bind_apply, Go.pure_apply, Go.ite_apply, Mounter.List, call_apply, hl]
  | none =>
    cases ae with
    | some e =>
      simp [Go.result, Go.bind_apply, Go.pure_apply, Go.ite_apply, Mounter.List, filepath.Abs,
        call_apply, hl, ha]
    | none =>
      have hf := finish_healthy_iff h d target
      cases hb : (mps.any fun mountPoint => mountPoint.Path == abs) with
      | true =>
        have hex := hany.mp hb
        have := hf false s3 s4 re hr
        unfold Go.result at this ⊢
        simp only [Go.bind_apply, Go.pure_apply, Go.ite_apply, Mounter.List, filepath.Abs,
          call_apply, hl, ha, hb, Option.isSome_none, Bool.false_eq_true, if_false, if_true]
        simp only [this]
        simp [hex]
      | false =>
        have hex : ¬ ∃ mp ∈ mps, mp.Path = abs := fun hx => by
          rw [← hany, hb] at hx; exact Bool.false_ne_true hx
        have := hf notMnt s3 s4 re hr
        unfold Go.result at this ⊢
        simp only [Go.bind_apply, Go.pure_apply, Go.ite_apply, Mounter.List, filepath.Abs,
          call_apply, hl, ha, hb, Option.isSome_none, Bool.false_eq_true, if_false]
        simp only [this]
        simp [hex]

/-- The return of `(true, nil)` in terms of the answers of the host, named at
the states where `ensureMountPoint` asks. -/
theorem ensureMountPoint_true_nil_iff (h : Host σ) (d : Driver σ) (target : String)
    (s s1 s1p s2 s3 s4 : σ) (nm found : Bool) (qe pe le ae re : Option GoError)
    (mps : MountList) (abs : String)
    (hos : h.GOOS ≠ "windows")
    (hq : d.mounter.isLikelyNotMountPoint target s = ((nm, qe), s1))
    (hp : h.pathExists target s1 = ((found, pe), s1p))
    (hl : d.mounter.list (if qe.isSome && !os.IsNotExist qe then s1p else s1) = ((mps, le), s2))
    (ha : h.abs target s2 = ((abs, ae), s3))
    (hr : h.readDir target s3 = (re, s4)) :
    Go.result (ensureMountPoint h d target s) = (true, none) ↔
      ((qe.isSome && !os.IsNotExist qe) = true →
        (pe.isSome && mount.IsCorruptedMnt pe) = true) ∧
      le = none ∧ ae = none ∧
      (nm = false ∨
        ((qe.isSome && !os.IsNotExist qe) = true ∧
          (pe.isSome && mount.IsCorruptedMnt pe) = true) ∨
        ∃ mp ∈ mps, mp.Path = abs) ∧
      re = none := by
  have hc := crossCheck_healthy_iff h d target
  unfold ensureMountPoint
  unfold Go.result at hc ⊢
  simp only [Go.bind_apply, Go.pure_apply, Go.ite_apply, Mounter.IsLikelyNotMountPoint,
    IsCorruptedDir, mount.PathExists, call_apply, hq]
  cases hprobe : (qe.isSome && !os.IsNotExist qe) with
  | true =>
    rw [hprobe] at hl
    simp only [if_true] at hl
    cases hcor : (pe.isSome && mount.IsCorruptedMnt pe) with
    | false =>
      cases qe with
      | none => simp at hprobe
      | some e => simp [hp, hcor]
    | true =>
      have := hc false s1p s2 s3 s4 le ae re mps abs hos hl ha hr
      simp only [hp, hcor, if_true, this]
      simp
  | false =>
    rw [hprobe] at hl
    simp only [Bool.false_eq_true, if_false] at hl
    have := hc nm s1 s2 s3 s4 le ae re mps abs hos hl ha hr
    simp only [Bool.false_eq_true, if_false, this]
    simp

/-- C8: on a host that is not Windows, with the answers of the host named at
the states where `ensureMountPoint` asks (the point query at the start, the
probe of the directory after it, the mount table after the probe when the
query failed with an error other than not-exist and after the query otherwise,
the absolute path after the table, the listing of the target directory after
that), `ensureMountPoint` returns `(true, nil)` if and only if the run comes
to the mount table (the query did not fail with such an error on a directory
the probe does not find corrupted), the mount table lists without error, the
absolute path resolves, the target is determined to be a mount (the query
answered that it is not not-a-mount, or its failure was a corrupted directory,
or the absolute path of the target is the path of a mount-table entry) and the
listing of the target directory succeeds. Read off the host calls of the run,
it returns `(true, nil)` if and only if the mount table listed without error,
the target was determined to be a mount in one of these three ways and the
listing of the target directory succeeded. In that case no unmount, cleanup,
directory creation or removal is among the host calls. -/
theorem ensureMountPoint_healthy_mount_iff (h : Host σ) (d : Driver σ) (target : String)
    (s s1 s1p s2 s3 s4 : σ) (nm found : Bool) (qe pe le ae re : Option GoError)
    (mps : MountList) (abs : String)
    (hos : h.GOOS ≠ "windows")
    (hq : d.mounter.isLikelyNotMountPoint target s = ((nm, qe), s1))
    (hp : h.pathExists target s1 = ((found, pe), s1p))
    (hl : d.mounter.list (if qe.isSome && !os.IsNotExist qe then s1p else s1) = ((mps, le), s2))
    (ha : h.abs target s2 = ((abs, ae), s3))
    (hr : h.readDir target s3 = (re, s4)) :
    (Go.result (ensureMountPoint h d target s) = (true, none) ↔
      ((qe.isSome && !os.IsNotExist qe) = true →
        (pe.isSome && mount.IsCorruptedMnt pe) = true) ∧
      le = none ∧ ae = none ∧
      (nm = false ∨
        ((qe.isSome && !os.IsNotExist qe) = true ∧
          (pe.isSome && mount.IsCorruptedMnt pe) = true) ∨
        ∃ mp ∈ mps, mp.Path = abs) ∧
      re = none) ∧
    (Go.result (ensureMountPoint h d target s) = (true, none) ↔
      (∃ mps, Event.List mps none ∈ Go.events (ensureMountPoint h d target s)) ∧
      ((∃ e, Event.IsLikelyNotMountPoint target false e ∈
            Go.events (ensureMountPoint h d target s)) ∨
        (∃ b pe, Event.PathExists target b pe ∈ Go.events (ensureMountPoint h d target s) ∧
            pe.isSome = true ∧ mount.IsCorruptedMnt pe = true) ∨
        (∃ mps a, Event.List mps none ∈ Go.events (ensureMountPoint h d target s) ∧
            Event.Abs target a none ∈ Go.events (ensureMountPoint h d target s) ∧
            ∃ mp ∈ mps, mp.Path = a)) ∧
      Event.ReadDir target none ∈ Go.events (ensureMountPoint h d target s)) ∧
    (Go.result (ensureMountPoint h d target s) = (true, none) →
      ∀ ev ∈ Go.events (ensureMountPoint h d target s), ev.unmountsOrCreates = false) :=
  ⟨ensureMountPoint_true_nil_iff h d target s s1 s1p s2 s3 s4 nm found qe pe le ae re mps abs hos
      hq hp hl ha hr,
    ensureMountPoint_healthy_mount_events h d target s hos⟩

end HealthyMount

section HealthyMountState
variable {σ : Type}

/-- The state the last block of `ensureMountPoint` leaves: the one after the
listing when it returns `(true, nil)`; and it returns `(false, nil)` only when
entered with the target not determined to be a mount, leaving the state after
the creation of the directory. -/
theorem finish_states (h : Host σ) (d : Driver σ) (target : String) (notMnt : Bool)
    (s s1 : σ) (re : Option GoError) (hr : h.readDir target s = (re, s1)) :
    (Go.result (ensureMountPoint.finish h d target notMnt s) = (true, none) →
      Go.state (ensureMountPoint.finish h d target notMnt s) = s1) ∧
    (Go.result (ensureMountPoint.finish h d target notMnt s) = (false, none) →
      notMnt = true ∧
        Go.state (ensureMountPoint.finish h d target notMnt s) =
          (h.mkdirAll target 0o755 s).2) := by
  cases notMnt with
  | false =>
    unfold ensureMountPoint.finish Go.result Go.state
    simp only [Go.bind_apply, Go.pure_apply, Go.ite_apply, ioutil.ReadDir, Mounter.Unmount,
      call_apply, hr]
    cases re with
    | none => simp
    | some e =>
      generalize hu : d.mounter.unmount target s1 = r
      obtain ⟨u, s2⟩ := r
      cases u <;> simp [hu, Go.bind_apply, Go.pure_apply]
  | true =>
    unfold ensureMountPoint.finish Go.result Go.state
    simp only [Go.bind_apply, Go.pure_apply, Go.ite_apply, makeDir_run]
    cases hme : (h.mkdirAll target 0o755 s).1 with
    | none => simp [Go.bind_apply, Go.pure_apply]
    | some e => cases hex : os.IsExist (some e) <;> simp [hex, Go.bind_apply, Go.pure_apply]

theorem crossCheck_states (h : Host σ) (d : Driver σ) (target : String) (notMnt : Bool)
    (s s2 s3 s4 : σ) (le ae re : Option GoError) (mps : MountList) (abs : String)
    (hos : h.GOOS ≠ "windows")
    (hl : d.mounter.list s = ((mps, le), s2))
    (ha : h.abs target s2 = ((abs, ae), s3))
    (hr : h.readDir target s3 = (re, s4)) :
    (Go.result (ensureMountPoint.crossCheck h d target notMnt s) = (true, none) →
      Go.state (ensureMountPoint.crossCheck h d target notMnt s) = s4) ∧
    (Go.result (ensureMountPoint.crossCheck h d target notMnt s) = (false, none) →
      notMnt = true ∧ le = none ∧ ae = none ∧ (∀ mp ∈ mps, mp.Path ≠ abs) ∧
        Go.state (ensureMountPoint.crossCheck h d target notMnt s) =
          (h.mkdirAll target 0o755 s3).2) := by
  have hos' : (h.GOOS != "windows") = true := by simpa using hos
  unfold ensureMountPoint.crossCheck
  simp only [hos', if_true]
  cases le with
  | some e =>
    simp [Go.result, Go.bind_apply, Go.pure_apply, Go.ite_apply, Mounter.List, call_apply, hl]
  | none =>
    cases ae with
    | some e =>
      simp [Go.result, Go.bind_apply, Go.pure_apply, Go.ite_apply, Mounter.List, filepath.Abs,
        call_apply, hl, ha]
    | none =>
      have hf := finish_states h d target
      cases hb : (mps.any fun mountPoint => mountPoint.Path == abs) with
      | true =>
        have := hf false s3 s4 re hr
        unfold Go.result Go.state at this ⊢
        simp only [Go.bind_apply, Go.pure_apply, Go.ite_apply, Mounter.List, filepath.Abs,
          call_apply, hl, ha, hb, Option.isSome_none, Bool.false_eq_true, if_false, if_true]
        refine ⟨this.1, fun hres => ?_⟩
        have := this.2 hres
        simp at this
      | false =>
        have hno : ∀ mp ∈ mps, mp.Path ≠ abs := by simpa using hb
        have := hf notMnt s3 s4 re hr
        unfold Go.result Go.state at this ⊢
        simp only [Go.bind_apply, Go.pure_apply, Go.ite_apply, Mounter.List, filepath.Abs,
          call_apply, hl, ha, hb, Option.isSome_none, Bool.false_eq_true, if_false]
        refine ⟨this.1, fun hres => ?_⟩
        obtain ⟨h1, h2⟩ := this.2 hres
        exact ⟨h1, trivial, trivial, hno, h2⟩

/-- The state `ensureMountPoint` leaves on a host that is not Windows, with the
answers of the host named as in `ensureMountPoint_healthy_mount_iff`: the one
after the listing of the target directory when it returns `(true, nil)`; and
it returns `(false, nil)` only when the point query answered not-a-mount
without an error other than not-exist, the mount table listed and has no entry
at the absolute path of the target, leaving the state after the creation of
the directory. -/
theorem ensureMountPoint_states (h : Host σ) (d : Driver σ) (target : String)
    (s s1 s1p s2 s3 s4 : σ) (nm found : Bool) (qe pe le ae re : Option GoError)
    (mps : MountList) (abs : String)
    (hos : h.GOOS ≠ "windows")
    (hq : d.mounter.isLikelyNotMountPoint target s = ((nm, qe), s1))
    (hp : h.pathExists target s1 = ((found, pe), s1p))
    (hl : d.mounter.list (if qe.isSome && !os.IsNotExist qe then s1p else s1) = ((mps, le), s2))
    (ha : h.abs target s2 = ((abs, ae), s3))
    (hr : h.readDir target s3 = (re, s4)) :
    (Go.result (ensureMountPoint h d target s) = (true, none) →
      Go.state (ensureMountPoint h d target s) = s4) ∧
    (Go.result (ensureMountPoint h d target s) = (false, none) →
      (qe.isSome && !os.IsNotExist qe) = false ∧ nm = true ∧ le = none ∧ ae = none ∧
        (∀ mp ∈ mps, mp.Path ≠ abs) ∧
        Go.state (ensureMountPoint h d target s) = (h.mkdirAll target 0o755 s3).2) := by
  have hc := crossCheck_states h d target
  unfold ensureMountPoint
  unfold Go.result Go.state at hc ⊢
  simp only [Go.bind_apply, Go.pure_apply, Go.ite_apply, Mounter.IsLikelyNotMountPoint,
    IsCorruptedDir, mount.PathExists, call_apply, hq]
  cases hprobe : (qe.isSome && !os.IsNotExist qe) with
  | true =>
    rw [hprobe] at hl
    simp only [if_true] at hl
    cases hcor : (pe.isSome && mount.IsCorruptedMnt pe) with
    | false =>
      cases qe with
      | none => simp at hprobe
      | some e => simp [hp, hcor]
    | true =>
      have := hc false s1p s2 s3 s4 le ae re mps abs hos hl ha hr
      simp only [hp, hcor, if_true]
      refine ⟨this.1, fun hres => ?_⟩
      have := (this.2 hres).1
      simp at this
  | false =>
    rw [hprobe] at hl
    simp only [Bool.false_eq_true, if_false] at hl
    have := hc nm s1 s2 s3 s4 le ae re mps abs hos hl ha hr
    simp only [Bool.false_eq_true, if_false]
    refine ⟨this.1, fun hres => ?_⟩
    obtain ⟨h1, h2, h3, h4, h5⟩ := this.2 hres
    exact ⟨trivial, h1, h2, h3, h4, h5⟩

end HealthyMountState

/-! ## ensureMountPoint and restage on the simulated node -/

/-- C7, counterexample: on a node whose mount link at `/mnt/x` is broken, the
listing fails, the unmount succeeds (its error is nil) and `ensureMountPoint`
returns the listing error, not nil; on the same node with `/mnt/x` busy the
unmount fails and the first component returned is `true`. -/
theorem ensureMountPoint_broken_mount_returns_listing_error :
    (Go.events (ensureMountPoint simHost simDriver "/mnt/x" Sim.stagedStale) =
        [Event.IsLikelyNotMountPoint "/mnt/x" true (some (Sim.ENOTCONN "stat" "/mnt/x")),
          Event.PathExists "/mnt/x" false (some (Sim.ENOTCONN "stat" "/mnt/x")),
          Event.List [{ Device := "/dev/zram0", Path := "/mnt/x" }] none,
          Event.Abs "/mnt/x" "/mnt/x" none,
          Event.ReadDir "/mnt/x" (some (Sim.ENOTCONN "open" "/mnt/x")),
          Event.Unmount "/mnt/x" none] ∧
      Go.result (ensureMountPoint simHost simDriver "/mnt/x" Sim.stagedStale) =
        (false, some (Sim.ENOTCONN "open" "/mnt/x"))) ∧
    (Go.events (ensureMountPoint simHost simDriver "/mnt/x" Sim.stagedStaleBusy) =
        [Event.IsLikelyNotMountPoint "/mnt/x" true (some (Sim.ENOTCONN "stat" "/mnt/x")),
          Event.PathExists "/mnt/x" false (some (Sim.ENOTCONN "stat" "/mnt/x")),
          Event.List [{ Device := "/dev/zram0", Path := "/mnt/x" }] none,
          Event.Abs "/mnt/x" "/mnt/x" none,
          Event.ReadDir "/mnt/x" (some (Sim.ENOTCONN "open" "/mnt/x")),
          Event.Unmount "/mnt/x" (some (Sim.EBUSY "/mnt/x"))] ∧
      Go.result (ensureMountPoint simHost simDriver "/mnt/x" Sim.stagedStaleBusy) =
        (true, some (Sim.EBUSY "/mnt/x"))) := by
  decide

/-- C7, witness: the amended statement at the node whose mount link at
`/mnt/x` is broken. -/
theorem ensureMountPoint_broken_mount_witness :
    Event.ReadDir "/mnt/x" (some (Sim.ENOTCONN "open" "/mnt/x")) ∈
        Go.events (ensureMountPoint simHost simDriver "/mnt/x" Sim.stagedStale) ∧
      ∃ u, Event.Unmount "/mnt/x" u ∈
          Go.events (ensureMountPoint simHost simDriver "/mnt/x" Sim.stagedStale) ∧
        Go.result (ensureMountPoint simHost simDriver "/mnt/x" Sim.stagedStale) =
          if u.isSome then (true, u) else (false, some (Sim.ENOTCONN "open" "/mnt/x")) :=
  ⟨by decide,
    ensureMountPoint_broken_mount simHost simDriver "/mnt/x" Sim.stagedStale
      (Sim.ENOTCONN "open" "/mnt/x") (by decide)⟩

/-- On the staged node, which is not Windows, `/mnt/x` is a
healthy mount: `ensureMountPoint` returns `(true, nil)` and neither unmounts
nor creates anything. -/
theorem ensureMountPoint_healthy_mount_events_staged :
    simHost.GOOS ≠ "windows" ∧
      Go.result (ensureMountPoint simHost simDriver "/mnt/x" Sim.staged) = (true, none) ∧
      Event.ReadDir "/mnt/x" none ∈
        Go.events (ensureMountPoint simHost simDriver "/mnt/x" Sim.staged) ∧
      ∀ ev ∈ Go.events (ensureMountPoint simHost simDriver "/mnt/x" Sim.staged),
        ev.unmountsOrCreates = false :=
  ⟨by decide, by decide,
    (((ensureMountPoint_healthy_mount_events simHost simDriver "/mnt/x" Sim.staged
      (by decide)).1).1 (by decide)).2.2,
    (ensureMountPoint_healthy_mount_events simHost simDriver "/mnt/x" Sim.staged
      (by decide)).2 (by decide)⟩

/-- C8, on the staged node with the point query that misses the mount of
`/mnt/x`: the query answers not-a-mount without error, the mount table lists
and holds `/mnt/x`, the absolute path resolves and the directory lists, so
that `ensureMountPoint` returns `(true, nil)` by the mount-table route, and it
neither unmounts nor creates anything. -/
theorem ensureMountPoint_healthy_mount_iff_witness :
    (simHost.GOOS ≠ "windows" ∧
      simDriverBlind.mounter.isLikelyNotMountPoint "/mnt/x" Sim.staged =
        ((true, none), Sim.staged) ∧
      simDriverBlind.mounter.list Sim.staged =
        (([{ Device := "/dev/zram0", Path := "/mnt/x" }], none), Sim.staged) ∧
      simHost.abs "/mnt/x" Sim.staged = (("/mnt/x", none), Sim.staged) ∧
      simHost.readDir "/mnt/x" Sim.staged = (none, Sim.staged)) ∧
      Go.result (ensureMountPoint simHost simDriverBlind "/mnt/x" Sim.staged) = (true, none) ∧
      ∀ ev ∈ Go.events (ensureMountPoint simHost simDriverBlind "/mnt/x" Sim.staged),
        ev.unmountsOrCreates = false :=
  ⟨by decide,
    (ensureMountPoint_healthy_mount_iff simHost simDriverBlind "/mnt/x"
      Sim.staged Sim.staged Sim.staged Sim.staged Sim.staged Sim.staged true true none none none
      none none [{ Device := "/dev/zram0", Path := "/mnt/x" }] "/mnt/x"
      (by decide) (by decide) (by decide) (by decide) (by decide) (by decide)).1.mpr
      ⟨by decide, rfl, rfl, Or.inr (Or.inr ⟨_, List.mem_singleton.mpr rfl, rfl⟩), rfl⟩,
    (ensureMountPoint_healthy_mount_iff simHost simDriverBlind "/mnt/x"
      Sim.staged Sim.staged Sim.staged Sim.staged Sim.staged Sim.staged true true none none none
      none none [{ Device := "/dev/zram0", Path := "/mnt/x" }] "/mnt/x"
      (by decide) (by decide) (by decide) (by decide) (by decide) (by decide)).2.2
      ((ensureMountPoint_healthy_mount_iff simHost simDriverBlind "/mnt/x"
        Sim.staged Sim.staged Sim.staged Sim.staged Sim.staged Sim.staged true true none none
        none none none [{ Device := "/dev/zram0", Path := "/mnt/x" }] "/mnt/x"
        (by decide) (by decide) (by decide) (by decide) (by decide) (by decide)).1.mpr
        ⟨by decide, rfl, rfl, Or.inr (Or.inr ⟨_, List.mem_singleton.mpr rfl, rfl⟩), rfl⟩)⟩

/-- C9, witness: on the fresh node `/mnt/x` does not exist and nothing is
mounted; `ensureMountPoint` creates it and returns `(false, nil)`. -/
theorem ensureMountPoint_not_a_mount_witness :
    Event.IsLikelyNotMountPoint "/mnt/x" true (some (Sim.ENOENT "stat" "/mnt/x")) ∈
        Go.events (ensureMountPoint simHost simDriver "/mnt/x" Sim.fresh) ∧
      ∃ me, Event.MkdirAll "/mnt/x" 0o755 me ∈
          Go.events (ensureMountPoint simHost simDriver "/mnt/x" Sim.fresh) ∧
        Go.result (ensureMountPoint simHost simDriver "/mnt/x" Sim.fresh) =
          (false, if me.isSome && !os.IsExist me then me else none) :=
  ⟨by decide,
    ensureMountPoint_not_a_mount simHost simDriver "/mnt/x" Sim.fresh
      (some (Sim.ENOENT "stat" "/mnt/x")) (by decide) (Or.inr (by decide))
      (Or.inr ⟨[], "/mnt/x", by decide, by decide, by simp⟩)⟩

/-- A first stage on the fresh node succeeds and leaves the
staged node; the second stage of the same request on the staged node meets
the hypotheses and succeeds without any control-file, format or mount call. -/
theorem NodeStageVolume_restage_short_circuit_witness :
    (Go.result (NodeStageVolume simHost simDriver stageReq newVolumeLocks Sim.fresh)).1 =
        Outcome.ok {} ∧
      Go.state (NodeStageVolume simHost simDriver stageReq newVolumeLocks Sim.fresh) =
        Sim.staged ∧
      (Go.result (NodeStageVolume simHost simDriver stageReq newVolumeLocks Sim.staged)).1 =
        Outcome.ok {} ∧
      ∀ ev ∈ Go.events (NodeStageVolume simHost simDriver stageReq newVolumeLocks Sim.staged),
        ev.provisions = false :=
  ⟨by decide, by decide,
    (NodeStageVolume_restage_short_circuit simHost simDriver stageReq
      { AccessType := some (.Mount (some { FsType := "ext4", MountFlags := [] })) }
      { FsType := "ext4", MountFlags := [] } newVolumeLocks Sim.staged
      (by decide) rfl rfl (by decide) (by decide) (by decide) (by decide)).1,
    (NodeStageVolume_restage_short_circuit simHost simDriver stageReq
      { AccessType := some (.Mount (some { FsType := "ext4", MountFlags := [] })) }
      { FsType := "ext4", MountFlags := [] } newVolumeLocks Sim.staged
      (by decide) rfl rfl (by decide) (by decide) (by decide) (by decide)).2.2.2.2⟩

/-! ## Capability validation and the controller handlers -/

theorem isValidVolumeCapabilities.loop_eq_none_iff (volCaps : List VolumeCapability) :
    isValidVolumeCapabilities.loop volCaps = none ↔ ∀ c ∈ volCaps, c.GetBlock = none := by
  induction volCaps with
  | nil => simp [isValidVolumeCapabilities.loop]
  | cons c cs ih =>
    unfold isValidVolumeCapabilities.loop
    cases hb : c.GetBlock <;> simp [ih, hb]

theorem isValidVolumeCapabilities.loop_cases (volCaps : List VolumeCapability) :
    isValidVolumeCapabilities.loop volCaps = none ∨
      isValidVolumeCapabilities.loop volCaps =
        some (fmt.Errorf "block volume capability not supported") := by
  induction volCaps with
  | nil => simp [isValidVolumeCapabilities.loop]
  | cons c cs ih =>
    unfold isValidVolumeCapabilities.loop
    cases hb : c.GetBlock <;> simp [ih]

theorem VolumeCapability.getBlock_none_of_getMount {c : VolumeCapability}
    (h : c.GetMount ≠ none) : c.GetBlock = none := by
  rcases c with ⟨_ | _ | _⟩ <;> simp_all [VolumeCapability.GetMount, VolumeCapability.GetBlock]

/-- With a block entry in a non-empty list the check gives the block error. -/
theorem isValidVolumeCapabilities_block {volCaps : List VolumeCapability}
    (hb : ∃ c ∈ volCaps, c.GetBlock ≠ none) :
    isValidVolumeCapabilities volCaps =
      some (fmt.Errorf "block volume capability not supported") := by
  obtain ⟨c, hc, hcb⟩ := hb
  have hne : volCaps ≠ [] := List.ne_nil_of_mem hc
  have hl : isValidVolumeCapabilities.loop volCaps ≠ none := by
    rw [Ne, isValidVolumeCapabilities.loop_eq_none_iff]
    intro hall
    exact hcb (hall c hc)
  unfold isValidVolumeCapabilities
  rcases isValidVolumeCapabilities.loop_cases volCaps with h | h
  · exact absurd h hl
  · simp [hne, h]

/-- C16: `isValidVolumeCapabilities` returns an error exactly when the list is
empty or holds an entry of block type (one whose `GetBlock` is not nil): the
empty list gives "volume capabilities missing in request", a non-empty list
with a block entry gives "block volume capability not supported", and every
non-empty list whose entries are all of mount type is accepted. -/
theorem isValidVolumeCapabilities_error_iff (volCaps : List VolumeCapability) :
    ((isValidVolumeCapabilities volCaps).isSome ↔
      volCaps = [] ∨ ∃ c ∈ volCaps, c.GetBlock ≠ none) ∧
    (volCaps = [] →
      isValidVolumeCapabilities volCaps =
        some (fmt.Errorf "volume capabilities missing in request")) ∧
    (volCaps ≠ [] → (∃ c ∈ volCaps, c.GetBlock ≠ none) →
      isValidVolumeCapabilities volCaps =
        some (fmt.Errorf "block volume capability not supported")) ∧
    (volCaps ≠ [] → (∀ c ∈ volCaps, c.GetMount ≠ none) →
      isValidVolumeCapabilities volCaps = none) := by
  refine ⟨?_, ?_, ?_, ?_⟩
  · by_cases hne : volCaps = []
    · subst hne
      simp [isValidVolumeCapabilities]
    · by_cases hb : ∃ c ∈ volCaps, c.GetBlock ≠ none
      · simp [isValidVolumeCapabilities_block hb, hb]
      · have hl : isValidVolumeCapabilities.loop volCaps = none := by
          rw [isValidVolumeCapabilities.loop_eq_none_iff]
          intro c hc
          by_contra hcb
          exact hb ⟨c, hc, hcb⟩
        simp only [isValidVolumeCapabilities, hl, hne, hb, or_self, iff_false]
        simp [hne]
  · intro h
    subst h
    simp [isValidVolumeCapabilities]
  · intro _ hb
    exact isValidVolumeCapabilities_block hb
  · intro hne hm
    have hl : isValidVolumeCapabilities.loop volCaps = none := by
      rw [isValidVolumeCapabilities.loop_eq_none_iff]
      intro c hc
      exact VolumeCapability.getBlock_none_of_getMount (hm c hc)
    simp [isValidVolumeCapabilities, hne, hl]

/-- C16 on lists: the empty list, a list with a block entry after a mount
entry, and a list of two mount entries. -/
theorem isValidVolumeCapabilities_error_iff_examples :
    isValidVolumeCapabilities [] =
        some (fmt.Errorf "volume capabilities missing in request") ∧
      isValidVolumeCapabilities [mountCapability, blockCapability] =
        some (fmt.Errorf "block volume capability not supported") ∧
      isValidVolumeCapabilities [mountCapability, mountCapability] = none :=
  ⟨(isValidVolumeCapabilities_error_iff []).2.1 rfl,
    (isValidVolumeCapabilities_error_iff [mountCapability, blockCapability]).2.2.1
      (by decide) ⟨blockCapability, by decide, by decide⟩,
    (isValidVolumeCapabilities_error_iff [mountCapability, mountCapability]).2.2.2
      (by decide) (by decide)⟩

section Unsupported
variable {σ : Type}

/-- C15, as the code has it: each of snapshot create, delete and list,
`GetCapacity`, `ListVolumes`, `ControllerGetVolume`, `ControllerPublishVolume`,
`ControllerUnpublishVolume`, `ControllerExpandVolume` and `NodeExpandVolume` is
rejected with status code `Unimplemented` and a nil response, for every
request; a `CreateVolume` request with a name, or a `ValidateVolumeCapabilities`
request with a volume id, whose capability list holds a block-type entry is
rejected with status code `InvalidArgument`, message "block volume capability
not supported", and a nil response. -/
theorem unsupported_operations_rejected (d : Driver σ) (r : UnreadRequest)
    (cr : CreateVolumeRequest) (vr : ValidateVolumeCapabilitiesRequest) :
    CreateSnapshot r = .error (status.Error .Unimplemented "") ∧
    DeleteSnapshot r = .error (status.Error .Unimplemented "") ∧
    ListSnapshots r = .error (status.Error .Unimplemented "") ∧
    GetCapacity r = .error (status.Error .Unimplemented "") ∧
    ListVolumes r = .error (status.Error .Unimplemented "") ∧
    ControllerGetVolume r = .error (status.Error .Unimplemented "") ∧
    ControllerPublishVolume r = .error (status.Error .Unimplemented "") ∧
    ControllerUnpublishVolume r = .error (status.Error .Unimplemented "") ∧
    ControllerExpandVolume r = .error (status.Error .Unimplemented "") ∧
    NodeExpandVolume r = .error (status.Error .Unimplemented "") ∧
    (cr.Name ≠ "" → (∃ c ∈ cr.VolumeCapabilities, c.GetBlock ≠ none) →
      CreateVolume d cr =
        .error (status.Error .InvalidArgument "block volume capability not supported")) ∧
    (vr.VolumeId ≠ "" → (∃ c ∈ vr.VolumeCapabilities, c.GetBlock ≠ none) →
      ValidateVolumeCapabilities vr =
        .error (status.Error .InvalidArgument "block volume capability not supported")) := by
  refine ⟨rfl, rfl, rfl, rfl, rfl, rfl, rfl, rfl, rfl, rfl, ?_, ?_⟩
  · intro hname hb
    simp [CreateVolume, String.length_ne_zero_of_ne_empty _ hname,
      isValidVolumeCapabilities_block hb, GoError.Error, PlainError.Error]
  · intro hid hb
    simp [ValidateVolumeCapabilities, String.length_ne_zero_of_ne_empty _ hid,
      isValidVolumeCapabilities_block hb, GoError.Error, PlainError.Error]

/-- C15, at requests with a block capability: both are rejected with
`InvalidArgument`. -/
theorem unsupported_operations_rejected_witness :
    CreateVolume simDriver createBlockReq =
        .error (status.Error .InvalidArgument "block volume capability not supported") ∧
      ValidateVolumeCapabilities validateBlockReq =
        .error (status.Error .InvalidArgument "block volume capability not supported") :=
  ⟨(unsupported_operations_rejected simDriver ⟨"", ""⟩ createBlockReq validateBlockReq).2.2.2.2.2.2.2.2.2.2.1
      (by decide) ⟨blockCapability, by decide, by decide⟩,
    (unsupported_operations_rejected simDriver ⟨"", ""⟩ createBlockReq validateBlockReq).2.2.2.2.2.2.2.2.2.2.2
      (by decide) ⟨blockCapability, by decide, by decide⟩⟩

/-- C15, refuted as worded: a `ValidateVolumeCapabilities` request and a
`CreateVolume` request whose capability list holds a block-type entry are
rejected with a status code that is not `Unimplemented`. -/
theorem block_capability_not_rejected_as_unimplemented :
    (∃ c ∈ validateBlockReq.VolumeCapabilities, c.GetBlock ≠ none) ∧
      (∃ c ∈ createBlockReq.VolumeCapabilities, c.GetBlock ≠ none) ∧
      (∃ err, ValidateVolumeCapabilities validateBlockReq = .error err ∧
        err.code? = some Code.InvalidArgument ∧ err.code? ≠ some Code.Unimplemented) ∧
      (∃ err, CreateVolume simDriver createBlockReq = .error err ∧
        err.code? = some Code.InvalidArgument ∧ err.code? ≠ some Code.Unimplemented) :=
  ⟨⟨blockCapability, by decide, by decide⟩, ⟨blockCapability, by decide, by decide⟩,
    ⟨status.Error .InvalidArgument "block volume capability not supported",
      by decide, by decide, by decide⟩,
    ⟨status.Error .InvalidArgument "block volume capability not supported",
      by decide, by decide, by decide⟩⟩

end Unsupported

/-! ## Validation of the node requests -/

section Validation
variable {σ : Type}

/-- C17: `NodeStageVolume` rejects an empty volume id, then a nil capability,
then an empty staging path, and `NodeUnstageVolume` an empty volume id, then an
empty staging path, each with an `InvalidArgument` error whose message names
the field; the messages of one handler are pairwise distinct. The rejection is
the same on every lock table, held or not, makes no host call, and leaves the
host state and the lock table as they were. -/
theorem stage_unstage_validation [GoToolchain] (h : Host σ) (d : Driver σ) (req : NodeStageVolumeRequest)
    (ureq : NodeUnstageVolumeRequest) (volumeLocks : VolumeLocks) (s : σ) :
    (req.VolumeId = "" →
      NodeStageVolume h d req volumeLocks s =
        ((.error (status.Error .InvalidArgument "Volume ID missing in request"), volumeLocks),
          s, [])) ∧
    (req.VolumeId ≠ "" → req.VolumeCapability = none →
      NodeStageVolume h d req volumeLocks s =
        ((.error (status.Error .InvalidArgument "Volume capability not provided"), volumeLocks),
          s, [])) ∧
    (req.VolumeId ≠ "" → req.VolumeCapability ≠ none → req.StagingTargetPath = "" →
      NodeStageVolume h d req volumeLocks s =
        ((.error (status.Error .InvalidArgument "Staging target not provided"), volumeLocks),
          s, [])) ∧
    (ureq.VolumeId = "" →
      NodeUnstageVolume h d ureq volumeLocks s =
        ((.error (status.Error .InvalidArgument "Volume ID missing in request"), volumeLocks),
          s, [])) ∧
    (ureq.VolumeId ≠ "" → ureq.StagingTargetPath = "" →
      NodeUnstageVolume h d ureq volumeLocks s =
        ((.error (status.Error .InvalidArgument "Staging target not provided"), volumeLocks),
          s, [])) ∧
    ["Volume ID missing in request", "Volume capability not provided",
      "Staging target not provided"].Nodup := by
  refine ⟨?_, ?_, ?_, ?_, ?_, by decide⟩
  · intro hid
    unfold NodeStageVolume
    simp [hid, Go.bind_apply, Go.pure_apply]
  · intro hid hcap
    unfold NodeStageVolume
    simp [String.length_ne_zero_of_ne_empty _ hid, hcap, Go.bind_apply, Go.pure_apply]
  · intro hid hcap hpath
    obtain ⟨cap, hc⟩ := Option.ne_none_iff_exists'.mp hcap
    unfold NodeStageVolume
    simp [String.length_ne_zero_of_ne_empty _ hid, hc, hpath, Go.bind_apply, Go.pure_apply]
  · intro hid
    unfold NodeUnstageVolume
    simp [hid, Go.bind_apply, Go.pure_apply]
  · intro hid hpath
    unfold NodeUnstageVolume
    simp [String.length_ne_zero_of_ne_empty _ hid, hpath, Go.bind_apply, Go.pure_apply]

/-- C17, with the lock of the volume held: a stage request without capability
and an unstage request without staging path are rejected with
`InvalidArgument`, the staged node and the lock table unchanged. -/
theorem stage_unstage_validation_witness :
    "a#b#" ∈ heldLocks.locks ∧
      NodeStageVolume simHost simDriver { stageReq with VolumeCapability := none } heldLocks
          Sim.staged =
        ((.error (status.Error .InvalidArgument "Volume capability not provided"), heldLocks),
          Sim.staged, []) ∧
      NodeUnstageVolume simHost simDriver { unstageReq with StagingTargetPath := "" } heldLocks
          Sim.staged =
        ((.error (status.Error .InvalidArgument "Staging target not provided"), heldLocks),
          Sim.staged, []) :=
  ⟨by decide,
    (stage_unstage_validation simHost simDriver { stageReq with VolumeCapability := none }
      { unstageReq with StagingTargetPath := "" } heldLocks Sim.staged).2.1
      (by decide) rfl,
    (stage_unstage_validation simHost simDriver { stageReq with VolumeCapability := none }
      { unstageReq with StagingTargetPath := "" } heldLocks Sim.staged).2.2.2.2.1
      (by decide) rfl⟩

/-- C18: in `NodePublishVolume` the first missing input in the order
capability, volume id, target path, staging path decides the result, an
`InvalidArgument` error with the message of that input; no host call is made
(no mount query, directory creation or mount) and the host state is as
before. -/
theorem NodePublishVolume_validation [GoToolchain] (h : Host σ) (x : Helpers σ) (d : Driver σ)
    (req : NodePublishVolumeRequest) (s : σ) :
    (req.VolumeCapability = none →
      NodePublishVolume h x d req s =
        (.error (status.Error .InvalidArgument "Volume capability missing in request"),
          s, [])) ∧
    (req.VolumeCapability ≠ none → req.VolumeId = "" →
      NodePublishVolume h x d req s =
        (.error (status.Error .InvalidArgument "Volume ID missing in request"), s, [])) ∧
    (req.VolumeCapability ≠ none → req.VolumeId ≠ "" → req.TargetPath = "" →
      NodePublishVolume h x d req s =
        (.error (status.Error .InvalidArgument "Target path not provided"), s, [])) ∧
    (req.VolumeCapability ≠ none → req.VolumeId ≠ "" → req.TargetPath ≠ "" →
      req.StagingTargetPath = "" →
      NodePublishVolume h x d req s =
        (.error (status.Error .InvalidArgument "Staging target not provided"), s, [])) := by
  refine ⟨?_, ?_, ?_, ?_⟩
  · intro hcap
    unfold NodePublishVolume
    simp [hcap, Go.bind_apply, Go.pure_apply]
  · intro hcap hid
    obtain ⟨cap, hc⟩ := Option.ne_none_iff_exists'.mp hcap
    unfold NodePublishVolume
    simp [hc, hid, Go.bind_apply, Go.pure_apply]
  · intro hcap hid htarget
    obtain ⟨cap, hc⟩ := Option.ne_none_iff_exists'.mp hcap
    unfold NodePublishVolume
    simp [hc, String.length_ne_zero_of_ne_empty _ hid, htarget, Go.bind_apply, Go.pure_apply]
  · intro hcap hid htarget hsource
    obtain ⟨cap, hc⟩ := Option.ne_none_iff_exists'.mp hcap
    unfold NodePublishVolume
    simp [hc, String.length_ne_zero_of_ne_empty _ hid,
      String.length_ne_zero_of_ne_empty _ htarget, hsource, Go.bind_apply, Go.pure_apply]

/-- C18, on the staged node: the publish request without a staging path, and
the one with neither capability nor volume id. -/
theorem NodePublishVolume_validation_witness :
    NodePublishVolume simHost simHelpers simDriver { publishReq with StagingTargetPath := "" }
        Sim.staged =
      (.error (status.Error .InvalidArgument "Staging target not provided"), Sim.staged, []) ∧
    NodePublishVolume simHost simHelpers simDriver
        { publishReq with VolumeCapability := none, VolumeId := "" } Sim.staged =
      (.error (status.Error .InvalidArgument "Volume capability missing in request"),
        Sim.staged, []) :=
  ⟨(NodePublishVolume_validation simHost simHelpers simDriver
      { publishReq with StagingTargetPath := "" } Sim.staged).2.2.2
      (by decide) (by decide) (by decide) rfl,
    (NodePublishVolume_validation simHost simHelpers simDriver
      { publishReq with VolumeCapability := none, VolumeId := "" } Sim.staged).1 rfl⟩

end Validation

/-! ## NodePublishVolume -/

section Publish
variable {σ : Type}

theorem quiet_apply {α : Type} (f : σ → α × σ) (s : σ) :
    quiet f s = ((f s).1, (f s).2, []) := rfl

/-- The run of `NodePublishVolume` on a request with its four inputs, written
out call by call. -/
theorem NodePublishVolume_run [GoToolchain] (h : Host σ) (x : Helpers σ) (d : Driver σ)
    (req : NodePublishVolumeRequest) (s : σ)
    (hcap : req.VolumeCapability ≠ none) (hid : req.VolumeId ≠ "")
    (htarget : req.TargetPath ≠ "") (hsource : req.StagingTargetPath ≠ "") :
    NodePublishVolume h x d req s =
      match ensureMountPoint h d req.TargetPath s with
      | ((_, some err), s1, t1) =>
        (.error (status.Error .Internal
          ("Could not mount target " ++ strconv.Quote req.TargetPath ++ ": " ++ err.Error)),
          s1, t1)
      | ((true, none), s1, t1) => (.ok {}, s1, t1)
      | ((false, none), s1, t1) =>
        match x.preparePublishPath req.TargetPath d.mounter s1 with
        | (some perr, s2) =>
          (.error (fmt.Errorf
            ("prepare publish failed for " ++ req.TargetPath ++ " with error: " ++ perr.Error)),
            s2, t1)
        | (none, s2) =>
          match d.mounter.mount req.StagingTargetPath req.TargetPath ""
              (if req.Readonly then ["bind", "ro"] else ["bind"]) s2 with
          | (none, s3) =>
            (.ok {}, s3,
              t1 ++ [.Mount req.StagingTargetPath req.TargetPath ""
                (if req.Readonly then ["bind", "ro"] else ["bind"]) none])
          | (some merr, s3) =>
            match h.remove req.TargetPath s3 with
            | (none, s4) =>
              (.error (status.Error .Internal
                ("Could not mount " ++ strconv.Quote req.StagingTargetPath ++ " at " ++
                  strconv.Quote req.TargetPath ++ ": " ++ merr.Error)),
                s4,
                t1 ++ [.Mount req.StagingTargetPath req.TargetPath ""
                  (if req.Readonly then ["bind", "ro"] else ["bind"]) (some merr),
                  .Remove req.TargetPath none])
            | (some rerr, s4) =>
              (.error (status.Error .Internal
                ("Could not remove mount target " ++ strconv.Quote req.TargetPath ++ ": " ++
                  rerr.Error)),
                s4,
                t1 ++ [.Mount req.StagingTargetPath req.TargetPath ""
                  (if req.Readonly then ["bind", "ro"] else ["bind"]) (some merr),
                  .Remove req.TargetPath (some rerr)]) := by
  obtain ⟨vid, source, target, cap, ro⟩ := req
  simp only at hcap hid htarget hsource ⊢
  obtain ⟨c, rfl⟩ := Option.ne_none_iff_exists'.mp hcap
  have hv := String.length_ne_zero_of_ne_empty _ hid
  have ht := String.length_ne_zero_of_ne_empty _ htarget
  have hs := String.length_ne_zero_of_ne_empty _ hsource
  unfold NodePublishVolume
  generalize hr : ensureMountPoint h d target s = r
  obtain ⟨⟨mnt, err⟩, s1, t1⟩ := r
  cases err with
  | some e => simp [hv, ht, hs, Go.bind_apply, Go.pure_apply, Go.ite_apply, hr, fmtV]
  | none =>
    cases mnt with
    | true => simp [hv, ht, hs, Go.bind_apply, Go.pure_apply, Go.ite_apply, hr]
    | false =>
      generalize hp : x.preparePublishPath target d.mounter s1 = p
      obtain ⟨pe, s2⟩ := p
      cases pe with
      | some perr =>
        simp [hv, ht, hs, Go.bind_apply, Go.pure_apply, Go.ite_apply, quiet_apply, hr, hp, fmtV]
      | none =>
        cases ro with
        | false =>
          generalize hm : d.mounter.mount source target "" ["bind"] s2 = m
          obtain ⟨me, s3⟩ := m
          cases me with
          | none =>
            simp [hv, ht, hs, Go.bind_apply, Go.pure_apply, Go.ite_apply, quiet_apply,
              Mounter.Mount, call_apply, hr, hp, hm]
          | some merr =>
            generalize hrm : h.remove target s3 = rm
            obtain ⟨re, s4⟩ := rm
            cases re <;>
              simp [hv, ht, hs, Go.bind_apply, Go.pure_apply, Go.ite_apply, quiet_apply,
                Mounter.Mount, os.Remove, call_apply, hr, hp, hm, hrm]
        | true =>
          generalize hm : d.mounter.mount source target "" ["bind", "ro"] s2 = m
          obtain ⟨me, s3⟩ := m
          cases me with
          | none =>
            simp [hv, ht, hs, Go.bind_apply, Go.pure_apply, Go.ite_apply, quiet_apply,
              Mounter.Mount, call_apply, hr, hp, hm]
          | some merr =>
            generalize hrm : h.remove target s3 = rm
            obtain ⟨re, s4⟩ := rm
            cases re <;>
              simp [hv, ht, hs, Go.bind_apply, Go.pure_apply, Go.ite_apply, quiet_apply,
                Mounter.Mount, os.Remove, call_apply, hr, hp, hm, hrm]


/-- A publish request with its four inputs whose target `ensureMountPoint`
reports as already mounted, `(true, nil)`, is answered with success; the host
calls `NodePublishVolume` makes and the host state it leaves are those of
`ensureMountPoint`, and `Mount` is not called. -/
theorem NodePublishVolume_of_mounted [GoToolchain] (h : Host σ) (x : Helpers σ) (d : Driver σ)
    (req : NodePublishVolumeRequest) (s : σ)
    (hcap : req.VolumeCapability ≠ none) (hid : req.VolumeId ≠ "")
    (htarget : req.TargetPath ≠ "") (hsource : req.StagingTargetPath ≠ "")
    (hens : Go.result (ensureMountPoint h d req.TargetPath s) = (true, none)) :
    Go.result (NodePublishVolume h x d req s) = .ok {} ∧
      Go.state (NodePublishVolume h x d req s) =
        Go.state (ensureMountPoint h d req.TargetPath s) ∧
      Go.events (NodePublishVolume h x d req s) =
        Go.events (ensureMountPoint h d req.TargetPath s) ∧
      ∀ source target fstype options err,
        Event.Mount source target fstype options err ∉
          Go.events (NodePublishVolume h x d req s) := by
  have hrun : NodePublishVolume h x d req s =
      (.ok {}, Go.state (ensureMountPoint h d req.TargetPath s),
        Go.events (ensureMountPoint h d req.TargetPath s)) := by
    rw [NodePublishVolume_run h x d req s hcap hid htarget hsource]
    revert hens
    unfold Go.result Go.state Go.events
    generalize ensureMountPoint h d req.TargetPath s = r
    obtain ⟨⟨b, e⟩, s1, t1⟩ := r
    intro hens
    simp only [Prod.mk.injEq] at hens
    obtain ⟨rfl, rfl⟩ := hens
    rfl
  rw [hrun]
  refine ⟨rfl, rfl, rfl, ?_⟩
  intro source target fstype options err hev
  have := ensureMountPoint_no_provision h d _ _ _ hev
  simp [Event.provisions] at this

/-- C20, as the code has it: for a publish request with its four inputs, if
the bind-mount is attempted and fails, `NodePublishVolume` attempts to remove
the target directory; when the removal succeeds it returns an `Internal` error
that reports the mount failure, "Could not mount <staging> at <target>: <mount
error>" with both paths quoted, and when the removal fails it returns an
`Internal` error that reports the removal failure instead, "Could not remove
mount target <target>: <removal error>". -/
theorem NodePublishVolume_mount_failure [GoToolchain] (h : Host σ) (x : Helpers σ) (d : Driver σ)
    (req : NodePublishVolumeRequest) (s : σ) (source target fstype : String)
    (options : List String) (merr : GoError)
    (hcap : req.VolumeCapability ≠ none) (hid : req.VolumeId ≠ "")
    (htarget : req.TargetPath ≠ "") (hsource : req.StagingTargetPath ≠ "")
    (hmount : Event.Mount source target fstype options (some merr) ∈
      Go.events (NodePublishVolume h x d req s)) :
    ∃ rerr, Event.Remove req.TargetPath rerr ∈ Go.events (NodePublishVolume h x d req s) ∧
      Go.result (NodePublishVolume h x d req s) =
        .error (status.Error .Internal
          (match rerr with
          | none =>
            "Could not mount " ++ strconv.Quote req.StagingTargetPath ++ " at " ++
              strconv.Quote req.TargetPath ++ ": " ++ merr.Error
          | some removeErr =>
            "Could not remove mount target " ++ strconv.Quote req.TargetPath ++ ": " ++
              removeErr.Error)) := by
  have hno : ∀ s0, Event.Mount source target fstype options (some merr) ∉
      Go.events (ensureMountPoint h d req.TargetPath s0) := by
    intro s0 hev
    have := ensureMountPoint_no_provision h d _ _ _ hev
    simp [Event.provisions] at this
  revert hmount
  rw [NodePublishVolume_run h x d req s hcap hid htarget hsource]
  have hno := hno s
  revert hno
  unfold Go.events
  generalize ensureMountPoint h d req.TargetPath s = r
  obtain ⟨⟨mnt, err⟩, s1, t1⟩ := r
  intro hno
  cases err with
  | some e => cases mnt <;> (intro hmount; exact absurd hmount hno)
  | none =>
    cases mnt with
    | true => intro hmount; exact absurd hmount hno
    | false =>
      simp only
      generalize x.preparePublishPath req.TargetPath d.mounter s1 = p
      obtain ⟨pe, s2⟩ := p
      cases pe with
      | some perr => intro hmount; exact absurd hmount hno
      | none =>
        simp only
        generalize d.mounter.mount req.StagingTargetPath req.TargetPath ""
          (if req.Readonly then ["bind", "ro"] else ["bind"]) s2 = m
        obtain ⟨me, s3⟩ := m
        cases me with
        | none =>
          intro hmount
          simp only [List.mem_append, List.mem_singleton, Event.Mount.injEq] at hmount
          rcases hmount with hmount | hmount
          · exact absurd hmount hno
          · simp at hmount
        | some merr1 =>
          simp only
          generalize h.remove req.TargetPath s3 = rm
          obtain ⟨re, s4⟩ := rm
          intro hmount
          have hm : merr1 = merr := by
            cases re <;>
            · simp only [List.mem_append, List.mem_cons, Event.Mount.injEq, List.mem_singleton,
                List.not_mem_nil, or_false] at hmount
              rcases hmount with hmount | hmount | hmount
              · exact absurd hmount hno
              · exact (Option.some.inj hmount.2.2.2.2).symm
              · simp at hmount
          subst hm
          refine ⟨re, ?_, ?_⟩
          · cases re <;> simp [Go.result]
          · cases re <;> simp [Go.result]

end Publish

/-! ## Publish on the simulated node -/

/-- On the staged node the first publish mounts `/mnt/x` at `/pod/x`; on
the node it leaves, `ensureMountPoint` reports `/pod/x` as mounted and the
second publish of the same request succeeds without calling `Mount`, so that
the mount table keeps exactly one entry for `/pod/x`. -/
theorem NodePublishVolume_of_mounted_twice :
    NodePublishVolume simHost simHelpers simDriver publishReq Sim.staged =
        (.ok {}, Sim.published,
          [Event.IsLikelyNotMountPoint "/pod/x" true (some (Sim.ENOENT "stat" "/pod/x")),
            Event.List [{ Device := "/dev/zram0", Path := "/mnt/x" }] none,
            Event.Abs "/pod/x" "/pod/x" none,
            Event.MkdirAll "/pod/x" 0o755 none,
            Event.Mount "/mnt/x" "/pod/x" "" ["bind"] none]) ∧
      Go.result (ensureMountPoint simHost simDriver publishReq.TargetPath Sim.published) =
        (true, none) ∧
      (Go.result (NodePublishVolume simHost simHelpers simDriver publishReq Sim.published) =
          .ok {} ∧
        Go.state (NodePublishVolume simHost simHelpers simDriver publishReq Sim.published) =
          Go.state (ensureMountPoint simHost simDriver publishReq.TargetPath Sim.published) ∧
        Go.events (NodePublishVolume simHost simHelpers simDriver publishReq Sim.published) =
          Go.events (ensureMountPoint simHost simDriver publishReq.TargetPath Sim.published) ∧
        ∀ source target fstype options err,
          Event.Mount source target fstype options err ∉
            Go.events (NodePublishVolume simHost simHelpers simDriver publishReq
              Sim.published)) ∧
      ((Go.state (NodePublishVolume simHost simHelpers simDriver publishReq
        Sim.published)).mounts.filter fun mp => mp.Path == "/pod/x").length = 1 :=
  ⟨by decide, by decide,
    NodePublishVolume_of_mounted simHost simHelpers simDriver publishReq Sim.published
      (by decide) (by decide) (by decide) (by decide) (by decide),
    by decide⟩

/-- C20, refuted as worded: on a node where the bind-mount fails and the
target directory cannot be removed, the publish request is valid, its target
is not mounted, the mount is attempted and fails, the removal is attempted,
and the error returned reports the failed removal, not the mount failure. -/
theorem NodePublishVolume_reports_removal_failure :
    Go.result (ensureMountPoint simHostRemoveFails simDriverMountFails publishReq.TargetPath
        Sim.staged) = (false, none) ∧
      NodePublishVolume simHostRemoveFails simHelpers simDriverMountFails publishReq Sim.staged =
        (.error (status.Error .Internal
          "Could not remove mount target \"/pod/x\": remove /pod/x: operation not permitted"),
          { Sim.staged with dirs := ["/mnt/x", "/pod/x"] },
          [Event.IsLikelyNotMountPoint "/pod/x" true (some (Sim.ENOENT "stat" "/pod/x")),
            Event.List [{ Device := "/dev/zram0", Path := "/mnt/x" }] none,
            Event.Abs "/pod/x" "/pod/x" none,
            Event.MkdirAll "/pod/x" 0o755 none,
            Event.Mount "/mnt/x" "/pod/x" "" ["bind"] (some (Sim.EPERM "mount" "/mnt/x")),
            Event.Remove "/pod/x" (some (Sim.EPERM "remove" "/pod/x"))]) ∧
      Go.result (NodePublishVolume simHostRemoveFails simHelpers simDriverMountFails publishReq
          Sim.staged) ≠
        .error (status.Error .Internal
          ("Could not mount " ++ strconv.Quote "/mnt/x" ++ " at " ++ strconv.Quote "/pod/x" ++
            ": " ++ (Sim.EPERM "mount" "/mnt/x").Error)) := by
  decide

/-- C20, on the staged node where the bind-mount fails: the removal of
`/pod/x` is attempted and, as it succeeds, the error reports the mount
failure. -/
theorem NodePublishVolume_mount_failure_witness :
    Event.Mount "/mnt/x" "/pod/x" "" ["bind"] (some (Sim.EPERM "mount" "/mnt/x")) ∈
        Go.events (NodePublishVolume simHost simHelpers simDriverMountFails publishReq
          Sim.staged) ∧
      ∃ rerr,
        Event.Remove publishReq.TargetPath rerr ∈
          Go.events (NodePublishVolume simHost simHelpers simDriverMountFails publishReq
            Sim.staged) ∧
        Go.result (NodePublishVolume simHost simHelpers simDriverMountFails publishReq
            Sim.staged) =
          .error (status.Error .Internal
            (match rerr with
            | none =>
              "Could not mount " ++ strconv.Quote publishReq.StagingTargetPath ++ " at " ++
                strconv.Quote publishReq.TargetPath ++ ": " ++
                (Sim.EPERM "mount" "/mnt/x").Error
            | some removeErr =>
              "Could not remove mount target " ++ strconv.Quote publishReq.TargetPath ++ ": " ++
                removeErr.Error)) :=
  ⟨by decide,
    NodePublishVolume_mount_failure simHost simHelpers simDriverMountFails publishReq Sim.staged
      "/mnt/x" "/pod/x" "" ["bind"] (Sim.EPERM "mount" "/mnt/x")
      (by decide) (by decide) (by decide) (by decide) (by decide)⟩

/-- C14, evaluated: on the staged node, when `preparePublishPath` fails, the
error `NodePublishVolume` returns is the one made with `fmt.Errorf`; it carries
no status code and so is outside the taxonomy. -/
theorem NodePublishVolume_prepare_error_is_not_a_status_error :
    NodePublishVolume simHost simHelpersPrepareFails simDriver publishReq Sim.staged =
        (.error (fmt.Errorf
          "prepare publish failed for /pod/x with error: remove /pod/x: operation not permitted"),
          { Sim.staged with dirs := ["/mnt/x", "/pod/x"] },
          [Event.IsLikelyNotMountPoint "/pod/x" true (some (Sim.ENOENT "stat" "/pod/x")),
            Event.List [{ Device := "/dev/zram0", Path := "/mnt/x" }] none,
            Event.Abs "/pod/x" "/pod/x" none,
            Event.MkdirAll "/pod/x" 0o755 none]) ∧
      (fmt.Errorf
        "prepare publish failed for /pod/x with error: remove /pod/x: operation not permitted").code?
        = none ∧
      (Go.result (NodePublishVolume simHost simHelpersPrepareFails simDriver publishReq
        Sim.staged)).conforms = false := by
  decide

/-! ## Publishing twice on the simulated node -/

section PublishTwice

/-- On the simulated node, with either point query, `ensureMountPoint` returns
`(true, nil)` exactly when the target is in the mount table, exists and is not
stale, and then it leaves the node as it is; it returns `(false, nil)` only
when the target is not stale and not in the mount table, and then it leaves the
node with the target directory made. -/
theorem sim_ensureMountPoint (d : Driver Sim) (hd : d = simDriver ∨ d = simDriverBlind)
    (target : String) (s : Sim) :
    (Go.result (ensureMountPoint simHost d target s) = (true, none) ↔
      target ∉ s.stale ∧ target ∈ s.dirs ∧ ∃ mp ∈ s.mounts, mp.Path = target) ∧
    (Go.result (ensureMountPoint simHost d target s) = (true, none) →
      Go.state (ensureMountPoint simHost d target s) = s) ∧
    (Go.result (ensureMountPoint simHost d target s) = (false, none) →
      target ∉ s.stale ∧ (∀ mp ∈ s.mounts, mp.Path ≠ target) ∧
        Go.state (ensureMountPoint simHost d target s) = (simHost.mkdirAll target 0o755 s).2) := by
  have hos : simHost.GOOS ≠ "windows" := by decide
  have hl : d.mounter.list s = ((s.mounts, none), s) := by rcases hd with rfl | rfl <;> rfl
  have ha : simHost.abs target s = ((target, none), s) := rfl
  by_cases hst : target ∈ s.stale
  · have hq : d.mounter.isLikelyNotMountPoint target s =
        ((true, some (Sim.ENOTCONN "stat" target)), s) := by
      rcases hd with rfl | rfl <;>
        simp [simDriver, simDriverBlind, simMounter, simMounterBlind, hst]
    have hp : simHost.pathExists target s = ((false, some (Sim.ENOTCONN "stat" target)), s) := by
      simp [simHost, hst]
    have hr : simHost.readDir target s = (some (Sim.ENOTCONN "open" target), s) := by
      simp [simHost, hst]
    have hl' : d.mounter.list (if (some (Sim.ENOTCONN "stat" target)).isSome &&
        !os.IsNotExist (some (Sim.ENOTCONN "stat" target)) then s else s) =
        ((s.mounts, none), s) := by simpa using hl
    have h1 := ensureMountPoint_true_nil_iff simHost d target s s s s s s true false _ _ _ _ _
      _ _ hos hq hp hl' ha hr
    have h2 := ensureMountPoint_states simHost d target s s s s s s true false _ _ _ _ _
      _ _ hos hq hp hl' ha hr
    refine ⟨?_, ?_, ?_⟩
    · rw [h1]; simp [hst]
    · intro hres; exact h2.1 hres
    · intro hres
      have := (h2.2 hres).1
      simp [Sim.ENOTCONN, os.IsNotExist] at this
  · by_cases hdir : target ∈ s.dirs
    · have hp : simHost.pathExists target s = ((true, none), s) := by
        simp [simHost, hst, hdir]
      have hr : simHost.readDir target s = (none, s) := by
        simp [simHost, hst, hdir]
      rcases hd with rfl | rfl
      · have hq : simDriver.mounter.isLikelyNotMountPoint target s =
            ((!(s.mounts.any fun mp => mp.Path == target), none), s) := by
          simp [simDriver, simMounter, hst, hdir]
        have hl' : simDriver.mounter.list (if (none : Option GoError).isSome &&
            !os.IsNotExist none then s else s) = ((s.mounts, none), s) := by simpa using hl
        have h1 := ensureMountPoint_true_nil_iff simHost simDriver target s s s s s s _ true
          _ _ _ _ _ _ _ hos hq hp hl' ha hr
        have h2 := ensureMountPoint_states simHost simDriver target s s s s s s _ true
          _ _ _ _ _ _ _ hos hq hp hl' ha hr
        refine ⟨?_, ?_, ?_⟩
        · rw [h1]; simp [hst, hdir]
        · intro hres; exact h2.1 hres
        · intro hres
          obtain ⟨_, _, _, _, hno, hstate⟩ := h2.2 hres
          exact ⟨hst, hno, hstate⟩
      · have hq : simDriverBlind.mounter.isLikelyNotMountPoint target s =
            ((true, none), s) := by
          simp [simDriverBlind, simMounterBlind, hst, hdir]
        have hl' : simDriverBlind.mounter.list (if (none : Option GoError).isSome &&
            !os.IsNotExist none then s else s) = ((s.mounts, none), s) := by simpa using hl
        have h1 := ensureMountPoint_true_nil_iff simHost simDriverBlind target s s s s s s _
          true _ _ _ _ _ _ _ hos hq hp hl' ha hr
        have h2 := ensureMountPoint_states simHost simDriverBlind target s s s s s s _ true
          _ _ _ _ _ _ _ hos hq hp hl' ha hr
        refine ⟨?_, ?_, ?_⟩
        · rw [h1]; simp [hst, hdir]
        · intro hres; exact h2.1 hres
        · intro hres
          obtain ⟨_, _, _, _, hno, hstate⟩ := h2.2 hres
          exact ⟨hst, hno, hstate⟩
    · have hq : d.mounter.isLikelyNotMountPoint target s =
          ((true, some (Sim.ENOENT "stat" target)), s) := by
        rcases hd with rfl | rfl <;>
          simp [simDriver, simDriverBlind, simMounter, simMounterBlind, hst, hdir]
      have hp : simHost.pathExists target s = ((false, none), s) := by
        simp [simHost, hst, hdir]
      have hr : simHost.readDir target s = (some (Sim.ENOENT "open" target), s) := by
        simp [simHost, hst, hdir]
      have hl' : d.mounter.list (if (some (Sim.ENOENT "stat" target)).isSome &&
          !os.IsNotExist (some (Sim.ENOENT "stat" target)) then s else s) =
          ((s.mounts, none), s) := by simpa using hl
      have h1 := ensureMountPoint_true_nil_iff simHost d target s s s s s s true false _ _ _ _
        _ _ _ hos hq hp hl' ha hr
      have h2 := ensureMountPoint_states simHost d target s s s s s s true false _ _ _ _ _
        _ _ hos hq hp hl' ha hr
      refine ⟨?_, ?_, ?_⟩
      · rw [h1]; simp [hst, hdir]
      · intro hres; exact h2.1 hres
      · intro hres
        obtain ⟨_, _, _, _, hno, hstate⟩ := h2.2 hres
        exact ⟨hst, hno, hstate⟩

/-- On the simulated node, with either point query and a `preparePublishPath`
that leaves the node as it is when it succeeds: a publish that succeeds either
found the target mounted and left the node as it is, or found it neither stale
nor in the mount table and left it with the target directory made and one new
entry for the target at the end of the mount table. -/
theorem sim_publish_ok [GoToolchain] (x : Helpers Sim) (d : Driver Sim)
    (hd : d = simDriver ∨ d = simDriverBlind)
    (hx : ∀ p m s0, (x.preparePublishPath p m s0).1 = none →
      (x.preparePublishPath p m s0).2 = s0)
    (req : NodePublishVolumeRequest) (s : Sim)
    (hcap : req.VolumeCapability ≠ none) (hid : req.VolumeId ≠ "")
    (htarget : req.TargetPath ≠ "") (hsource : req.StagingTargetPath ≠ "")
    (hok : Go.result (NodePublishVolume simHost x d req s) = .ok {}) :
    (Go.result (ensureMountPoint simHost d req.TargetPath s) = (true, none) ∧
        Go.state (NodePublishVolume simHost x d req s) = s) ∨
      (req.TargetPath ∉ s.stale ∧ (∀ mp ∈ s.mounts, mp.Path ≠ req.TargetPath) ∧
        Go.state (NodePublishVolume simHost x d req s) =
          { (simHost.mkdirAll req.TargetPath 0o755 s).2 with
            mounts := s.mounts ++ [{ Device := req.StagingTargetPath, Path := req.TargetPath }] }) := by
  obtain ⟨_, htrue, hfalse⟩ := sim_ensureMountPoint d hd req.TargetPath s
  have hmount : ∀ opts s0, d.mounter.mount req.StagingTargetPath req.TargetPath "" opts s0 =
      (none, { s0 with mounts := s0.mounts ++
        [{ Device := req.StagingTargetPath, Path := req.TargetPath }] }) := by
    intro opts s0
    rcases hd with rfl | rfl <;> rfl
  have hmk : (simHost.mkdirAll req.TargetPath 0o755 s).2.mounts = s.mounts := by
    simp only [simHost]
    split <;> rfl
  revert hok
  rw [NodePublishVolume_run simHost x d req s hcap hid htarget hsource]
  revert htrue hfalse
  unfold Go.result Go.state
  generalize ensureMountPoint simHost d req.TargetPath s = r
  obtain ⟨⟨mnt, err⟩, s1, t1⟩ := r
  intro htrue hfalse
  cases err with
  | some e => intro hok; simp at hok
  | none =>
    cases mnt with
    | true =>
      intro _
      left
      exact ⟨rfl, htrue rfl⟩
    | false =>
      obtain ⟨hst, hno, hs1⟩ := hfalse rfl
      simp only at hs1
      subst hs1
      simp only
      have hx' := hx req.TargetPath d.mounter (simHost.mkdirAll req.TargetPath 0o755 s).2
      revert hx'
      generalize x.preparePublishPath req.TargetPath d.mounter
        (simHost.mkdirAll req.TargetPath 0o755 s).2 = p
      obtain ⟨pe, s2⟩ := p
      intro hx'
      cases pe with
      | some perr => intro hok; simp at hok
      | none =>
        have hs2 := hx' rfl
        simp only at hs2
        subst hs2
        simp only [hmount]
        intro _
        right
        refine ⟨hst, hno, ?_⟩
        simp only [hmk]

/-- C19: for a publish request with its four inputs. On every node, if
`ensureMountPoint` reports the target as already mounted, `(true, nil)`,
`NodePublishVolume` answers with success, the host calls it makes and the host
state it leaves are those of `ensureMountPoint`, and `Mount` is not called. And
on the simulated node, in every state of it, with the point query that sees
the mount table or the one that misses bind mounts, and a `preparePublishPath`
that leaves the node as it is when it succeeds: if a publish succeeds, then the
publish of the same request on the node it leaves succeeds as well, calls no
`Mount` and leaves the node as it is, and the mount table has exactly one
entry for the target when it had none before the first publish. -/
theorem NodePublishVolume_already_mounted [GoToolchain] (req : NodePublishVolumeRequest)
    (hcap : req.VolumeCapability ≠ none) (hid : req.VolumeId ≠ "")
    (htarget : req.TargetPath ≠ "") (hsource : req.StagingTargetPath ≠ "") :
    (∀ (σ : Type) (h : Host σ) (x : Helpers σ) (d : Driver σ) (s : σ),
      Go.result (ensureMountPoint h d req.TargetPath s) = (true, none) →
      Go.result (NodePublishVolume h x d req s) = .ok {} ∧
        Go.state (NodePublishVolume h x d req s) =
          Go.state (ensureMountPoint h d req.TargetPath s) ∧
        Go.events (NodePublishVolume h x d req s) =
          Go.events (ensureMountPoint h d req.TargetPath s) ∧
        ∀ source target fstype options err,
          Event.Mount source target fstype options err ∉
            Go.events (NodePublishVolume h x d req s)) ∧
    (∀ (x : Helpers Sim) (d : Driver Sim) (s : Sim),
      (d = simDriver ∨ d = simDriverBlind) →
      (∀ p m s0, (x.preparePublishPath p m s0).1 = none →
        (x.preparePublishPath p m s0).2 = s0) →
      Go.result (NodePublishVolume simHost x d req s) = .ok {} →
      Go.result (NodePublishVolume simHost x d req
          (Go.state (NodePublishVolume simHost x d req s))) = .ok {} ∧
        (∀ source target fstype options err,
          Event.Mount source target fstype options err ∉
            Go.events (NodePublishVolume simHost x d req
              (Go.state (NodePublishVolume simHost x d req s)))) ∧
        Go.state (NodePublishVolume simHost x d req
            (Go.state (NodePublishVolume simHost x d req s))) =
          Go.state (NodePublishVolume simHost x d req s) ∧
        ((∀ mp ∈ s.mounts, mp.Path ≠ req.TargetPath) →
          ((Go.state (NodePublishVolume simHost x d req
            (Go.state (NodePublishVolume simHost x d req s)))).mounts.filter
              fun mp => mp.Path == req.TargetPath).length = 1)) := by
  refine ⟨fun σ h x d s hens =>
    NodePublishVolume_of_mounted h x d req s hcap hid htarget hsource hens, ?_⟩
  intro x d s hd hx hok
  rcases sim_publish_ok x d hd hx req s hcap hid htarget hsource hok with
    ⟨hens, hstate⟩ | ⟨hst, hno, hstate⟩
  · rw [hstate]
    obtain ⟨h1, h2, _, h4⟩ :=
      NodePublishVolume_of_mounted simHost x d req s hcap hid htarget hsource hens
    have h5 := ((sim_ensureMountPoint d hd req.TargetPath s).2.1 hens)
    refine ⟨h1, h4, h2.trans h5, fun hno => ?_⟩
    obtain ⟨_, _, mp, hmp, hpath⟩ := (sim_ensureMountPoint d hd req.TargetPath s).1.mp hens
    exact absurd hpath (hno mp hmp)
  · rw [hstate]
    have hdirs : req.TargetPath ∈ (simHost.mkdirAll req.TargetPath 0o755 s).2.dirs := by
      simp only [simHost]
      split
      · assumption
      · simp
    have hstale : (simHost.mkdirAll req.TargetPath 0o755 s).2.stale = s.stale := by
      simp only [simHost]
      split <;> rfl
    have hens : Go.result (ensureMountPoint simHost d req.TargetPath
        { (simHost.mkdirAll req.TargetPath 0o755 s).2 with
          mounts := s.mounts ++
            [{ Device := req.StagingTargetPath, Path := req.TargetPath }] }) = (true, none) := by
      rw [(sim_ensureMountPoint d hd req.TargetPath _).1]
      refine ⟨by simpa [hstale] using hst, hdirs, ⟨_, List.mem_append_right _
        (List.mem_singleton.mpr rfl), rfl⟩⟩
    obtain ⟨h1, h2, _, h4⟩ :=
      NodePublishVolume_of_mounted simHost x d req _ hcap hid htarget hsource hens
    have h5 := ((sim_ensureMountPoint d hd req.TargetPath _).2.1 hens)
    refine ⟨h1, h4, h2.trans h5, fun _ => ?_⟩
    rw [h2.trans h5]
    have hf : (s.mounts.filter fun mp => mp.Path == req.TargetPath) = [] := by
      rw [List.filter_eq_nil_iff]
      intro mp hmp
      simpa using hno mp hmp
    simp [List.filter_append, hf]

end PublishTwice

/-- C19, on the staged node with the point query that misses bind mounts: the
first publish mounts `/mnt/x` at `/pod/x`; the second publish of the same
request, on the node the first leaves, finds `/pod/x` in the mount table,
succeeds without calling `Mount` and leaves the node as it is, with exactly
one entry for `/pod/x` in the mount table. -/
theorem NodePublishVolume_already_mounted_witness :
    NodePublishVolume simHost simHelpers simDriverBlind publishReq Sim.staged =
        (.ok {}, Sim.published,
          [Event.IsLikelyNotMountPoint "/pod/x" true (some (Sim.ENOENT "stat" "/pod/x")),
            Event.List [{ Device := "/dev/zram0", Path := "/mnt/x" }] none,
            Event.Abs "/pod/x" "/pod/x" none,
            Event.MkdirAll "/pod/x" 0o755 none,
            Event.Mount "/mnt/x" "/pod/x" "" ["bind"] none]) ∧
      Go.events (NodePublishVolume simHost simHelpers simDriverBlind publishReq Sim.published) =
        [Event.IsLikelyNotMountPoint "/pod/x" true none,
          Event.List [{ Device := "/dev/zram0", Path := "/mnt/x" },
            { Device := "/mnt/x", Path := "/pod/x" }] none,
          Event.Abs "/pod/x" "/pod/x" none,
          Event.ReadDir "/pod/x" none] ∧
      Go.result (NodePublishVolume simHost simHelpers simDriverBlind publishReq
          (Go.state (NodePublishVolume simHost simHelpers simDriverBlind publishReq
            Sim.staged))) = .ok {} ∧
      (∀ source target fstype options err,
        Event.Mount source target fstype options err ∉
          Go.events (NodePublishVolume simHost simHelpers simDriverBlind publishReq
            (Go.state (NodePublishVolume simHost simHelpers simDriverBlind publishReq
              Sim.staged)))) ∧
      Go.state (NodePublishVolume simHost simHelpers simDriverBlind publishReq
          (Go.state (NodePublishVolume simHost simHelpers simDriverBlind publishReq
            Sim.staged))) =
        Go.state (NodePublishVolume simHost simHelpers simDriverBlind publishReq Sim.staged) ∧
      ((Go.state (NodePublishVolume simHost simHelpers simDriverBlind publishReq
        (Go.state (NodePublishVolume simHost simHelpers simDriverBlind publishReq
          Sim.staged)))).mounts.filter fun mp => mp.Path == publishReq.TargetPath).length = 1 :=
  ⟨by decide, by decide,
    ((NodePublishVolume_already_mounted publishReq (by decide) (by decide) (by decide)
      (by decide)).2 simHelpers simDriverBlind Sim.staged (Or.inr rfl) (fun _ _ _ _ => rfl)
      (by decide)).1,
    ((NodePublishVolume_already_mounted publishReq (by decide) (by decide) (by decide)
      (by decide)).2 simHelpers simDriverBlind Sim.staged (Or.inr rfl) (fun _ _ _ _ => rfl)
      (by decide)).2.1,
    ((NodePublishVolume_already_mounted publishReq (by decide) (by decide) (by decide)
      (by decide)).2 simHelpers simDriverBlind Sim.staged (Or.inr rfl) (fun _ _ _ _ => rfl)
      (by decide)).2.2.1,
    ((NodePublishVolume_already_mounted publishReq (by decide) (by decide) (by decide)
      (by decide)).2 simHelpers simDriverBlind Sim.staged (Or.inr rfl) (fun _ _ _ _ => rfl)
      (by decide)).2.2.2 (by decide)⟩

/-! ## The error taxonomy -/

section Taxonomy
variable {σ : Type}

/-- A property of the result that holds whatever the first computation
returned holds of the sequence. -/
theorem Go.result_bind_of {α β : Type} (P : β → Prop) (m : Go σ α) (f : α → Go σ β) (s : σ)
    (hf : ∀ a s1, P (Go.result (f a s1))) : P (Go.result ((m >>= f) s)) := by
  rw [Go.bind_apply]
  exact hf (m s).1 (m s).2.1

theorem conforms_bind {α ρ : Type} (m : Go σ α) (f : α → Go σ (Outcome ρ)) (s : σ)
    (hf : ∀ a s1, (Go.result (f a s1)).conforms = true) :
    (Go.result ((m >>= f) s)).conforms = true :=
  Go.result_bind_of (fun r => r.conforms = true) m f s hf

theorem conforms_fst_bind {α ρ γ : Type} (m : Go σ α) (f : α → Go σ (Outcome ρ × γ)) (s : σ)
    (hf : ∀ a s1, (Go.result (f a s1)).1.conforms = true) :
    (Go.result ((m >>= f) s)).1.conforms = true :=
  Go.result_bind_of (fun r => r.1.conforms = true) m f s hf

/-- Every error of the locked part of `NodeStageVolume` is a status error of
the taxonomy. -/
theorem stage_locked_conforms [GoToolchain] (h : Host σ) (d : Driver σ) (volumeID targetPath : String)
    (context : List (String × String)) (fsType : String) (mountFlags : List String) (s : σ) :
    (Go.result (NodeStageVolume.locked h d volumeID targetPath context fsType mountFlags
      s)).conforms = true := by
  unfold NodeStageVolume.locked
  repeat' (first
    | rfl
    | (apply conforms_bind; intro _ _)
    | split)


theorem conforms_fst_bind_pure {ρ γ : Type} (m : Go σ (Outcome ρ)) (g : γ) (s : σ)
    (hm : (Go.result (m s)).conforms = true) :
    (Go.result ((m >>= fun out => pure (out, g)) s)).1.conforms = true := hm

/-- Every error of `NodeStageVolume` is a status error of the taxonomy. -/
theorem NodeStageVolume_conforms [GoToolchain] (h : Host σ) (d : Driver σ) (req : NodeStageVolumeRequest)
    (volumeLocks : VolumeLocks) (s : σ) :
    (Go.result (NodeStageVolume h d req volumeLocks s)).1.conforms = true := by
  have hl := stage_locked_conforms h d
  unfold NodeStageVolume Go.result
  unfold Go.result at hl
  repeat (first | rfl | split | simp only [Go.bind_apply, Go.pure_apply, Go.ite_apply])
  all_goals simp_all

/-- Every error of the locked part of `NodeUnstageVolume` is a status error of
the taxonomy. -/
theorem unstage_locked_conforms [GoToolchain] (h : Host σ) (stagingTargetPath : String) (s : σ) :
    (Go.result (NodeUnstageVolume.locked h stagingTargetPath s)).conforms = true := by
  unfold NodeUnstageVolume.locked
  repeat' (first
    | rfl
    | (apply conforms_bind; intro _ _)
    | split)

/-- Every error of `NodeUnstageVolume` is a status error of the taxonomy. -/
theorem NodeUnstageVolume_conforms [GoToolchain] (h : Host σ) (d : Driver σ) (req : NodeUnstageVolumeRequest)
    (volumeLocks : VolumeLocks) (s : σ) :
    (Go.result (NodeUnstageVolume h d req volumeLocks s)).1.conforms = true := by
  have hl := unstage_locked_conforms h
  unfold NodeUnstageVolume Go.result
  unfold Go.result at hl
  repeat (first | rfl | split | simp only [Go.bind_apply, Go.pure_apply, Go.ite_apply])
  all_goals simp_all

/-- Every error of `NodePublishVolume` is a status error of the taxonomy, but
for the one that wraps the error of `preparePublishPath`. -/
theorem NodePublishVolume_conforms_or_prepare [GoToolchain] (h : Host σ) (x : Helpers σ) (d : Driver σ)
    (req : NodePublishVolumeRequest) (s : σ) :
    (Go.result (NodePublishVolume h x d req s)).conforms = true ∨
      ∃ err, Go.result (NodePublishVolume h x d req s) =
        .error (fmt.Errorf
          ("prepare publish failed for " ++ req.TargetPath ++ " with error: " ++ fmtV err)) := by
  by_cases hcap : req.VolumeCapability = none
  · left
    unfold NodePublishVolume
    simp [hcap, Go.bind_apply, Go.pure_apply, Go.result, Outcome.conforms, GoError.inTaxonomy,
      GoError.code?, taxonomy]
  by_cases hid : req.VolumeId = ""
  · left
    obtain ⟨cap, hc⟩ := Option.ne_none_iff_exists'.mp hcap
    unfold NodePublishVolume
    simp [hc, hid, Go.bind_apply, Go.pure_apply, Go.result, Outcome.conforms,
      GoError.inTaxonomy, GoError.code?, taxonomy]
  by_cases htarget : req.TargetPath = ""
  · left
    obtain ⟨cap, hc⟩ := Option.ne_none_iff_exists'.mp hcap
    unfold NodePublishVolume
    simp [hc, String.length_ne_zero_of_ne_empty _ hid, htarget, Go.bind_apply, Go.pure_apply,
      Go.result, Outcome.conforms, GoError.inTaxonomy, GoError.code?, taxonomy]
  by_cases hsource : req.StagingTargetPath = ""
  · left
    obtain ⟨cap, hc⟩ := Option.ne_none_iff_exists'.mp hcap
    unfold NodePublishVolume
    simp [hc, String.length_ne_zero_of_ne_empty _ hid,
      String.length_ne_zero_of_ne_empty _ htarget, hsource, Go.bind_apply, Go.pure_apply,
      Go.result, Outcome.conforms, GoError.inTaxonomy, GoError.code?, taxonomy]
  rw [NodePublishVolume_run h x d req s hcap hid htarget hsource]
  generalize ensureMountPoint h d req.TargetPath s = r
  obtain ⟨⟨mnt, err⟩, s1, t1⟩ := r
  cases mnt <;> cases err
  · simp only
    generalize x.preparePublishPath req.TargetPath d.mounter s1 = p
    obtain ⟨pe, s2⟩ := p
    cases pe with
    | some perr => exact Or.inr ⟨some perr, rfl⟩
    | none =>
      simp only
      generalize d.mounter.mount req.StagingTargetPath req.TargetPath ""
        (if req.Readonly then ["bind", "ro"] else ["bind"]) s2 = m
      obtain ⟨me, s3⟩ := m
      cases me with
      | none => exact Or.inl rfl
      | some merr =>
        simp only
        generalize h.remove req.TargetPath s3 = rm
        obtain ⟨re, s4⟩ := rm
        cases re <;> exact Or.inl rfl
  · exact Or.inl rfl
  · exact Or.inl rfl
  · exact Or.inl rfl

/-- Every error of `NodeUnpublishVolume` is a status error of the taxonomy. -/
theorem NodeUnpublishVolume_conforms [GoToolchain] (x : Helpers σ) (d : Driver σ)
    (req : NodeUnpublishVolumeRequest) (s : σ) :
    (Go.result (NodeUnpublishVolume x d req s)).conforms = true := by
  unfold NodeUnpublishVolume
  repeat' (first
    | (apply conforms_bind; intro _ _)
    | dsimp only
    | split
    | rfl)

/-- Every error of `NodeGetVolumeStats` is a status error of the taxonomy. -/
theorem NodeGetVolumeStats_conforms (x : Helpers σ) (req : NodeGetVolumeStatsRequest) (s : σ) :
    (Go.result (NodeGetVolumeStats x req s)).conforms = true := by
  unfold NodeGetVolumeStats
  repeat' (first
    | (apply conforms_bind; intro _ _)
    | dsimp only
    | split
    | rfl)

/-- Every error of the handlers that make no host call is a status error of the
taxonomy. -/
theorem pure_handlers_conform {κ : Type} (d : Driver σ) (r : UnreadRequest)
    (cr : CreateVolumeRequest) (dr : DeleteVolumeRequest)
    (vr : ValidateVolumeCapabilitiesRequest) (caps : List κ) :
    (CreateVolume d cr).conforms = true ∧ (DeleteVolume dr).conforms = true ∧
      (ValidateVolumeCapabilities vr).conforms = true ∧
      (ControllerGetCapabilities caps r).conforms = true ∧
      (ControllerGetVolume r).conforms = true ∧ (ControllerPublishVolume r).conforms = true ∧
      (ControllerUnpublishVolume r).conforms = true ∧ (GetCapacity r).conforms = true ∧
      (ListVolumes r).conforms = true ∧ (ControllerExpandVolume r).conforms = true ∧
      (CreateSnapshot r).conforms = true ∧ (DeleteSnapshot r).conforms = true ∧
      (ListSnapshots r).conforms = true ∧ (NodeExpandVolume r).conforms = true ∧
      (NodeGetCapabilities caps r).conforms = true ∧ (NodeGetInfo d r).conforms = true := by
  refine ⟨?_, ?_, ?_, rfl, rfl, rfl, rfl, rfl, rfl, rfl, rfl, rfl, rfl, rfl, rfl, rfl⟩
  · unfold CreateVolume
    repeat' (first | dsimp only | split | rfl)
  · unfold DeleteVolume
    repeat' (first | dsimp only | split | rfl)
  · unfold ValidateVolumeCapabilities
    repeat' (first | dsimp only | split | rfl)

end Taxonomy

/-! ## Device names -/

theorem strings.eq_append_trimPrefix (s pre : String) (hp : strings.HasPrefix s pre = true) :
    s = pre ++ strings.TrimPrefix s pre := by
  unfold strings.TrimPrefix
  rw [if_pos hp]
  unfold strings.HasPrefix at hp
  rw [ List.isPrefixOf_iff_prefix] at hp
  apply String.ext
  rw [String.data_append]
  have := List.prefix_iff_eq_append.mp hp
  simp only [String.toList] at this
  rw [← this]
  rfl

theorem parseUintLoop_ne_ok (ds : List Char)
    (hds : (ds.all fun c => (digitVal c).isSome) = false) (acc n : Nat) :
    parseUintLoop acc ds ≠ .ok n := by
  induction ds generalizing acc with
  | nil => simp at hds
  | cons c cs ih =>
    unfold parseUintLoop
    cases hc : digitVal c with
    | none => simp
    | some dgt =>
      simp only [List.all_cons, hc, Option.isSome_some, Bool.true_and] at hds
      simp only
      split
      · simp
      · exact ih hds _

/-- What `strconv.Atoi` accepts is a decimal integer numeral. -/
theorem strconv.Atoi_error_of_not_decimal [GoToolchain] (t : String) (ht : isDecimalInteger t = false) :
    (strconv.Atoi t).2.isSome = true := by
  unfold isDecimalInteger at ht
  unfold strconv.Atoi parseInt64
  simp only at ht ⊢
  generalize (if t.toList.head? = some '-' ∨ t.toList.head? = some '+' then t.toList.tail
    else t.toList) = ds at ht ⊢
  by_cases hds : ds = []
  · simp [hds]
  · have hall : (ds.all fun c => (digitVal c).isSome) = false := by simpa [hds] using ht
    have hloop := parseUintLoop_ne_ok ds hall 0
    rw [if_neg hds]
    cases hl : parseUintLoop 0 ds with
    | syntaxError => rfl
    | rangeError =>
      simp only
      split <;> rfl
    | ok n => exact absurd hl (hloop n)

section UnstageName
variable {σ : Type}

/-- The locked part of `NodeUnstageVolume` when the mount table lists and the
device it records for the staging path is not named `zram` followed by a
decimal integer: an `Internal` error after the listing and the symlink
resolution, and no other host call. -/
theorem NodeUnstageVolume.locked_bad_device [GoToolchain] (h : Host σ) (stagingTargetPath : String) (s : σ)
    (mps : MountList) (s1 s2 : σ) (resolved : String) (serr : Option GoError) (dev : String)
    (hlist : h.mountNew.list s = ((mps, none), s1))
    (hsym : h.evalSymlinks stagingTargetPath s1 = ((resolved, serr), s2))
    (hdev : dev =
      match mps.find? fun mp =>
        mp.Path == if serr.isSome then stagingTargetPath else resolved with
      | some mp => mp.Device
      | none => "")
    (hname : ∀ t, filepath.Base dev = "zram" ++ t → isDecimalInteger t = false) :
    ∃ msg, NodeUnstageVolume.locked h stagingTargetPath s =
      (.error (status.Error .Internal
        ("failed to get zram device mounted at staging target " ++ stagingTargetPath ++ ": " ++
          msg)),
        s2, [.List mps none, .EvalSymlinks stagingTargetPath resolved serr]) := by
  by_cases hp : strings.HasPrefix (filepath.Base dev) "zram" = true
  · have ht := hname _ (strings.eq_append_trimPrefix _ _ hp)
    have hA := strconv.Atoi_error_of_not_decimal _ ht
    cases hAt : strconv.Atoi (strings.TrimPrefix (filepath.Base dev) "zram") with
    | mk id e =>
      rw [hAt] at hA
      obtain ⟨err, rfl⟩ := Option.isSome_iff_exists.mp hA
      refine ⟨"invalid device: " ++ err.Error, ?_⟩
      subst hdev
      unfold NodeUnstageVolume.locked NewZRAMDeviceFromMountPath GetDeviceNameFromMountPath
      simp [Go.bind_apply, Go.pure_apply, Mounter.List, filepath.EvalSymlinks, call_apply,
        hlist, hsym, hp, hAt, GoError.Error, PlainError.Error]
  · refine ⟨"invalid device: " ++ dev, ?_⟩
    subst hdev
    unfold NodeUnstageVolume.locked NewZRAMDeviceFromMountPath GetDeviceNameFromMountPath
    simp [Go.bind_apply, Go.pure_apply, Mounter.List, filepath.EvalSymlinks, call_apply,
      hlist, hsym, hp, GoError.Error, PlainError.Error]

end UnstageName

/-! ## Unstage and the device name -/

section UnstageDevice
variable {σ : Type}

/-- C12: for an unstage request with its required fields on a free volume id,
if the mount table lists and the device of its first entry at the (resolved)
staging path has a base name that is not `zram` followed by a decimal integer,
`NodeUnstageVolume` returns an `Internal` error; the only host calls are the
listing and the symlink resolution, so nothing is unmounted and no device is
removed, and the lock table is as before. -/
theorem NodeUnstageVolume_foreign_device [GoToolchain] (h : Host σ) (d : Driver σ)
    (req : NodeUnstageVolumeRequest) (vl : VolumeLocks) (s : σ) (mp : MountPoint)
    (hid : req.VolumeId ≠ "") (hpath : req.StagingTargetPath ≠ "")
    (hfree : req.VolumeId ∉ vl.locks)
    (hlist : (h.mountNew.list s).1.2 = none)
    (hentry : ((h.mountNew.list s).1.1.find? fun e =>
      e.Path ==
        if (h.evalSymlinks req.StagingTargetPath (h.mountNew.list s).2).1.2.isSome then
          req.StagingTargetPath
        else (h.evalSymlinks req.StagingTargetPath (h.mountNew.list s).2).1.1) = some mp)
    (hname : ∀ t, filepath.Base mp.Device = "zram" ++ t → isDecimalInteger t = false) :
    (∃ msg, (Go.result (NodeUnstageVolume h d req vl s)).1 =
        .error (status.Error .Internal msg)) ∧
      Go.events (NodeUnstageVolume h d req vl s) =
        [.List (h.mountNew.list s).1.1 none,
          .EvalSymlinks req.StagingTargetPath
            (h.evalSymlinks req.StagingTargetPath (h.mountNew.list s).2).1.1
            (h.evalSymlinks req.StagingTargetPath (h.mountNew.list s).2).1.2] ∧
      (∀ ev ∈ Go.events (NodeUnstageVolume h d req vl s),
        ev.unmountsOrCreates = false ∧ ev.provisions = false) ∧
      (Go.result (NodeUnstageVolume h d req vl s)).2.locks = vl.locks := by
  rcases hl : h.mountNew.list s with ⟨⟨mps, le⟩, s1⟩
  rw [hl] at hlist hentry
  simp only at hlist hentry
  subst hlist
  rcases hs : h.evalSymlinks req.StagingTargetPath s1 with ⟨⟨resolved, serr⟩, s2⟩
  rw [hs] at hentry
  simp only at hentry
  obtain ⟨msg, hlk⟩ := NodeUnstageVolume.locked_bad_device h req.StagingTargetPath s mps s1 s2
    resolved serr mp.Device hl hs (by rw [hentry]) hname
  have hrun : NodeUnstageVolume h d req vl s =
      ((.error (status.Error .Internal
        ("failed to get zram device mounted at staging target " ++ req.StagingTargetPath ++
          ": " ++ msg)), (vl.TryAcquire req.VolumeId).2.Release req.VolumeId), s2,
        [.List mps none, .EvalSymlinks req.StagingTargetPath resolved serr]) := by
    unfold NodeUnstageVolume
    simp [String.length_ne_zero_of_ne_empty _ hid, String.length_ne_zero_of_ne_empty _ hpath,
      VolumeLocks.tryAcquire_free vl _ hfree, Go.bind_apply, Go.pure_apply, hlk]
  rw [hrun]
  refine ⟨⟨_, rfl⟩, rfl, ?_, VolumeLocks.release_tryAcquire vl _ hfree⟩
  intro ev hev
  simp only [Go.events, List.mem_cons, List.mem_singleton, List.not_mem_nil, or_false] at hev
  rcases hev with rfl | rfl <;> exact ⟨rfl, rfl⟩

/-- With a mount table that lists and holds no entry at the (resolved) staging
path, `NodeUnstageVolume` on a free volume id returns an `Internal` error: the
device name is empty, its base name is `.`, which is not a zram name. -/
theorem NodeUnstageVolume_error_of_not_mounted [GoToolchain] (h : Host σ) (d : Driver σ)
    (req : NodeUnstageVolumeRequest) (vl : VolumeLocks) (s : σ)
    (hid : req.VolumeId ≠ "") (hpath : req.StagingTargetPath ≠ "")
    (hfree : req.VolumeId ∉ vl.locks)
    (hlist : (h.mountNew.list s).1.2 = none)
    (hentry : ((h.mountNew.list s).1.1.find? fun e =>
      e.Path ==
        if (h.evalSymlinks req.StagingTargetPath (h.mountNew.list s).2).1.2.isSome then
          req.StagingTargetPath
        else (h.evalSymlinks req.StagingTargetPath (h.mountNew.list s).2).1.1) = none) :
    (Go.result (NodeUnstageVolume h d req vl s)).1 =
      .error (status.Error .Internal
        ("failed to get zram device mounted at staging target " ++ req.StagingTargetPath ++
          ": " ++ "invalid device: ")) := by
  rcases hl : h.mountNew.list s with ⟨⟨mps, le⟩, s1⟩
  rw [hl] at hlist hentry
  simp only at hlist hentry
  subst hlist
  rcases hs : h.evalSymlinks req.StagingTargetPath s1 with ⟨⟨resolved, serr⟩, s2⟩
  rw [hs] at hentry
  simp only at hentry
  have hp : strings.HasPrefix (filepath.Base "") "zram" = false := by decide
  unfold NodeUnstageVolume NodeUnstageVolume.locked NewZRAMDeviceFromMountPath
    GetDeviceNameFromMountPath
  simp [String.length_ne_zero_of_ne_empty _ hid, String.length_ne_zero_of_ne_empty _ hpath,
    VolumeLocks.tryAcquire_free vl _ hfree, Go.bind_apply, Go.pure_apply, Mounter.List,
    filepath.EvalSymlinks, call_apply, hl, hs, hentry, hp, Go.result, GoError.Error,
    PlainError.Error]

end UnstageDevice

/-- C12, on a node where a disk partition is mounted at `/mnt/x`: the unstage
request fails with an `Internal` error after the listing and the symlink
resolution, the node and the lock table unchanged. -/
theorem NodeUnstageVolume_foreign_device_witness :
    (∃ msg, (Go.result (NodeUnstageVolume simHost simDriver unstageReq newVolumeLocks
        Sim.foreign)).1 = .error (status.Error .Internal msg)) ∧
      Go.events (NodeUnstageVolume simHost simDriver unstageReq newVolumeLocks Sim.foreign) =
        [.List (simHost.mountNew.list Sim.foreign).1.1 none,
          .EvalSymlinks unstageReq.StagingTargetPath
            (simHost.evalSymlinks unstageReq.StagingTargetPath
              (simHost.mountNew.list Sim.foreign).2).1.1
            (simHost.evalSymlinks unstageReq.StagingTargetPath
              (simHost.mountNew.list Sim.foreign).2).1.2] ∧
      (∀ ev ∈ Go.events (NodeUnstageVolume simHost simDriver unstageReq newVolumeLocks
          Sim.foreign),
        ev.unmountsOrCreates = false ∧ ev.provisions = false) ∧
      (Go.result (NodeUnstageVolume simHost simDriver unstageReq newVolumeLocks
        Sim.foreign)).2.locks = newVolumeLocks.locks :=
  NodeUnstageVolume_foreign_device simHost simDriver unstageReq newVolumeLocks Sim.foreign
    { Device := "/dev/sda1", Path := "/mnt/x" } (by decide) (by decide) (by decide) (by decide)
    (by decide)
    (by
      intro t ht
      have hd : (filepath.Base "/dev/sda1").data = "sda1".data := by decide
      have := congrArg String.data ht
      rw [String.data_append] at this
      simp only at this
      rw [hd] at this
      simp at this)

/-- C13, evaluated: on a node with nothing mounted, the unstage request with a
volume id whose lock is free and a staging path that has no entry in the mount
table is answered with an `Internal` error, not with success. -/
theorem NodeUnstageVolume_nothing_mounted_is_an_error :
    unstageReq.VolumeId ≠ "" ∧ unstageReq.StagingTargetPath ≠ "" ∧
      unstageReq.VolumeId ∉ newVolumeLocks.locks ∧
      (Sim.fresh.mounts.find? fun mp => mp.Path == unstageReq.StagingTargetPath) = none ∧
      NodeUnstageVolume simHost simDriver unstageReq newVolumeLocks Sim.fresh =
        ((.error (status.Error .Internal
          "failed to get zram device mounted at staging target /mnt/x: invalid device: "),
          newVolumeLocks), Sim.fresh,
          [.List [] none, .EvalSymlinks "/mnt/x" "/mnt/x" none]) := by
  decide

/-! ## Stage without a capacity -/

section StageNoCapacity
variable {σ : Type}

/-- The locked part of `NodeStageVolume` on a volume context without the
capacity key, written out call by call. -/
theorem NodeStageVolume.locked_no_capacity [GoToolchain] (h : Host σ) (d : Driver σ)
    (volumeID targetPath : String) (context : List (String × String)) (fsType : String)
    (mountFlags : List String) (s : σ) (hno : context.lookup capacityField = none) :
    NodeStageVolume.locked h d volumeID targetPath context fsType mountFlags s =
      match h.mkdirAll targetPath 0o750 s with
      | (some e, s1) =>
        (.error (status.Error .Internal
          ("MkdirAll " ++ targetPath ++ " failed with error: " ++ e.Error)),
          s1, [.MkdirAll targetPath 0o750 (some e)])
      | (none, s1) =>
        match ensureMountPoint h d targetPath s1 with
        | ((true, none), s2, t) => (.ok {}, s2, .MkdirAll targetPath 0o750 none :: t)
        | ((false, none), s2, t) =>
          (.error (status.Error .Internal "Expected capacity field in volume context"),
            s2, .MkdirAll targetPath 0o750 none :: t)
        | ((true, some e), s2, t) =>
          (.error (status.Error .Internal
            ("Could not mount target " ++ targetPath ++ ": " ++ e.Error)),
            s2, .MkdirAll targetPath 0o750 none :: t)
        | ((false, some e), s2, t) =>
          (.error (status.Error .Internal
            ("Could not mount target " ++ targetPath ++ ": " ++ e.Error)),
            s2, .MkdirAll targetPath 0o750 none :: t) := by
  unfold NodeStageVolume.locked
  generalize hm : h.mkdirAll targetPath 0o750 s = r
  obtain ⟨me, s1⟩ := r
  cases me with
  | some e => simp [Go.bind_apply, Go.pure_apply, os.MkdirAll, call_apply, hm, fmtV]
  | none =>
    simp only
    generalize hr : ensureMountPoint h d targetPath s1 = r
    obtain ⟨⟨mnt, err⟩, s2, t⟩ := r
    cases mnt <;> cases err <;>
      simp [Go.bind_apply, Go.pure_apply, Go.ite_apply, os.MkdirAll, call_apply, hm, hr, hno,
        fmtV]

/-- C11, as the code has it: for a stage request with its required fields, a
capability that carries a mount descriptor and a free volume id, whose volume
context has no capacity key, no host call allocates, configures, formats or
mounts a device; the call succeeds when the staging directory is made and
`ensureMountPoint` reports the staging path as a healthy mount, `(true, nil)`,
and otherwise returns an `Internal` error, which is "Expected capacity field in
volume context" when `ensureMountPoint` reports `(false, nil)`. -/
theorem NodeStageVolume_no_capacity [GoToolchain] (h : Host σ) (d : Driver σ) (req : NodeStageVolumeRequest)
    (cap : VolumeCapability) (m : MountVolume) (vl : VolumeLocks) (s : σ)
    (hid : req.VolumeId ≠ "") (hcap : req.VolumeCapability = some cap)
    (hmount : cap.GetMount = some m) (hpath : req.StagingTargetPath ≠ "")
    (hfree : req.VolumeId ∉ vl.locks)
    (hno : req.VolumeContext.lookup capacityField = none) :
    (∀ ev ∈ Go.events (NodeStageVolume h d req vl s), ev.provisions = false) ∧
      ((h.mkdirAll req.StagingTargetPath 0o750 s).1 = none →
        Go.result (ensureMountPoint h d req.StagingTargetPath
          (h.mkdirAll req.StagingTargetPath 0o750 s).2) = (true, none) →
        (Go.result (NodeStageVolume h d req vl s)).1 = .ok {}) ∧
      ((h.mkdirAll req.StagingTargetPath 0o750 s).1 = none →
        Go.result (ensureMountPoint h d req.StagingTargetPath
          (h.mkdirAll req.StagingTargetPath 0o750 s).2) = (false, none) →
        (Go.result (NodeStageVolume h d req vl s)).1 =
          .error (status.Error .Internal "Expected capacity field in volume context")) ∧
      (¬((h.mkdirAll req.StagingTargetPath 0o750 s).1 = none ∧
          Go.result (ensureMountPoint h d req.StagingTargetPath
            (h.mkdirAll req.StagingTargetPath 0o750 s).2) = (true, none)) →
        ∃ msg, (Go.result (NodeStageVolume h d req vl s)).1 =
          .error (status.Error .Internal msg)) := by
  have hrun : NodeStageVolume h d req vl s =
      ((Go.result (NodeStageVolume.locked h d req.VolumeId req.StagingTargetPath
          req.VolumeContext m.FsType (MountVolume.GetMountFlags cap.GetMount) s),
        (vl.TryAcquire req.VolumeId).2.Release req.VolumeId),
        Go.state (NodeStageVolume.locked h d req.VolumeId req.StagingTargetPath
          req.VolumeContext m.FsType (MountVolume.GetMountFlags cap.GetMount) s),
        Go.events (NodeStageVolume.locked h d req.VolumeId req.StagingTargetPath
          req.VolumeContext m.FsType (MountVolume.GetMountFlags cap.GetMount) s)) := by
    unfold NodeStageVolume
    simp [String.length_ne_zero_of_ne_empty _ hid, String.length_ne_zero_of_ne_empty _ hpath,
      hcap, hmount, VolumeLocks.tryAcquire_free vl _ hfree, Go.bind_apply, Go.pure_apply,
      Go.result, Go.state, Go.events]
  rw [hrun, NodeStageVolume.locked_no_capacity _ _ _ _ _ _ _ _ hno]
  have hnp := ensureMountPoint_no_provision h d req.StagingTargetPath
  revert hnp
  unfold Go.result Go.state Go.events
  generalize h.mkdirAll req.StagingTargetPath 0o750 s = r
  obtain ⟨me, s1⟩ := r
  cases me with
  | some e =>
    intro _
    refine ⟨?_, ?_, ?_, ?_⟩
    · intro ev hev
      simp only [List.mem_singleton] at hev
      subst hev
      rfl
    · intro hmk; simp at hmk
    · intro hmk; simp at hmk
    · intro _; exact ⟨_, rfl⟩
  | none =>
    simp only
    intro hnp
    have hnp := hnp s1
    revert hnp
    generalize ensureMountPoint h d req.StagingTargetPath s1 = r
    obtain ⟨⟨mnt, err⟩, s2, t⟩ := r
    intro hnp
    have hev : ∀ ev ∈ Event.MkdirAll req.StagingTargetPath 0o750 none :: t,
        ev.provisions = false := by
      intro ev hev
      simp only [List.mem_cons] at hev
      rcases hev with rfl | hev
      · rfl
      · exact hnp ev hev
    cases mnt <;> cases err
    · exact ⟨hev, fun _ hr => by simp at hr, fun _ _ => rfl, fun _ => ⟨_, rfl⟩⟩
    · exact ⟨hev, fun _ hr => by simp at hr, fun _ hr => by simp at hr, fun _ => ⟨_, rfl⟩⟩
    · exact ⟨hev, fun _ _ => rfl, fun _ hr => by simp at hr, fun hn => (hn (by simp)).elim⟩
    · exact ⟨hev, fun _ hr => by simp at hr, fun _ hr => by simp at hr, fun _ => ⟨_, rfl⟩⟩

end StageNoCapacity

/-- C11, refuted as worded: on the staged node, the stage request without a
capacity key has its required fields and a free lock, and it is answered with
success, not with an `Internal` error: `ensureMountPoint` finds `/mnt/x`
mounted and the capacity is never read. -/
theorem NodeStageVolume_no_capacity_succeeds_on_staged :
    stageReqNoCapacity.VolumeId ≠ "" ∧ stageReqNoCapacity.VolumeCapability ≠ none ∧
      stageReqNoCapacity.StagingTargetPath ≠ "" ∧
      stageReqNoCapacity.VolumeId ∉ newVolumeLocks.locks ∧
      stageReqNoCapacity.VolumeContext.lookup "capacity" = none ∧
      NodeStageVolume simHost simDriver stageReqNoCapacity newVolumeLocks Sim.staged =
        ((.ok {}, newVolumeLocks), Sim.staged,
          [.MkdirAll "/mnt/x" 0o750 none,
            .IsLikelyNotMountPoint "/mnt/x" false none,
            .List [{ Device := "/dev/zram0", Path := "/mnt/x" }] none,
            .Abs "/mnt/x" "/mnt/x" none,
            .ReadDir "/mnt/x" none]) := by
  decide

/-- C11, on the fresh node: the stage request without a capacity key is
answered with the `Internal` error "Expected capacity field in volume context"
and no device is allocated. -/
theorem NodeStageVolume_no_capacity_witness :
    (∀ ev ∈ Go.events (NodeStageVolume simHost simDriver stageReqNoCapacity newVolumeLocks
        Sim.fresh), ev.provisions = false) ∧
      (Go.result (NodeStageVolume simHost simDriver stageReqNoCapacity newVolumeLocks
        Sim.fresh)).1 =
        .error (status.Error .Internal "Expected capacity field in volume context") ∧
      (Go.state (NodeStageVolume simHost simDriver stageReqNoCapacity newVolumeLocks
        Sim.fresh)).devices = [] :=
  ⟨(NodeStageVolume_no_capacity simHost simDriver stageReqNoCapacity
      { AccessType := some (.Mount (some { FsType := "ext4", MountFlags := [] })) }
      { FsType := "ext4", MountFlags := [] } newVolumeLocks Sim.fresh
      (by decide) rfl rfl (by decide) (by decide) (by decide)).1,
    (NodeStageVolume_no_capacity simHost simDriver stageReqNoCapacity
      { AccessType := some (.Mount (some { FsType := "ext4", MountFlags := [] })) }
      { FsType := "ext4", MountFlags := [] } newVolumeLocks Sim.fresh
      (by decide) rfl rfl (by decide) (by decide) (by decide)).2.2.1 (by decide) (by decide),
    by decide⟩

/-! ## Decimal numerals: printing and parsing back -/

theorem digitVal_digitChar (k : Nat) (hk : k < 10) : digitVal (Nat.digitChar k) = some k := by
  interval_cases k <;> decide

theorem parseUintLoop_toDigitsCore (fuel : Nat) :
    ∀ (n : Nat) (ds : List Char), n < fuel → n < 2 ^ 64 →
      parseUintLoop 0 (Nat.toDigitsCore 10 fuel n ds) = parseUintLoop n ds := by
  induction fuel with
  | zero => intro n ds h; omega
  | succ fuel ih =>
    intro n ds hf hn
    unfold Nat.toDigitsCore
    simp only
    by_cases h0 : n / 10 = 0
    · rw [if_pos h0]
      have hlt : n < 10 := by omega
      have hmod : n % 10 = n := Nat.mod_eq_of_lt hlt
      rw [hmod, parseUintLoop, digitVal_digitChar n hlt]
      simp only [Nat.mul_zero, Nat.zero_add]
      rw [if_neg (by omega)]
    · rw [if_neg h0, ih (n / 10) _ (by omega) (by omega)]
      rw [parseUintLoop, digitVal_digitChar (n % 10) (Nat.mod_lt _ (by decide))]
      simp only
      have hdm : 10 * (n / 10) + n % 10 = n := Nat.div_add_mod n 10
      rw [hdm, if_neg (by omega)]

theorem toDigitsCore_ne_nil (fuel : Nat) :
    ∀ (n : Nat) (ds : List Char), Nat.toDigitsCore 10 (fuel + 1) n ds ≠ [] := by
  induction fuel with
  | zero =>
    intro n ds
    unfold Nat.toDigitsCore
    simp only
    split
    · simp
    · simp [Nat.toDigitsCore]
  | succ fuel ih =>
    intro n ds
    unfold Nat.toDigitsCore
    simp only
    split
    · simp
    · exact ih _ _

theorem parseUintLoop_ok_head (acc n : Nat) (c : Char) (cs : List Char)
    (h : parseUintLoop acc (c :: cs) = .ok n) : (digitVal c).isSome = true := by
  unfold parseUintLoop at h
  cases hc : digitVal c with
  | none => simp [hc] at h
  | some k => rfl

/-- The decimal numeral of a natural number below `2 ^ 64` is read back by the
digit loop, is not empty, and does not begin with a sign. -/
theorem parseUintLoop_toDigits (m : Nat) (hm : m < 2 ^ 64) :
    parseUintLoop 0 (Nat.toDigits 10 m) = .ok m ∧ Nat.toDigits 10 m ≠ [] ∧
      (Nat.toDigits 10 m).head? ≠ some '-' ∧ (Nat.toDigits 10 m).head? ≠ some '+' := by
  have hp : parseUintLoop 0 (Nat.toDigits 10 m) = .ok m := by
    unfold Nat.toDigits
    rw [parseUintLoop_toDigitsCore (m + 1) m [] (by omega) hm]
    rfl
  have hne : Nat.toDigits 10 m ≠ [] := toDigitsCore_ne_nil m m []
  refine ⟨hp, hne, ?_, ?_⟩
  all_goals
    cases hl : Nat.toDigits 10 m with
    | nil => exact absurd hl hne
    | cons c cs =>
      rw [hl] at hp
      have hd := parseUintLoop_ok_head 0 m c cs hp
      intro hh
      simp only [List.head?_cons, Option.some.injEq] at hh
      subst hh
      revert hd
      decide

/-- Printing a 64-bit signed integer in decimal and parsing it back gives the
integer, without error. -/
theorem parseInt64_toString [GoToolchain] (fn : String) (n : Int) (hlo : -(2 ^ 63) ≤ n) (hhi : n < 2 ^ 63) :
    parseInt64 fn (toString n) = (n, none) := by
  cases n with
  | ofNat m =>
    have hm : m < 2 ^ 63 := by
      simp only [Int.ofNat_eq_coe] at hhi
      omega
    obtain ⟨hp, hne, h1, h2⟩ := parseUintLoop_toDigits m (by omega)
    have hl : (toString (Int.ofNat m)).toList = Nat.toDigits 10 m := rfl
    unfold parseInt64
    simp only [hl, h1, h2, or_self, if_false, hne, hp]
    simp
    omega
  | negSucc m =>
    have hm : m + 1 ≤ 2 ^ 63 := by
      have : -(2 ^ 63 : Int) ≤ -((m : Int) + 1) := by simpa [Int.negSucc_eq] using hlo
      omega
    obtain ⟨hp, hne, _, _⟩ := parseUintLoop_toDigits (m + 1) (by omega)
    have hl : (toString (Int.negSucc m)).toList = '-' :: Nat.toDigits 10 (m + 1) := rfl
    unfold parseInt64
    simp only [hl, List.head?_cons, true_or, if_true, List.tail_cons, hne, if_false, hp]
    simp [Int.negSucc_eq]
    omega

/-! ## ensureMountPoint: the error of a failed listing -/

section ListingError
variable {σ : Type}

theorem finish_listing_error (h : Host σ) (d : Driver σ) (target : String) (notMnt : Bool)
    (s : σ) (e : GoError)
    (hread : Event.ReadDir target (some e) ∈
      Go.events (ensureMountPoint.finish h d target notMnt s))
    (hun : Event.Unmount target none ∈
      Go.events (ensureMountPoint.finish h d target notMnt s)) :
    Go.result (ensureMountPoint.finish h d target notMnt s) = (false, some e) := by
  rcases finish_cases h d target notMnt s with
    ⟨_, hr, he⟩ | ⟨_, e1, u, hr, he⟩ | ⟨_, e1, hr, he⟩ | ⟨_, me, hr, he⟩
  · rw [he] at hread; simp at hread
  · rw [he] at hun; simp at hun
  · rw [he] at hread
    simp at hread
    subst hread
    exact hr
  · rw [he] at hread; simp at hread

theorem crossCheck_listing_error (h : Host σ) (d : Driver σ) (target : String) (notMnt : Bool)
    (s : σ) (e : GoError)
    (hread : Event.ReadDir target (some e) ∈
      Go.events (ensureMountPoint.crossCheck h d target notMnt s))
    (hun : Event.Unmount target none ∈
      Go.events (ensureMountPoint.crossCheck h d target notMnt s)) :
    Go.result (ensureMountPoint.crossCheck h d target notMnt s) = (false, some e) := by
  rcases crossCheck_cases h d target notMnt s with
    ⟨_, heq⟩ | ⟨_, mps, le, hr, he⟩ | ⟨_, mps, a, ae, hr, he⟩ | ⟨_, mps, a, s1, hr, he⟩
  · rw [heq] at hread hun ⊢
    exact finish_listing_error h d target notMnt s e hread hun
  · rw [he] at hread; simp at hread
  · rw [he] at hread; simp at hread
  · rw [he] at hread hun
    simp only [List.mem_append, List.mem_cons, List.mem_singleton, reduceCtorEq, List.not_mem_nil,
      or_false, false_or] at hread hun
    rw [hr]
    exact finish_listing_error h d target _ s1 e hread hun

/-- C27: whenever `ensureMountPoint` lists the target directory (which it does
only for a target it has determined to be a mount), the listing fails with `e`
and the unmount that follows succeeds, `ensureMountPoint` returns `(false, e)`:
its error is the listing error itself, not nil. -/
theorem ensureMountPoint_returns_listing_error (h : Host σ) (d : Driver σ) (target : String)
    (s : σ) (e : GoError)
    (hread : Event.ReadDir target (some e) ∈ Go.events (ensureMountPoint h d target s))
    (hun : Event.Unmount target none ∈ Go.events (ensureMountPoint h d target s)) :
    Go.result (ensureMountPoint h d target s) = (false, some e) := by
  rcases ensureMountPoint_cases h d target s with
    ⟨nm, e0, b, pe, _, _, hr, he⟩ | ⟨nm, e0, b, pe, s1, _, _, hr, he⟩ | ⟨nm, e0, s1, _, hr, he⟩
  · rw [he] at hread; simp at hread
  · rw [he] at hread hun
    simp only [List.mem_append, List.mem_cons, List.mem_singleton, reduceCtorEq, List.not_mem_nil,
      or_false, false_or] at hread hun
    rw [hr]
    exact crossCheck_listing_error h d target _ s1 e hread hun
  · rw [he] at hread hun
    simp only [List.mem_append, List.mem_cons, List.mem_singleton, reduceCtorEq, List.not_mem_nil,
      or_false, false_or] at hread hun
    rw [hr]
    exact crossCheck_listing_error h d target _ s1 e hread hun

/-- A stage request with its three required fields whose capability carries
no mount descriptor ends in a panic, whatever the lock table and the host. -/
theorem NodeStageVolume_panic_of_no_mount [GoToolchain] (h : Host σ) (d : Driver σ)
    (req : NodeStageVolumeRequest) (cap : VolumeCapability) (vl : VolumeLocks) (s : σ)
    (hid : req.VolumeId ≠ "") (hcap : req.VolumeCapability = some cap)
    (hmount : cap.GetMount = none) (hpath : req.StagingTargetPath ≠ "") :
    NodeStageVolume h d req vl s = ((Outcome.panic, vl), s, []) := by
  unfold NodeStageVolume
  simp [String.length_ne_zero_of_ne_empty _ hid, String.length_ne_zero_of_ne_empty _ hpath,
    hcap, hmount, Go.bind_apply, Go.pure_apply]

end ListingError

/-- C27, on a node whose mount table has `/mnt/x` while the directory is
missing: the listing fails with the `open` error of a missing directory, the
unmount succeeds, and that `open` error is the error returned. -/
theorem ensureMountPoint_returns_listing_error_witness :
    Go.events (ensureMountPoint simHost simDriver "/mnt/x" Sim.mountedNoDir) =
        [.IsLikelyNotMountPoint "/mnt/x" true (some (Sim.ENOENT "stat" "/mnt/x")),
          .List [{ Device := "/dev/zram0", Path := "/mnt/x" }] none,
          .Abs "/mnt/x" "/mnt/x" none,
          .ReadDir "/mnt/x" (some (Sim.ENOENT "open" "/mnt/x")),
          .Unmount "/mnt/x" none] ∧
      Go.result (ensureMountPoint simHost simDriver "/mnt/x" Sim.mountedNoDir) =
        (false, some (Sim.ENOENT "open" "/mnt/x")) :=
  ⟨by decide,
    ensureMountPoint_returns_listing_error simHost simDriver "/mnt/x" Sim.mountedNoDir
      (Sim.ENOENT "open" "/mnt/x") (by decide) (by decide)⟩

/-- C29, evaluated: a stage request with its three required fields whose
capability has an unset access type, and one whose capability is of block
type, on a free volume id, end in a panic: the filesystem type is read through
the nil mount descriptor. -/
theorem NodeStageVolume_panics_without_mount_descriptor :
    unsetStageReq.VolumeId ≠ "" ∧ unsetStageReq.VolumeCapability ≠ none ∧
      unsetStageReq.StagingTargetPath ≠ "" ∧
      NodeStageVolume simHost simDriver unsetStageReq newVolumeLocks Sim.fresh =
        ((Outcome.panic, newVolumeLocks), Sim.fresh, []) ∧
      NodeStageVolume simHost simDriver blockStageReq newVolumeLocks Sim.fresh =
        ((Outcome.panic, newVolumeLocks), Sim.fresh, []) := by
  decide

/-! ## The mount table: device of a path and cleanup of a device -/

theorem List.find?_eq_get_of_first {α : Type} (p : α → Bool) :
    ∀ (l : List α) (i : Nat) (hi : i < l.length), p (l.get ⟨i, hi⟩) = true →
      (∀ j (hj : j < i), p (l.get ⟨j, Nat.lt_trans hj hi⟩) = false) →
      l.find? p = some (l.get ⟨i, hi⟩) := by
  intro l
  induction l with
  | nil => intro i hi; simp at hi
  | cons a l ih =>
    intro i hi hp hfirst
    cases i with
    | zero =>
      simp only [List.get_eq_getElem, List.getElem_cons_zero] at hp ⊢
      simp [List.find?, hp]
    | succ i =>
      have h0 : p a = false := by simpa using hfirst 0 (Nat.succ_pos i)
      have hi1 : i < l.length := by simpa using hi
      simp only [List.find?, h0]
      have := ih i hi1 (by simpa using hp) (fun j hj => by
        simpa using hfirst (j + 1) (Nat.succ_lt_succ hj))
      simpa using this

section MountTable
variable {σ : Type}

/-- C23: when the mount table lists, `GetDeviceNameFromMountPath` returns no
error; with `slTarget` the symlink-resolved mount path (the mount path itself
when the resolution fails), the device returned is the `Device` of the first
entry whose `Path` is `slTarget`, the empty string when there is none; the
count returned is the number of entries whose `Device` is that device, at
least 1 whenever an entry matched. The host calls are the listing and the
resolution. -/
theorem GetDeviceNameFromMountPath_first_entry (h : Host σ) (m : Mounter σ) (mountPath : String)
    (s : σ) (mps : MountList) (s1 s2 : σ) (resolved slTarget : String) (serr : Option GoError)
    (hlist : m.list s = ((mps, none), s1))
    (hsym : h.evalSymlinks mountPath s1 = ((resolved, serr), s2))
    (hsl : slTarget = if serr.isSome then mountPath else resolved) :
    (Go.result (GetDeviceNameFromMountPath h m mountPath s)).2.2 = none ∧
      ((∀ mp ∈ mps, mp.Path ≠ slTarget) →
        (Go.result (GetDeviceNameFromMountPath h m mountPath s)).1 = "") ∧
      (∀ i (hi : i < mps.length), (mps.get ⟨i, hi⟩).Path = slTarget →
        (∀ j (hj : j < i), (mps.get ⟨j, Nat.lt_trans hj hi⟩).Path ≠ slTarget) →
        (Go.result (GetDeviceNameFromMountPath h m mountPath s)).1 =
          (mps.get ⟨i, hi⟩).Device) ∧
      (Go.result (GetDeviceNameFromMountPath h m mountPath s)).2.1 =
        ((mps.filter fun mp =>
          mp.Device = (Go.result (GetDeviceNameFromMountPath h m mountPath s)).1).length : Int) ∧
      ((∃ mp ∈ mps, mp.Path = slTarget) →
        1 ≤ (Go.result (GetDeviceNameFromMountPath h m mountPath s)).2.1) ∧
      Go.state (GetDeviceNameFromMountPath h m mountPath s) = s2 ∧
      Go.events (GetDeviceNameFromMountPath h m mountPath s) =
        [.List mps none, .EvalSymlinks mountPath resolved serr] := by
  have hrun : GetDeviceNameFromMountPath h m mountPath s =
      (((match mps.find? fun mp => mp.Path == slTarget with
          | some mp => mp.Device
          | none => ""),
        ((mps.countP fun mp => mp.Device ==
          (match mps.find? fun mp => mp.Path == slTarget with
          | some mp => mp.Device
          | none => "") : Nat) : Int), none), s2,
        [.List mps none, .EvalSymlinks mountPath resolved serr]) := by
    subst hsl
    unfold GetDeviceNameFromMountPath
    simp [Go.bind_apply, Go.pure_apply, Mounter.List, filepath.EvalSymlinks, call_apply,
      hlist, hsym]
  rw [hrun]
  simp only [Go.result, Go.state, Go.events]
  refine ⟨by trivial, ?_, ?_, ?_, ?_, by trivial, by trivial⟩
  · intro hnone
    have : (mps.find? fun mp => mp.Path == slTarget) = none := by
      rw [List.find?_eq_none]
      intro mp hmp
      simpa using hnone mp hmp
    rw [this]
  · intro i hi hp hfirst
    rw [List.find?_eq_get_of_first (fun mp => mp.Path == slTarget) mps i hi (by simpa using hp)
      (fun j hj => by simpa using hfirst j hj)]
  · rw [List.countP_eq_length_filter]
    congr 2
  · rintro ⟨mp, hmp, hpath⟩
    cases hf : mps.find? fun mp => mp.Path == slTarget with
    | none =>
      rw [List.find?_eq_none] at hf
      exact absurd (by simpa using hpath) (hf mp hmp)
    | some mp0 =>
      have hmem : mp0 ∈ mps := List.mem_of_find?_eq_some hf
      have : 0 < mps.countP fun e => e.Device == mp0.Device :=
        List.countP_pos_iff.mpr ⟨mp0, hmem, by simp⟩
      simp only
      omega

theorem ZRAMDevice.unmountLoop_events (d : ZRAMDevice σ) (mps : List MountPoint) :
    ∀ (err : Option GoError) (s : σ), ∃ errs : List (Option GoError),
      errs.length = (mps.filter fun mp => mp.Device == d.devPath).length ∧
      Go.events (d.unmountLoop mps err s) =
        List.zipWith (fun mp e => Event.CleanupMountPoint mp.Path e)
          (mps.filter fun mp => mp.Device == d.devPath) errs := by
  induction mps with
  | nil => intro err s; exact ⟨[], rfl, rfl⟩
  | cons mp mps ih =>
    intro err s
    unfold ZRAMDevice.unmountLoop
    by_cases hdev : (mp.Device == d.devPath) = true
    · simp only [hdev, if_true, List.filter_cons_of_pos]
      rw [Go.bind_apply, mount.CleanupMountPoint, call_apply]
      generalize d.mounter.cleanupMountPoint mp.Path s = r
      obtain ⟨ce, s1⟩ := r
      cases err with
      | none =>
        obtain ⟨errs, hlen, hev⟩ := ih none s1
        refine ⟨ce :: errs, by simp [hlen], ?_⟩
        simp only [Go.events] at hev ⊢
        simp [hev]
      | some e =>
        obtain ⟨errs, hlen, hev⟩ := ih (some (multierror.Append e ce)) s1
        refine ⟨ce :: errs, by simp [hlen], ?_⟩
        simp only [Go.events] at hev ⊢
        simp [hev]
    · simp only [hdev, Bool.false_eq_true, if_false]
      rw [List.filter_cons_of_neg (by simpa using hdev)]
      exact ih err s

/-- C24: when the mount table lists, the host calls of `UnmountAndCleanup`
after the listing are one cleanup for each entry whose `Device` is the device
path of the handle, at the `Path` of that entry, in table order, and nothing
else: whatever the cleanups answer, each such entry is attempted once. -/
theorem UnmountAndCleanup_attempts_each_entry (d : ZRAMDevice σ) (s : σ) (mps : MountList)
    (s1 : σ) (hlist : d.mounter.list s = ((mps, none), s1)) :
    ∃ errs : List (Option GoError),
      errs.length = (mps.filter fun mp => mp.Device == d.devPath).length ∧
      Go.events (d.UnmountAndCleanup s) =
        .List mps none ::
          List.zipWith (fun mp e => Event.CleanupMountPoint mp.Path e)
            (mps.filter fun mp => mp.Device == d.devPath) errs := by
  obtain ⟨errs, hlen, hev⟩ := ZRAMDevice.unmountLoop_events d mps none s1
  refine ⟨errs, hlen, ?_⟩
  unfold ZRAMDevice.UnmountAndCleanup
  simp only [Go.events] at hev ⊢
  simp [Go.bind_apply, Go.pure_apply, Mounter.List, call_apply, hlist, hev]

end MountTable

/-- C23, on a node with device 0 mounted at `/mnt/x` and `/mnt/z` and a disk
partition at `/mnt/y`: for `/mnt/z`, whose first entry is the third of the
table, the device is `/dev/zram0` and the count is 2. -/
theorem GetDeviceNameFromMountPath_first_entry_witness :
    (Go.result (GetDeviceNameFromMountPath simHost simMounter "/mnt/z" Sim.twiceMounted)).1 =
        "/dev/zram0" ∧
      1 ≤ (Go.result (GetDeviceNameFromMountPath simHost simMounter "/mnt/z"
        Sim.twiceMounted)).2.1 ∧
      (Go.result (GetDeviceNameFromMountPath simHost simMounter "/mnt/z"
        Sim.twiceMounted)).2.1 = 2 :=
  ⟨(GetDeviceNameFromMountPath_first_entry simHost simMounter "/mnt/z" Sim.twiceMounted
      Sim.twiceMounted.mounts Sim.twiceMounted Sim.twiceMounted "/mnt/z" "/mnt/z" none
      rfl rfl rfl).2.2.1 2 (by decide) (by decide) (by decide),
    (GetDeviceNameFromMountPath_first_entry simHost simMounter "/mnt/z" Sim.twiceMounted
      Sim.twiceMounted.mounts Sim.twiceMounted Sim.twiceMounted "/mnt/z" "/mnt/z" none
      rfl rfl rfl).2.2.2.2.1 ⟨{ Device := "/dev/zram0", Path := "/mnt/z" }, by decide, rfl⟩,
    by decide⟩

/-- C24, on the same node, where the cleanup of `/mnt/x` fails: the cleanups
attempted are those of `/mnt/x` and `/mnt/z`, in that order; the entry of the
disk partition is left alone and the failure at `/mnt/x` does not stop the
attempt at `/mnt/z`. -/
theorem UnmountAndCleanup_attempts_each_entry_witness :
    Go.events (simDevice0.UnmountAndCleanup Sim.twiceMounted) =
        [.List Sim.twiceMounted.mounts none,
          .CleanupMountPoint "/mnt/x" (some (Sim.EBUSY "/mnt/x")),
          .CleanupMountPoint "/mnt/z" none] ∧
      ∃ errs : List (Option GoError),
        errs.length =
          (Sim.twiceMounted.mounts.filter fun mp => mp.Device == simDevice0.devPath).length ∧
        Go.events (simDevice0.UnmountAndCleanup Sim.twiceMounted) =
          .List Sim.twiceMounted.mounts none ::
            List.zipWith (fun mp e => Event.CleanupMountPoint mp.Path e)
              (Sim.twiceMounted.mounts.filter fun mp => mp.Device == simDevice0.devPath) errs :=
  ⟨by decide,
    UnmountAndCleanup_attempts_each_entry simDevice0 Sim.twiceMounted Sim.twiceMounted.mounts
      Sim.twiceMounted rfl⟩

/-! ## Device handles -/

theorem String.append_left_cancel (p a b : String) (h : p ++ a = p ++ b) : a = b := by
  have := congrArg String.data h
  rw [String.data_append, String.data_append] at this
  exact String.ext (List.append_cancel_left this)

/-- The decimal form of a 64-bit signed integer determines the integer. -/
theorem strconv.Itoa_injective [GoToolchain] (n m : Int) (hn : -(2 ^ 63) ≤ n ∧ n < 2 ^ 63)
    (hm : -(2 ^ 63) ≤ m ∧ m < 2 ^ 63) (h : strconv.Itoa n = strconv.Itoa m) : n = m := by
  have h1 := parseInt64_toString "Atoi" n hn.1 hn.2
  have h2 := parseInt64_toString "Atoi" m hm.1 hm.2
  unfold strconv.Itoa at h
  rw [h, h2] at h1
  exact (Prod.mk.inj h1).1.symm

/-- What `strconv.Atoi` returns without error is a 64-bit signed integer. -/
theorem strconv.Atoi_range [GoToolchain] (t : String) (n : Int) (h : strconv.Atoi t = (n, none)) :
    -(2 ^ 63) ≤ n ∧ n < 2 ^ 63 := by
  unfold strconv.Atoi parseInt64 at h
  dsimp only at h
  generalize (if t.toList.head? = some '-' ∨ t.toList.head? = some '+' then t.toList.tail
    else t.toList) = ds at h
  by_cases hds : ds = []
  · rw [if_pos hds] at h
    simp at h
  · rw [if_neg hds] at h
    cases hl : parseUintLoop 0 ds with
    | syntaxError =>
      rw [hl] at h
      simp at h
    | rangeError =>
      rw [hl] at h
      dsimp only at h
      split at h <;> simp at h
    | ok k =>
      rw [hl] at h
      dsimp only at h
      by_cases hneg : t.toList.head? = some '-'
      · rw [if_pos hneg] at h
        by_cases hk : k > 2 ^ 63
        · rw [if_pos hk] at h
          simp at h
        · rw [if_neg hk] at h
          obtain ⟨rfl, -⟩ := Prod.mk.inj h
          constructor <;> omega
      · rw [if_neg hneg] at h
        by_cases hk : k ≥ 2 ^ 63
        · rw [if_pos hk] at h
          simp at h
        · rw [if_neg hk] at h
          obtain ⟨rfl, -⟩ := Prod.mk.inj h
          constructor <;> omega

section Handles
variable {σ : Type}

/-- A handle whose paths are derived from its id. -/
theorem handle_paths_bind {α : Type} (m : Go σ α) (f : α → Go σ (Except GoError (ZRAMDevice σ)))
    (s : σ)
    (hf : ∀ a s1 dev, Go.result (f a s1) = .ok dev →
      dev.devPath = "/dev/zram" ++ strconv.Itoa dev.id ∧
        dev.sysPath = "/sys/block/zram" ++ strconv.Itoa dev.id) :
    ∀ dev, Go.result ((m >>= f) s) = .ok dev →
      dev.devPath = "/dev/zram" ++ strconv.Itoa dev.id ∧
        dev.sysPath = "/sys/block/zram" ++ strconv.Itoa dev.id :=
  Go.result_bind_of (fun r => ∀ dev, r = .ok dev →
    dev.devPath = "/dev/zram" ++ strconv.Itoa dev.id ∧
      dev.sysPath = "/sys/block/zram" ++ strconv.Itoa dev.id) m f s hf

theorem NewZRAMDevice_paths [GoToolchain] (h : Host σ) (s : σ) :
    ∀ dev, Go.result (NewZRAMDevice h s) = .ok dev →
      dev.devPath = "/dev/zram" ++ strconv.Itoa dev.id ∧
        dev.sysPath = "/sys/block/zram" ++ strconv.Itoa dev.id := by
  intro dev hok
  unfold NewZRAMDevice at hok
  simp only [Go.bind_apply, Go.pure_apply, ioutil.ReadFile, call_apply, Go.result] at hok
  generalize h.readFile "/sys/class/zram-control/hot_add" s = r at hok
  obtain ⟨⟨data, err⟩, s1⟩ := r
  generalize strconv.Atoi (strings.TrimSpace data) = a at hok
  obtain ⟨id, aerr⟩ := a
  cases err <;> cases aerr <;> simp [Go.bind_apply, Go.pure_apply] at hok
  rw [← hok]
  exact ⟨rfl, rfl⟩

theorem NewZRAMDeviceFromMountPath_paths [GoToolchain] (h : Host σ) (mountPath : String) (s : σ) :
    ∀ dev, Go.result (NewZRAMDeviceFromMountPath h mountPath s) = .ok dev →
      dev.devPath = "/dev/zram" ++ strconv.Itoa dev.id ∧
        dev.sysPath = "/sys/block/zram" ++ strconv.Itoa dev.id := by
  intro dev hok
  unfold NewZRAMDeviceFromMountPath at hok
  simp only [Go.bind_apply, Go.pure_apply, Go.result] at hok
  generalize GetDeviceNameFromMountPath h h.mountNew mountPath s = r at hok
  obtain ⟨⟨name, cnt, err⟩, s1, t1⟩ := r
  generalize strconv.Atoi (strings.TrimPrefix (filepath.Base name) "zram") = a at hok
  obtain ⟨id, aerr⟩ := a
  by_cases hp : strings.HasPrefix (filepath.Base name) "zram" = true <;>
    cases err <;> cases aerr <;>
    simp [Go.bind_apply, Go.pure_apply, Go.ite_apply, hp] at hok
  rw [← hok]
  exact ⟨rfl, rfl⟩

/-- C28: a handle built by `NewZRAMDevice`, `NewZRAMDeviceFromId` or
`NewZRAMDeviceFromMountPath` has device path `/dev/zram` and control path
`/sys/block/zram`, each followed by the decimal form of its id, and `GetId`
returns the id; `NewZRAMDeviceFromId` succeeds on every id, with that id; for
two different 64-bit ids the device paths differ and the control paths
differ. -/
theorem device_handle_paths [GoToolchain] (h : Host σ) (mountPath : String) (s : σ) (n m : Int) :
    (∀ dev, Go.result (NewZRAMDevice h s) = .ok dev →
      dev.devPath = "/dev/zram" ++ strconv.Itoa dev.id ∧
        dev.sysPath = "/sys/block/zram" ++ strconv.Itoa dev.id ∧ dev.GetId = dev.id) ∧
    (∀ dev, Go.result (NewZRAMDeviceFromMountPath h mountPath s) = .ok dev →
      dev.devPath = "/dev/zram" ++ strconv.Itoa dev.id ∧
        dev.sysPath = "/sys/block/zram" ++ strconv.Itoa dev.id ∧ dev.GetId = dev.id) ∧
    (∃ dev, NewZRAMDeviceFromId h n = .ok dev ∧ dev.id = n ∧ dev.GetId = n ∧
      dev.GetDevPath = "/dev/zram" ++ strconv.Itoa n ∧
      dev.GetSysPath = "/sys/block/zram" ++ strconv.Itoa n) ∧
    (-(2 ^ 63) ≤ n ∧ n < 2 ^ 63 → -(2 ^ 63) ≤ m ∧ m < 2 ^ 63 → n ≠ m →
      "/dev/zram" ++ strconv.Itoa n ≠ "/dev/zram" ++ strconv.Itoa m ∧
        "/sys/block/zram" ++ strconv.Itoa n ≠ "/sys/block/zram" ++ strconv.Itoa m) := by
  refine ⟨?_, ?_, ⟨_, rfl, rfl, rfl, rfl, rfl⟩, ?_⟩
  · intro dev hok
    obtain ⟨h1, h2⟩ := NewZRAMDevice_paths h s dev hok
    exact ⟨h1, h2, rfl⟩
  · intro dev hok
    obtain ⟨h1, h2⟩ := NewZRAMDeviceFromMountPath_paths h mountPath s dev hok
    exact ⟨h1, h2, rfl⟩
  · intro hn hm hne
    constructor
    · intro heq
      exact hne (strconv.Itoa_injective n m hn hm (String.append_left_cancel _ _ _ heq))
    · intro heq
      exact hne (strconv.Itoa_injective n m hn hm (String.append_left_cancel _ _ _ heq))

end Handles

/-- C28, on the simulated node: the handle of a fresh device, the handle
recovered from the mount path of the staged node, and the handles of ids 3 and
12. -/
theorem device_handle_paths_witness :
    (match Go.result (NewZRAMDevice simHost Sim.staged) with
      | .ok dev => some (dev.id, dev.devPath, dev.sysPath)
      | .error _ => none) = some (1, "/dev/zram1", "/sys/block/zram1") ∧
    (match Go.result (NewZRAMDeviceFromMountPath simHost "/mnt/x" Sim.staged) with
      | .ok dev => some (dev.id, dev.devPath, dev.sysPath)
      | .error _ => none) = some (0, "/dev/zram0", "/sys/block/zram0") ∧
    ("/dev/zram" ++ strconv.Itoa 3 ≠ "/dev/zram" ++ strconv.Itoa 12 ∧
      "/sys/block/zram" ++ strconv.Itoa 3 ≠ "/sys/block/zram" ++ strconv.Itoa 12) :=
  ⟨by decide, by decide,
    (device_handle_paths simHost "/mnt/x" Sim.staged 3 12).2.2.2
      (by constructor <;> decide) (by constructor <;> decide) (by decide)⟩

/-! ## The capacity from CreateVolume to NodeStageVolume -/

section Capacity
variable {σ : Type}

theorem lookup_mapSet (m : List (String × String)) (key value : String) :
    (mapSet m key value).lookup key = some value := by
  simp [mapSet, List.lookup]

/-- The locked part of `NodeStageVolume` on a volume context whose capacity
entry parses to `n`, written out call by call. -/
theorem NodeStageVolume.locked_capacity [GoToolchain] (h : Host σ) (d : Driver σ)
    (volumeID targetPath : String) (context : List (String × String)) (fsType : String)
    (mountFlags : List String) (s : σ) (str : String) (n : Int)
    (hctx : context.lookup capacityField = some str)
    (hparse : strconv.ParseInt str = (n, none)) :
    NodeStageVolume.locked h d volumeID targetPath context fsType mountFlags s =
      match h.mkdirAll targetPath 0o750 s with
      | (some e, s1) =>
        (.error (status.Error .Internal
          ("MkdirAll " ++ targetPath ++ " failed with error: " ++ e.Error)),
          s1, [.MkdirAll targetPath 0o750 (some e)])
      | (none, s1) =>
        match ensureMountPoint h d targetPath s1 with
        | ((_, some e), s2, t2) =>
          (.error (status.Error .Internal
            ("Could not mount target " ++ targetPath ++ ": " ++ e.Error)),
            s2, .MkdirAll targetPath 0o750 none :: t2)
        | ((true, none), s2, t2) => (.ok {}, s2, .MkdirAll targetPath 0o750 none :: t2)
        | ((false, none), s2, t2) =>
          match NewZRAMDevice h s2 with
          | (.error e, s3, t3) =>
            (.error (status.Error .Internal ("Failed to create zram device: " ++ e.Error)),
              s3, .MkdirAll targetPath 0o750 none :: (t2 ++ t3))
          | (.ok dev, s3, t3) =>
            match dev.Reset h s3 with
            | (some e, s4, t4) =>
              (.error (status.Error .Internal
                ("Failed to reset zram device " ++ dev.devPath ++ ": " ++ e.Error)),
                Go.state (dev.Remove h s4),
                .MkdirAll targetPath 0o750 none ::
                  (t2 ++ t3 ++ t4 ++ Go.events (dev.Remove h s4)))
            | (none, s4, t4) =>
              match dev.SetDiskSize h n s4 with
              | (some e, s5, t5) =>
                (.error (status.Error .Internal
                  ("Failed to set zram device " ++ dev.devPath ++ " capacity " ++
                    strconv.Itoa n ++ ": " ++ e.Error)),
                  Go.state (dev.Remove h s5),
                  .MkdirAll targetPath 0o750 none ::
                    (t2 ++ t3 ++ t4 ++ t5 ++ Go.events (dev.Remove h s5)))
              | (none, s5, t5) =>
                (.ok {}, Go.state (dev.FormatAndMount h targetPath fsType mountFlags s5),
                  .MkdirAll targetPath 0o750 none ::
                    (t2 ++ t3 ++ t4 ++ t5 ++
                      Go.events (dev.FormatAndMount h targetPath fsType mountFlags s5))) := by
  unfold NodeStageVolume.locked
  generalize hm : h.mkdirAll targetPath 0o750 s = r
  obtain ⟨me, s1⟩ := r
  cases me with
  | some e => simp [Go.bind_apply, Go.pure_apply, os.MkdirAll, call_apply, hm, fmtV]
  | none =>
    simp only
    generalize hr : ensureMountPoint h d targetPath s1 = r
    obtain ⟨⟨mnt, err⟩, s2, t2⟩ := r
    cases err with
    | some e =>
      cases mnt <;>
        simp [Go.bind_apply, Go.pure_apply, Go.ite_apply, os.MkdirAll, call_apply, hm, hr, fmtV]
    | none =>
      cases mnt with
      | true =>
        simp [Go.bind_apply, Go.pure_apply, Go.ite_apply, os.MkdirAll, call_apply, hm, hr]
      | false =>
        simp only
        generalize hnew : NewZRAMDevice h s2 = r
        obtain ⟨rd, s3, t3⟩ := r
        cases rd with
        | error e =>
          simp [Go.bind_apply, Go.pure_apply, Go.ite_apply, os.MkdirAll, call_apply, hm, hr,
            hctx, hparse, hnew]
        | ok dev =>
          simp only
          generalize hreset : dev.Reset h s3 = r
          obtain ⟨re, s4, t4⟩ := r
          cases re with
          | some e =>
            generalize hrm : dev.Remove h s4 = r
            obtain ⟨rme, s5, t5⟩ := r
            simp [Go.bind_apply, Go.pure_apply, Go.ite_apply, os.MkdirAll, call_apply, hm, hr,
              hctx, hparse, hnew, hreset, hrm, fmtV, Go.state, Go.events]
          | none =>
            simp only
            generalize hsize : dev.SetDiskSize h n s4 = r
            obtain ⟨se, s5, t5⟩ := r
            cases se with
            | some e =>
              generalize hrm : dev.Remove h s5 = r
              obtain ⟨rme, s6, t6⟩ := r
              simp [Go.bind_apply, Go.pure_apply, Go.ite_apply, os.MkdirAll, call_apply, hm, hr,
                hctx, hparse, hnew, hreset, hsize, hrm, fmtV, Go.state, Go.events]
            | none =>
              generalize hfm : dev.FormatAndMount h targetPath fsType mountFlags s5 = r
              obtain ⟨fe, s6, t6⟩ := r
              simp [Go.bind_apply, Go.pure_apply, Go.ite_apply, os.MkdirAll, call_apply, hm, hr,
                hctx, hparse, hnew, hreset, hsize, hfm, Go.state, Go.events]

/-- First character of a text, if it has one. -/
theorem String.head?_append (a b : String) :
    (a ++ b).data.head? = (a.data.head?).or b.data.head? := by
  rw [String.data_append]
  cases a.data <;> simp

/-- The outcome of the locked part of `NodeStageVolume` on a volume context
whose capacity entry parses is neither of the two capacity errors. -/
theorem NodeStageVolume.locked_capacity_no_error [GoToolchain] (h : Host σ) (d : Driver σ)
    (volumeID targetPath : String) (context : List (String × String)) (fsType : String)
    (mountFlags : List String) (s : σ) (str : String) (n : Int)
    (hctx : context.lookup capacityField = some str)
    (hparse : strconv.ParseInt str = (n, none)) :
    Go.result (NodeStageVolume.locked h d volumeID targetPath context fsType mountFlags s) ≠
        .error (status.Error .Internal "Expected capacity field in volume context") ∧
      ∀ t, Go.result (NodeStageVolume.locked h d volumeID targetPath context fsType mountFlags s) ≠
        .error (status.Error .Internal ("Invalid zram capacity found in volume context: " ++ t)) := by
  rw [NodeStageVolume.locked_capacity h d volumeID targetPath context fsType mountFlags s str n
    hctx hparse]
  have key : ∀ msg : String, msg.data.head? ≠ some 'E' → msg.data.head? ≠ some 'I' →
      (Outcome.error (status.Error .Internal msg) : Outcome NodeStageVolumeResponse) ≠
          .error (status.Error .Internal "Expected capacity field in volume context") ∧
        ∀ t, (Outcome.error (status.Error .Internal msg) : Outcome NodeStageVolumeResponse) ≠
          .error (status.Error .Internal
            ("Invalid zram capacity found in volume context: " ++ t)) := by
    intro msg hE hI
    refine ⟨fun he => hE ?_, fun t he => hI ?_⟩
    · injection he with he
      injection he with he
      injection he with _ he
      rw [he]; rfl
    · injection he with he
      injection he with he
      injection he with _ he
      rw [he, String.head?_append]; rfl
  unfold Go.result
  repeat' split
  all_goals dsimp only
  all_goals first
    | (apply key <;> simp [String.head?_append])
    | (refine ⟨?_, ?_⟩ <;> intros <;> simp)

/-- The run of `NodeStageVolume` on a request with its required fields, a
mount descriptor and a free volume id is the run of its locked part. -/
theorem NodeStageVolume_run [GoToolchain] (h : Host σ) (d : Driver σ) (req : NodeStageVolumeRequest)
    (cap : VolumeCapability) (m : MountVolume) (vl : VolumeLocks) (s : σ)
    (hid : req.VolumeId ≠ "") (hcap : req.VolumeCapability = some cap)
    (hmount : cap.GetMount = some m) (hpath : req.StagingTargetPath ≠ "")
    (hfree : req.VolumeId ∉ vl.locks) :
    NodeStageVolume h d req vl s =
      ((Go.result (NodeStageVolume.locked h d req.VolumeId req.StagingTargetPath
          req.VolumeContext m.FsType (MountVolume.GetMountFlags cap.GetMount) s),
        (vl.TryAcquire req.VolumeId).2.Release req.VolumeId),
        Go.state (NodeStageVolume.locked h d req.VolumeId req.StagingTargetPath
          req.VolumeContext m.FsType (MountVolume.GetMountFlags cap.GetMount) s),
        Go.events (NodeStageVolume.locked h d req.VolumeId req.StagingTargetPath
          req.VolumeContext m.FsType (MountVolume.GetMountFlags cap.GetMount) s)) := by
  unfold NodeStageVolume
  simp [String.length_ne_zero_of_ne_empty _ hid, String.length_ne_zero_of_ne_empty _ hpath,
    hcap, hmount, VolumeLocks.tryAcquire_free vl _ hfree, Go.bind_apply, Go.pure_apply,
    Go.result, Go.state, Go.events]

/-- The outcome of `NodeStageVolume` on a volume context whose capacity entry
parses is neither of the two capacity errors, whatever the request. -/
theorem NodeStageVolume_capacity_no_error [GoToolchain] (h : Host σ) (d : Driver σ)
    (req : NodeStageVolumeRequest) (vl : VolumeLocks) (s : σ) (str : String) (n : Int)
    (hctx : req.VolumeContext.lookup capacityField = some str)
    (hparse : strconv.ParseInt str = (n, none)) :
    (Go.result (NodeStageVolume h d req vl s)).1 ≠
        .error (status.Error .Internal "Expected capacity field in volume context") ∧
      ∀ t, (Go.result (NodeStageVolume h d req vl s)).1 ≠
        .error (status.Error .Internal ("Invalid zram capacity found in volume context: " ++ t)) := by
  by_cases hid : req.VolumeId = ""
  · unfold NodeStageVolume
    simp [hid, Go.bind_apply, Go.pure_apply, Go.result]
  · cases hcap : req.VolumeCapability with
    | none =>
      unfold NodeStageVolume
      simp [String.length_ne_zero_of_ne_empty _ hid, hcap, Go.bind_apply, Go.pure_apply,
        Go.result]
    | some cap =>
      by_cases hpath : req.StagingTargetPath = ""
      · unfold NodeStageVolume
        simp [String.length_ne_zero_of_ne_empty _ hid, hcap, hpath, Go.bind_apply,
          Go.pure_apply, Go.result]
      · cases hmount : cap.GetMount with
        | none =>
          unfold NodeStageVolume
          simp [String.length_ne_zero_of_ne_empty _ hid,
            String.length_ne_zero_of_ne_empty _ hpath, hcap, hmount, Go.bind_apply,
            Go.pure_apply, Go.result]
        | some m =>
          by_cases hfree : req.VolumeId ∈ vl.locks
          · unfold NodeStageVolume
            simp [String.length_ne_zero_of_ne_empty _ hid,
              String.length_ne_zero_of_ne_empty _ hpath, hcap, hmount,
              VolumeLocks.tryAcquire_held vl _ hfree, Go.bind_apply, Go.pure_apply, Go.result]
          · rw [NodeStageVolume_run h d req cap m vl s hid hcap hmount hpath hfree]
            exact NodeStageVolume.locked_capacity_no_error h d req.VolumeId
              req.StagingTargetPath req.VolumeContext _ _ s str n hctx hparse

/-- C30: for a `CreateVolume` request that is answered with a volume, whose
required bytes `n` (0 for a nil capacity range) are a 64-bit signed integer,
and whatever its parameter map (nil, or one that already has a capacity), the
volume context holds the decimal form of `n` under the capacity key, that
string parses back to `n`, and for every `NodeStageVolume` request that carries
this volume context, on every node: the answer is neither the
missing-capacity nor the invalid-capacity error; and when the call comes to
provision a device (fields present, mount descriptor, free volume id, the
staging directory made, `ensureMountPoint` reporting `(false, nil)`, a device
allocated and reset), the host calls that follow the reset are those of
`SetDiskSize` on that device with `n`, the write of the decimal form of `n` to
its `disksize` file, followed by the removal of the device when that fails and
by format-and-mount otherwise, and the answer is the sizing error, which names
`n`, or success. -/
theorem CreateVolume_capacity_roundtrip [GoToolchain] (d : Driver σ) (req : CreateVolumeRequest)
    (resp : CreateVolumeResponse)
    (hlo : -(2 ^ 63) ≤ CapacityRange.GetRequiredBytes req.CapacityRange)
    (hhi : CapacityRange.GetRequiredBytes req.CapacityRange < 2 ^ 63)
    (hok : CreateVolume d req = .ok resp) :
    resp.volume.VolumeContext.lookup capacityField =
        some (strconv.Itoa (CapacityRange.GetRequiredBytes req.CapacityRange)) ∧
      strconv.ParseInt (strconv.Itoa (CapacityRange.GetRequiredBytes req.CapacityRange)) =
        (CapacityRange.GetRequiredBytes req.CapacityRange, none) ∧
      ∀ (h : Host σ) (node : Driver σ) (stage : NodeStageVolumeRequest) (vl : VolumeLocks) (s : σ),
        stage.VolumeContext = resp.volume.VolumeContext →
        (Go.result (NodeStageVolume h node stage vl s)).1 ≠
            .error (status.Error .Internal "Expected capacity field in volume context") ∧
          (∀ t, (Go.result (NodeStageVolume h node stage vl s)).1 ≠
            .error (status.Error .Internal
              ("Invalid zram capacity found in volume context: " ++ t))) ∧
          ∀ (cap : VolumeCapability) (m : MountVolume) (dev : ZRAMDevice σ)
            (s1 s2 s3 s4 : σ) (t2 t3 t4 : List Event),
            stage.VolumeId ≠ "" → stage.VolumeCapability = some cap → cap.GetMount = some m →
            stage.StagingTargetPath ≠ "" → stage.VolumeId ∉ vl.locks →
            h.mkdirAll stage.StagingTargetPath 0o750 s = (none, s1) →
            ensureMountPoint h node stage.StagingTargetPath s1 = ((false, none), s2, t2) →
            NewZRAMDevice h s2 = (.ok dev, s3, t3) →
            dev.Reset h s3 = (none, s4, t4) →
            Go.events (NodeStageVolume h node stage vl s) =
                .MkdirAll stage.StagingTargetPath 0o750 none ::
                  (t2 ++ t3 ++ t4 ++
                    Go.events (dev.SetDiskSize h
                      (CapacityRange.GetRequiredBytes req.CapacityRange) s4) ++
                    if (Go.result (dev.SetDiskSize h
                      (CapacityRange.GetRequiredBytes req.CapacityRange) s4)).isSome then
                      Go.events (dev.Remove h (Go.state (dev.SetDiskSize h
                        (CapacityRange.GetRequiredBytes req.CapacityRange) s4)))
                    else
                      Go.events (dev.FormatAndMount h stage.StagingTargetPath m.FsType
                        (MountVolume.GetMountFlags cap.GetMount) (Go.state (dev.SetDiskSize h
                          (CapacityRange.GetRequiredBytes req.CapacityRange) s4)))) ∧
              (Go.result (NodeStageVolume h node stage vl s)).1 =
                match Go.result (dev.SetDiskSize h
                  (CapacityRange.GetRequiredBytes req.CapacityRange) s4) with
                | some e =>
                  .error (status.Error .Internal
                    ("Failed to set zram device " ++ dev.devPath ++ " capacity " ++
                      strconv.Itoa (CapacityRange.GetRequiredBytes req.CapacityRange) ++ ": " ++
                      e.Error))
                | none => .ok {} := by
  have hparse := parseInt64_toString "ParseInt" _ hlo hhi
  have hlook : resp.volume.VolumeContext.lookup capacityField =
      some (strconv.Itoa (CapacityRange.GetRequiredBytes req.CapacityRange)) := by
    unfold CreateVolume at hok
    dsimp only at hok
    split at hok
    · cases hok
    · split at hok
      · cases hok
      · injection hok with hok
        rw [← hok]
        exact lookup_mapSet _ _ _
  refine ⟨hlook, hparse, ?_⟩
  intro h node stage vl s hctx
  rw [← hctx] at hlook
  obtain ⟨h1, h2⟩ := NodeStageVolume_capacity_no_error h node stage vl s _ _ hlook hparse
  refine ⟨h1, h2, ?_⟩
  intro cap m dev s1 s2 s3 s4 t2 t3 t4 hid hcap hmount hpath hfree hmk hens hnew hreset
  rw [NodeStageVolume_run h node stage cap m vl s hid hcap hmount hpath hfree,
    NodeStageVolume.locked_capacity h node _ _ _ _ _ s _ _ hlook hparse]
  simp only [hmk, hens, hnew, hreset]
  unfold Go.result Go.state Go.events
  generalize dev.SetDiskSize h (CapacityRange.GetRequiredBytes req.CapacityRange) s4 = r
  obtain ⟨se, s5, t5⟩ := r
  cases se <;> simp

end Capacity

/-- C30, on a request for one mebibyte whose parameters already hold the
capacity `7`: the volume context of the answer holds `1048576` under the
capacity key, and `NodeStageVolume` with that context on the fresh node writes
`1048576` to the `disksize` file of the device it allocates and answers with
success. -/
theorem CreateVolume_capacity_roundtrip_witness :
    CreateVolume simDriver createReq =
        .ok { volume := {
          CapacityBytes := 0
          VolumeId := "pv1"
          VolumeContext := [("capacity", "1048576"), ("source", "//srv/share")]
          AccessibleTopology := [] } } ∧
      Go.events (NodeStageVolume simHost simDriver stageReqCreated newVolumeLocks Sim.fresh) =
        [Event.MkdirAll "/mnt/x" 0o750 none,
          Event.IsLikelyNotMountPoint "/mnt/x" true none,
          Event.List [] none,
          Event.Abs "/mnt/x" "/mnt/x" none,
          Event.MkdirAll "/mnt/x" 0o755 none,
          Event.ReadFile "/sys/class/zram-control/hot_add" "0\n" none,
          Event.OpenFile "/sys/block/zram0/reset" none,
          Event.WriteString "/sys/block/zram0/reset" "1" none,
          Event.Close "/sys/block/zram0/reset" none,
          Event.OpenFile "/sys/block/zram0/disksize" none,
          Event.WriteString "/sys/block/zram0/disksize" "1048576" none,
          Event.Close "/sys/block/zram0/disksize" none,
          Event.IsLikelyNotMountPoint "/mnt/x" true none,
          Event.MkdirAll "/mnt/x" 0o750 none,
          Event.FormatAndMount "/dev/zram0" "/mnt/x" "ext4" [] none] ∧
      (Go.result (NodeStageVolume simHost simDriver stageReqCreated newVolumeLocks
        Sim.fresh)).1 = .ok {} :=
  ⟨by decide,
    ((((CreateVolume_capacity_roundtrip simDriver createReq
      { volume := {
          CapacityBytes := 0
          VolumeId := "pv1"
          VolumeContext := [("capacity", "1048576"), ("source", "//srv/share")]
          AccessibleTopology := [] } }
      (by decide) (by decide) (by decide)).2.2
      simHost simDriver stageReqCreated newVolumeLocks Sim.fresh rfl).2.2
      { AccessType := some (.Mount (some { FsType := "ext4", MountFlags := [] })) }
      { FsType := "ext4", MountFlags := [] } simDevice0
      Sim.dirMade Sim.dirMade Sim.allocated Sim.allocated
      [Event.IsLikelyNotMountPoint "/mnt/x" true none, Event.List [] none,
        Event.Abs "/mnt/x" "/mnt/x" none, Event.MkdirAll "/mnt/x" 0o755 none]
      [Event.ReadFile "/sys/class/zram-control/hot_add" "0\n" none]
      [Event.OpenFile "/sys/block/zram0/reset" none,
        Event.WriteString "/sys/block/zram0/reset" "1" none,
        Event.Close "/sys/block/zram0/reset" none]
      (by decide) rfl rfl (by decide) (by decide) (by decide) (by decide) rfl
      (by decide)).1).trans (by decide),
    ((((CreateVolume_capacity_roundtrip simDriver createReq
      { volume := {
          CapacityBytes := 0
          VolumeId := "pv1"
          VolumeContext := [("capacity", "1048576"), ("source", "//srv/share")]
          AccessibleTopology := [] } }
      (by decide) (by decide) (by decide)).2.2
      simHost simDriver stageReqCreated newVolumeLocks Sim.fresh rfl).2.2
      { AccessType := some (.Mount (some { FsType := "ext4", MountFlags := [] })) }
      { FsType := "ext4", MountFlags := [] } simDevice0
      Sim.dirMade Sim.dirMade Sim.allocated Sim.allocated
      [Event.IsLikelyNotMountPoint "/mnt/x" true none, Event.List [] none,
        Event.Abs "/mnt/x" "/mnt/x" none, Event.MkdirAll "/mnt/x" 0o755 none]
      [Event.ReadFile "/sys/class/zram-control/hot_add" "0\n" none]
      [Event.OpenFile "/sys/block/zram0/reset" none,
        Event.WriteString "/sys/block/zram0/reset" "1" none,
        Event.Close "/sys/block/zram0/reset" none]
      (by decide) rfl rfl (by decide) (by decide) (by decide) (by decide) rfl
      (by decide)).2).trans (by decide)⟩

/-! ## The handle recovered from a mount path -/

section Recover
variable {σ : Type}

/-- C22, as the code has it: when the mount table lists and
`NewZRAMDeviceFromMountPath` succeeds with a handle, the base name of the
device string of the first entry at the (resolved) mount path is `zram`
followed by a numeral that `strconv.Atoi` reads as the id of the handle (an
optional sign and leading zeros are accepted, the directory is not looked at),
and the device path of the handle is `/dev/zram` followed by the decimal form
of the id. -/
theorem NewZRAMDeviceFromMountPath_naming [GoToolchain] (h : Host σ) (mountPath : String) (s : σ)
    (mps : MountList) (s1 s2 : σ) (resolved : String) (serr : Option GoError)
    (device : String) (dev : ZRAMDevice σ)
    (hlist : h.mountNew.list s = ((mps, none), s1))
    (hsym : h.evalSymlinks mountPath s1 = ((resolved, serr), s2))
    (hdev : device =
      match mps.find? fun mp => mp.Path == if serr.isSome then mountPath else resolved with
      | some mp => mp.Device
      | none => "")
    (hok : Go.result (NewZRAMDeviceFromMountPath h mountPath s) = .ok dev) :
    (∃ t, filepath.Base device = "zram" ++ t ∧ strconv.Atoi t = (dev.id, none)) ∧
      dev.devPath = "/dev/zram" ++ strconv.Itoa dev.id ∧
      (-(2 ^ 63) ≤ dev.id ∧ dev.id < 2 ^ 63) := by
  subst hdev
  unfold NewZRAMDeviceFromMountPath GetDeviceNameFromMountPath at hok
  by_cases hp : strings.HasPrefix (filepath.Base
      (match mps.find? fun mp => mp.Path == if serr.isSome then mountPath else resolved with
      | some mp => mp.Device
      | none => "")) "zram" = true
  · cases hA : strconv.Atoi (strings.TrimPrefix (filepath.Base
        (match mps.find? fun mp => mp.Path == if serr.isSome then mountPath else resolved with
        | some mp => mp.Device
        | none => "")) "zram") with
    | mk id aerr =>
      cases aerr with
      | some e =>
        simp [Go.bind_apply, Go.pure_apply, Go.ite_apply, Mounter.List, filepath.EvalSymlinks,
          call_apply, hlist, hsym, hp, hA, Go.result] at hok
      | none =>
        simp [Go.bind_apply, Go.pure_apply, Go.ite_apply, Mounter.List, filepath.EvalSymlinks,
          call_apply, hlist, hsym, hp, hA, Go.result] at hok
        rw [← hok]
        exact ⟨⟨_, strings.eq_append_trimPrefix _ _ hp, hA⟩, rfl, strconv.Atoi_range _ _ hA⟩
  · simp [Go.bind_apply, Go.pure_apply, Go.ite_apply, Mounter.List, filepath.EvalSymlinks,
      call_apply, hlist, hsym, hp, Go.result] at hok

end Recover

/-- C22, refuted as worded: with the device string `/tmp/zram+05` in the mount
table, `NewZRAMDeviceFromMountPath` succeeds, with id 5; the device path of the
handle, `/dev/zram5`, is not the device string of the entry, which has another
directory, a sign and a leading zero. -/
theorem NewZRAMDeviceFromMountPath_accepts_other_names :
    (Sim.lenientName.mounts.find? fun mp => mp.Path == "/mnt/x") =
        some { Device := "/tmp/zram+05", Path := "/mnt/x" } ∧
      (match Go.result (NewZRAMDeviceFromMountPath simHost "/mnt/x" Sim.lenientName) with
        | .ok dev => some (dev.id, dev.devPath)
        | .error _ => none) = some (5, "/dev/zram5") ∧
      "/dev/zram5" ≠ "/tmp/zram+05" := by
  decide

/-- C22, on the staged node: the handle recovered from `/mnt/x` is that of
device 0; its id is read from the base name `zram0` of the device string and
its device path is `/dev/zram0`. -/
theorem NewZRAMDeviceFromMountPath_naming_witness :
    (∃ t, filepath.Base "/dev/zram0" = "zram" ++ t ∧ strconv.Atoi t = (simDevice0.id, none)) ∧
      simDevice0.devPath = "/dev/zram" ++ strconv.Itoa simDevice0.id ∧
      (-(2 ^ 63) ≤ simDevice0.id ∧ simDevice0.id < 2 ^ 63) :=
  NewZRAMDeviceFromMountPath_naming simHost "/mnt/x" Sim.staged Sim.staged.mounts Sim.staged
    Sim.staged "/mnt/x" none "/dev/zram0" simDevice0 rfl rfl (by decide) rfl

/-! ## The bind mount of NodePublishVolume -/

section BindMount
variable {σ : Type}

theorem ensureMountPoint_no_mount_call (h : Host σ) (d : Driver σ) (target : String) (s : σ) :
    (Go.events (ensureMountPoint h d target s)).filter (fun ev =>
      match ev with
      | .Mount _ _ _ _ _ => true
      | _ => false) = [] := by
  rw [List.filter_eq_nil_iff]
  intro ev hev
  have := ensureMountPoint_no_provision h d target s ev hev
  cases ev <;> simp [Event.provisions] at this ⊢

/-- C21, as the code has it: for a publish request with its four inputs whose
target `ensureMountPoint` reports as not mounted, `(false, nil)`: when
`preparePublishPath` succeeds, `Mount` is called exactly once, with the staging
path as source, the target path as destination, an empty filesystem type, and
the options `["bind"]` when read-only is false and `["bind", "ro"]` when it is
true; when `preparePublishPath` fails, `Mount` is not called. -/
theorem NodePublishVolume_mounts_once [GoToolchain] (h : Host σ) (x : Helpers σ) (d : Driver σ)
    (req : NodePublishVolumeRequest) (s s1 : σ) (t1 : List Event)
    (hcap : req.VolumeCapability ≠ none) (hid : req.VolumeId ≠ "")
    (htarget : req.TargetPath ≠ "") (hsource : req.StagingTargetPath ≠ "")
    (hens : ensureMountPoint h d req.TargetPath s = ((false, none), s1, t1)) :
    (∀ s2, x.preparePublishPath req.TargetPath d.mounter s1 = (none, s2) →
      (Go.events (NodePublishVolume h x d req s)).filter (fun ev =>
        match ev with
        | .Mount _ _ _ _ _ => true
        | _ => false) =
        [.Mount req.StagingTargetPath req.TargetPath ""
          (if req.Readonly then ["bind", "ro"] else ["bind"])
          (d.mounter.mount req.StagingTargetPath req.TargetPath ""
            (if req.Readonly then ["bind", "ro"] else ["bind"]) s2).1]) ∧
    (∀ e s2, x.preparePublishPath req.TargetPath d.mounter s1 = (some e, s2) →
      (Go.events (NodePublishVolume h x d req s)).filter (fun ev =>
        match ev with
        | .Mount _ _ _ _ _ => true
        | _ => false) = []) := by
  have hnone := ensureMountPoint_no_mount_call h d req.TargetPath s
  rw [hens] at hnone
  simp only [Go.events] at hnone
  rw [NodePublishVolume_run h x d req s hcap hid htarget hsource, hens]
  constructor
  · intro s2 hp
    simp only [hp]
    generalize d.mounter.mount req.StagingTargetPath req.TargetPath ""
      (if req.Readonly then ["bind", "ro"] else ["bind"]) s2 = m
    obtain ⟨me, s3⟩ := m
    cases me with
    | none => simp [Go.events, List.filter_append, hnone]
    | some merr =>
      simp only
      generalize h.remove req.TargetPath s3 = rm
      obtain ⟨re, s4⟩ := rm
      cases re <;> simp [Go.events, List.filter_append, hnone]
  · intro e s2 hp
    simp only [hp, Go.events]
    exact hnone

end BindMount

/-- C21, refuted as worded: on the staged node, where `/pod/x` is not mounted,
the publish request is valid and `ensureMountPoint` reports `(false, nil)`, but
`preparePublishPath` fails and `Mount` is not called at all. -/
theorem NodePublishVolume_no_mount_when_prepare_fails :
    Go.result (ensureMountPoint simHost simDriver publishReq.TargetPath Sim.staged) =
        (false, none) ∧
      (Go.events (NodePublishVolume simHost simHelpersPrepareFails simDriver publishReq
        Sim.staged)).filter (fun ev =>
          match ev with
          | .Mount _ _ _ _ _ => true
          | _ => false) = [] := by
  decide

/-- C21, on the staged node: the publish request, and the same request
read-only, each make one `Mount` call, from `/mnt/x` to `/pod/x` with an empty
filesystem type, the first with options `["bind"]`, the second with
`["bind", "ro"]`. -/
theorem NodePublishVolume_mounts_once_witness :
    (Go.events (NodePublishVolume simHost simHelpers simDriver publishReq Sim.staged)).filter
        (fun ev =>
          match ev with
          | .Mount _ _ _ _ _ => true
          | _ => false) =
        [.Mount "/mnt/x" "/pod/x" "" ["bind"] none] ∧
      (Go.events (NodePublishVolume simHost simHelpers simDriver
        { publishReq with Readonly := true } Sim.staged)).filter
        (fun ev =>
          match ev with
          | .Mount _ _ _ _ _ => true
          | _ => false) =
        [.Mount "/mnt/x" "/pod/x" "" ["bind", "ro"] none] :=
  ⟨(NodePublishVolume_mounts_once simHost simHelpers simDriver publishReq Sim.staged
      { Sim.staged with dirs := ["/mnt/x", "/pod/x"] }
      [.IsLikelyNotMountPoint "/pod/x" true (some (Sim.ENOENT "stat" "/pod/x")),
        .List [{ Device := "/dev/zram0", Path := "/mnt/x" }] none,
        .Abs "/pod/x" "/pod/x" none,
        .MkdirAll "/pod/x" 0o755 none]
      (by decide) (by decide) (by decide) (by decide) (by decide)).1 _ rfl,
    (NodePublishVolume_mounts_once simHost simHelpers simDriver
      { publishReq with Readonly := true } Sim.staged
      { Sim.staged with dirs := ["/mnt/x", "/pod/x"] }
      [.IsLikelyNotMountPoint "/pod/x" true (some (Sim.ENOENT "stat" "/pod/x")),
        .List [{ Device := "/dev/zram0", Path := "/mnt/x" }] none,
        .Abs "/pod/x" "/pod/x" none,
        .MkdirAll "/pod/x" 0o755 none]
      (by decide) (by decide) (by decide) (by decide) (by decide)).1 _ rfl⟩

/-! ## replaceWithMap -/

theorem strings.replaceFrom_of_not_infix (old new : List Char) :
    ∀ cs : List Char, ¬ old <:+: cs → strings.replaceFrom old new 0 cs = cs := by
  intro cs
  induction cs with
  | nil => intro _; rfl
  | cons c cs ih =>
    intro hno
    have hpre : old.isPrefixOf (c :: cs) = false := by
      cases hp : old.isPrefixOf (c :: cs) with
      | false => rfl
      | true =>
        rw [ List.isPrefixOf_iff_prefix] at hp
        exact absurd hp.isInfix hno
    have htail : ¬ old <:+: cs := fun hin => hno (hin.trans (List.suffix_cons c cs).isInfix)
    rw [strings.replaceFrom, hpre]
    simp [ih htail]

theorem strings.ReplaceAll_of_not_infix (s old new : String) (hold : old ≠ "")
    (hno : ¬ old.toList <:+: s.toList) : strings.ReplaceAll s old new = s := by
  unfold strings.ReplaceAll
  by_cases he : old = new
  · rw [if_pos he]
  · rw [if_neg he, if_neg hold]
    rw [strings.replaceFrom_of_not_infix _ _ _ hno]
    exact String.ext rfl

theorem replaceWithMap_unchanged (str : String) (m : List (String × String))
    (hno : ∀ kv ∈ m, kv.1 ≠ "" → ¬ kv.1.toList <:+: str.toList) : replaceWithMap str m = str := by
  induction m with
  | nil => rfl
  | cons kv m ih =>
    obtain ⟨k, v⟩ := kv
    have ihm := ih (fun kv hkv => hno kv (List.mem_cons_of_mem _ hkv))
    unfold replaceWithMap
    by_cases hk : k = ""
    · simp [hk, ihm]
    · have := hno (k, v) (List.mem_cons_self _ _) hk
      simp only [bne_iff_ne, ne_eq, hk, not_false_eq_true, if_true]
      rw [strings.ReplaceAll_of_not_infix _ _ _ hk this, ihm]

theorem replaceWithMap_filter (m : List (String × String)) :
    ∀ str : String,
      replaceWithMap str m = replaceWithMap str (m.filter fun kv => kv.1 != "") := by
  induction m with
  | nil => intro str; rfl
  | cons kv m ih =>
    intro str
    obtain ⟨k, v⟩ := kv
    by_cases hk : k = ""
    · simp [replaceWithMap, hk, ih]
    · have hb : (k != "") = true := by simpa using hk
      rw [List.filter_cons_of_pos (by simpa using hk)]
      simp only [replaceWithMap, hb, if_true]
      exact ih _

section ReplaceOrder

theorem strings.fitsAt_eq_false {a b : List Char} {i : Nat} :
    strings.fitsAt a b i = false ↔ ¬ (a.drop i <+: b) ∧ ¬ (b <+: a.drop i) := by
  unfold strings.fitsAt
  rw [Bool.or_eq_false_iff, ← Bool.not_eq_true, ← Bool.not_eq_true,
    List.isPrefixOf_iff_prefix, List.isPrefixOf_iff_prefix]

theorem strings.fitsAt_cons (c : Char) (a b : List Char) (i : Nat) :
    strings.fitsAt (c :: a) b (i + 1) = strings.fitsAt a b i := rfl

/-- The characters skipped after a replacement are dropped. -/
theorem strings.replaceFrom_skip (old new : List Char) :
    ∀ (n : Nat) (cs : List Char),
      strings.replaceFrom old new n cs = strings.replaceFrom old new 0 (cs.drop n) := by
  intro n
  induction n with
  | zero => intro cs; rfl
  | succ n ih =>
    intro cs
    cases cs with
    | nil => simp [strings.replaceFrom]
    | cons c cs => simp [strings.replaceFrom, ih]

/-- An occurrence at the head is replaced. -/
theorem strings.replaceFrom_match (old new t : List Char) (hold : old ≠ []) :
    strings.replaceFrom old new 0 (old ++ t) = new ++ strings.replaceFrom old new 0 t := by
  cases old with
  | nil => exact absurd rfl hold
  | cons c k =>
    have hp : (c :: k).isPrefixOf (c :: (k ++ t)) = true := by
      rw [ List.isPrefixOf_iff_prefix]
      exact List.prefix_append (c :: k) t
    rw [List.cons_append, strings.replaceFrom, if_pos hp, strings.replaceFrom_skip]
    simp

/-- A character at which no occurrence begins is copied. -/
theorem strings.replaceFrom_copy (old new : List Char) (c : Char) (t : List Char)
    (hno : ¬ old <+: c :: t) :
    strings.replaceFrom old new 0 (c :: t) = c :: strings.replaceFrom old new 0 t := by
  have hp : old.isPrefixOf (c :: t) = false := by
    cases h : old.isPrefixOf (c :: t) with
    | false => rfl
    | true => rw [ List.isPrefixOf_iff_prefix] at h; exact absurd h hno
  rw [strings.replaceFrom, hp]
  simp

/-- A text inside which `old` cannot begin is passed over. -/
theorem strings.replaceFrom_pass (old new : List Char) :
    ∀ (w x : List Char), (∀ i, i < w.length → strings.fitsAt w old i = false) →
      strings.replaceFrom old new 0 (w ++ x) = w ++ strings.replaceFrom old new 0 x := by
  intro w
  induction w with
  | nil => intro x _; rfl
  | cons c w ih =>
    intro x hw
    have h0 := strings.fitsAt_eq_false.mp (hw 0 (by simp))
    have hno : ¬ old <+: c :: (w ++ x) := by
      intro hp
      rcases List.prefix_or_prefix_of_prefix hp (List.prefix_append (c :: w) x) with h | h
      · exact h0.2 (by simpa using h)
      · exact h0.1 (by simpa using h)
    rw [List.cons_append, strings.replaceFrom_copy old new c _ hno,
      ih x (fun i hi => by
        rw [← strings.fitsAt_cons c]
        exact hw (i + 1) (by simpa using hi))]
    rfl

/-- A text inside which `old` cannot begin has no occurrence that begins in
it. -/
theorem strings.infix_of_pass (old : List Char) :
    ∀ (w x : List Char), (∀ i, i < w.length → strings.fitsAt w old i = false) →
      old <:+: w ++ x → old <:+: x := by
  intro w
  induction w with
  | nil => intro x _ h; exact h
  | cons c w ih =>
    intro x hw hin
    have h0 := strings.fitsAt_eq_false.mp (hw 0 (by simp))
    rw [List.cons_append, List.infix_cons_iff] at hin
    rcases hin with hp | hin
    · rcases List.prefix_or_prefix_of_prefix hp (List.prefix_append (c :: w) x) with h | h
      · exact absurd (by simpa using h) h0.2
      · exact absurd (by simpa using h) h0.1
    · exact ih x (fun i hi => by
        rw [← strings.fitsAt_cons c]
        exact hw (i + 1) (by simpa using hi)) hin

/-- After the replacement of `old` by `new`, a text `key` inside which `new`
cannot begin is at the head only where it was before. -/
theorem strings.prefix_of_prefix_replaceFrom (old new key : List Char) (hold : old ≠ [])
    (hkey : ∀ j, j < key.length → strings.fitsAt key new j = false) :
    ∀ (s : List Char) (j : Nat),
      key.drop j <+: strings.replaceFrom old new 0 s → key.drop j <+: s := by
  intro s
  induction s with
  | nil => intro j h; simpa [strings.replaceFrom] using h
  | cons c t ih =>
    intro j h
    by_cases hj : j < key.length
    · by_cases hm : old <+: c :: t
      · obtain ⟨r, hr⟩ := hm
        rw [← hr, strings.replaceFrom_match old new r hold] at h
        have hf := strings.fitsAt_eq_false.mp (hkey j hj)
        rcases List.prefix_or_prefix_of_prefix h (List.prefix_append new _) with h1 | h1
        · exact absurd h1 hf.1
        · exact absurd h1 hf.2
      · rw [strings.replaceFrom_copy old new c t hm] at h
        have hd : key.drop j = key[j] :: key.drop (j + 1) := List.drop_eq_getElem_cons hj
        rw [hd] at h ⊢
        rw [List.cons_prefix_cons] at h ⊢
        exact ⟨h.1, ih (j + 1) h.2⟩
    · rw [List.drop_eq_nil_of_le (by omega)]
      exact List.nil_prefix

/-- Two replacements commute when neither key can begin inside the other key
or inside the other value, and neither value can begin inside the other
key. -/
theorem strings.replaceFrom_comm (k1 v1 k2 v2 : List Char) (h1 : k1 ≠ []) (h2 : k2 ≠ [])
    (hk12 : ∀ i, i < k1.length → strings.fitsAt k1 k2 i = false)
    (hk21 : ∀ i, i < k2.length → strings.fitsAt k2 k1 i = false)
    (hv12 : ∀ i, i < v1.length → strings.fitsAt v1 k2 i = false)
    (hv21 : ∀ i, i < v2.length → strings.fitsAt v2 k1 i = false)
    (hkv12 : ∀ i, i < k1.length → strings.fitsAt k1 v2 i = false)
    (hkv21 : ∀ i, i < k2.length → strings.fitsAt k2 v1 i = false) :
    ∀ (n : Nat) (s : List Char), s.length ≤ n →
      strings.replaceFrom k2 v2 0 (strings.replaceFrom k1 v1 0 s) =
        strings.replaceFrom k1 v1 0 (strings.replaceFrom k2 v2 0 s) := by
  intro n
  induction n with
  | zero =>
    intro s hs
    have : s = [] := List.length_eq_zero.mp (Nat.le_zero.mp hs)
    subst this
    rfl
  | succ n ih =>
    intro s hs
    cases s with
    | nil => rfl
    | cons c t =>
      by_cases hm1 : k1 <+: c :: t
      · obtain ⟨r, hr⟩ := hm1
        have hlen : r.length ≤ n := by
          have : (k1 ++ r).length = (c :: t).length := by rw [hr]
          have hk : 0 < k1.length := List.length_pos.mpr h1
          simp at this hs
          omega
        rw [← hr, strings.replaceFrom_match k1 v1 r h1, strings.replaceFrom_pass k2 v2 v1 _ hv12,
          strings.replaceFrom_pass k2 v2 k1 r hk12, strings.replaceFrom_match k1 v1 _ h1,
          ih r hlen]
      · by_cases hm2 : k2 <+: c :: t
        · obtain ⟨r, hr⟩ := hm2
          have hlen : r.length ≤ n := by
            have : (k2 ++ r).length = (c :: t).length := by rw [hr]
            have hk : 0 < k2.length := List.length_pos.mpr h2
            simp at this hs
            omega
          rw [← hr, strings.replaceFrom_match k2 v2 r h2,
            strings.replaceFrom_pass k1 v1 v2 _ hv21, strings.replaceFrom_pass k1 v1 k2 r hk21,
            strings.replaceFrom_match k2 v2 _ h2, ih r hlen]
        · have hlen : t.length ≤ n := by simpa using hs
          have hno2 : ¬ k2 <+: c :: strings.replaceFrom k1 v1 0 t := by
            intro hp
            rw [← strings.replaceFrom_copy k1 v1 c t hm1] at hp
            exact hm2 (by
              simpa using strings.prefix_of_prefix_replaceFrom k1 v1 k2 h1 hkv21 (c :: t) 0
                (by simpa using hp))
          have hno1 : ¬ k1 <+: c :: strings.replaceFrom k2 v2 0 t := by
            intro hp
            rw [← strings.replaceFrom_copy k2 v2 c t hm2] at hp
            exact hm1 (by
              simpa using strings.prefix_of_prefix_replaceFrom k2 v2 k1 h2 hkv12 (c :: t) 0
                (by simpa using hp))
          rw [strings.replaceFrom_copy k1 v1 c t hm1, strings.replaceFrom_copy k2 v2 c t hm2,
            strings.replaceFrom_copy k2 v2 c _ hno2, strings.replaceFrom_copy k1 v1 c _ hno1,
            ih t hlen]

theorem strings.overlap_eq_false {a b : String} (h : strings.overlap a b = false) :
    (∀ i, i < a.toList.length → strings.fitsAt a.toList b.toList i = false) ∧
      ∀ i, i < b.toList.length → strings.fitsAt b.toList a.toList i = false := by
  unfold strings.overlap at h
  rw [Bool.or_eq_false_iff, List.any_eq_false, List.any_eq_false] at h
  refine ⟨fun i hi => ?_, fun i hi => ?_⟩
  · exact Bool.eq_false_iff.mpr (h.1 i (List.mem_range.mpr hi))
  · exact Bool.eq_false_iff.mpr (h.2 i (List.mem_range.mpr hi))

theorem strings.overlap_comm (a b : String) : strings.overlap a b = strings.overlap b a := by
  unfold strings.overlap
  exact Bool.or_comm _ _

theorem String.toList_ne_nil {k : String} (hk : k ≠ "") : k.toList ≠ [] := by
  intro h
  apply hk
  exact String.ext h

/-- One step of the loop of `replaceWithMap`. -/
theorem replaceWithMap_eq_foldl (m : List (String × String)) :
    ∀ str : String,
      replaceWithMap str m =
        m.foldl (fun acc e => if e.1 != "" then strings.ReplaceAll acc e.1 e.2 else acc) str := by
  induction m with
  | nil => intro str; rfl
  | cons e m ih =>
    intro str
    obtain ⟨k, v⟩ := e
    rw [replaceWithMap, List.foldl_cons]
    split <;> exact ih _

/-- The replacements of two entries commute when neither key is empty and
neither key overlaps the key or the value of the other entry. -/
theorem strings.ReplaceAll_comm (str k1 v1 k2 v2 : String) (h1 : k1 ≠ "") (h2 : k2 ≠ "")
    (hk : strings.overlap k1 k2 = false) (hv1 : strings.overlap v1 k2 = false)
    (hv2 : strings.overlap v2 k1 = false) :
    strings.ReplaceAll (strings.ReplaceAll str k1 v1) k2 v2 =
      strings.ReplaceAll (strings.ReplaceAll str k2 v2) k1 v1 := by
  by_cases e1 : k1 = v1
  · simp [strings.ReplaceAll, e1]
  · by_cases e2 : k2 = v2
    · simp [strings.ReplaceAll, e2]
    · obtain ⟨hk12, hk21⟩ := strings.overlap_eq_false hk
      obtain ⟨hv12, hkv21⟩ := strings.overlap_eq_false hv1
      obtain ⟨hv21, hkv12⟩ := strings.overlap_eq_false hv2
      unfold strings.ReplaceAll
      rw [if_neg e1, if_neg h1, if_neg e2, if_neg h2, if_neg e2, if_neg h2, if_neg e1, if_neg h1]
      congr 1
      exact strings.replaceFrom_comm k1.toList v1.toList k2.toList v2.toList
        (String.toList_ne_nil h1) (String.toList_ne_nil h2) hk12 hk21 hv12 hv21 hkv12 hkv21 _ _
        (le_refl _)

/-- The result of `replaceWithMap` is the same for every order of the entries
when no key overlaps the key or the value of another entry. -/
theorem replaceWithMap_perm (m1 m2 : List (String × String)) (hperm : m1.Perm m2)
    (hapart : ∀ e ∈ m1, ∀ e' ∈ m1, e ≠ e' → e.1 ≠ "" → e'.1 ≠ "" →
      strings.overlap e.1 e'.1 = false ∧ strings.overlap e.2 e'.1 = false)
    (str : String) : replaceWithMap str m1 = replaceWithMap str m2 := by
  rw [replaceWithMap_eq_foldl, replaceWithMap_eq_foldl]
  refine List.Perm.foldl_eq' hperm ?_ str
  intro x hx y hy z
  by_cases hxy : x = y
  · rw [hxy]
  · by_cases h1 : x.1 = ""
    · simp [h1]
    · by_cases h2 : y.1 = ""
      · simp [h2]
      · have hb1 : (x.1 != "") = true := by simpa using h1
        have hb2 : (y.1 != "") = true := by simpa using h2
        simp only [hb1, hb2, if_true]
        obtain ⟨hk, hv1⟩ := hapart x hx y hy hxy h1 h2
        obtain ⟨_, hv2⟩ := hapart y hy x hx (Ne.symm hxy) h2 h1
        exact strings.ReplaceAll_comm z x.1 x.2 y.1 y.2 h1 h2 hk hv1 hv2

/-- An occurrence of the key of an entry between two texts in which no key can
begin is replaced by the value of the entry. -/
theorem replaceWithMap_isolated (m : List (String × String)) (hnodup : m.Nodup)
    (hapart : ∀ e ∈ m, ∀ e' ∈ m, e ≠ e' → e.1 ≠ "" → e'.1 ≠ "" →
      strings.overlap e.1 e'.1 = false ∧ strings.overlap e.2 e'.1 = false)
    (k v a b : String) (hmem : (k, v) ∈ m) (hk : k ≠ "")
    (ha : ∀ e ∈ m, e.1 ≠ "" → ∀ i, i < a.length → strings.fitsAt a.toList e.1.toList i = false)
    (hb : ∀ e ∈ m, e.1 ≠ "" → ∀ i, i < b.length → strings.fitsAt b.toList e.1.toList i = false) :
    replaceWithMap (a ++ k ++ b) m = a ++ v ++ b := by
  have hone : strings.ReplaceAll (a ++ k ++ b) k v = a ++ v ++ b := by
    unfold strings.ReplaceAll
    by_cases e : k = v
    · rw [if_pos e, e]
    · rw [if_neg e, if_neg hk]
      apply String.ext
      have hkb : ¬ k.toList <:+: b.toList := by
        intro hin
        have := strings.infix_of_pass k.toList b.toList [] (hb (k, v) hmem hk)
          (by simpa using hin)
        exact String.toList_ne_nil hk (List.eq_nil_of_infix_nil this)
      show strings.replaceFrom k.toList v.toList 0 (a ++ k ++ b).toList = (a ++ v ++ b).toList
      simp only [String.toList, String.data_append, List.append_assoc]
      rw [strings.replaceFrom_pass k.data v.data a.data _ (ha (k, v) hmem hk),
        strings.replaceFrom_match k.data v.data _ (String.toList_ne_nil hk),
        strings.replaceFrom_of_not_infix k.data v.data b.data hkb]
  obtain ⟨l1, l2, hsplit⟩ := List.append_of_mem hmem
  have hperm : m.Perm ((k, v) :: (l1 ++ l2)) := by
    rw [hsplit]
    exact List.perm_middle
  have hnot : (k, v) ∉ l1 ++ l2 := by
    rw [hsplit, List.nodup_middle] at hnodup
    exact (List.nodup_cons.mp hnodup).1
  rw [replaceWithMap_perm m ((k, v) :: (l1 ++ l2)) hperm hapart, replaceWithMap]
  have hkb : (k != "") = true := by simpa using hk
  rw [if_pos hkb, hone]
  apply replaceWithMap_unchanged
  intro e he hek hin
  have hem : e ∈ m := hperm.mem_iff.mpr (List.mem_cons_of_mem _ he)
  have hne : (k, v) ≠ e := fun h => hnot (h ▸ he)
  obtain ⟨_, hv⟩ := hapart (k, v) hmem e hem hne hk hek
  have hin' : e.1.toList <:+: a.toList ++ (v.toList ++ (b.toList ++ [])) := by
    simpa [String.toList, String.data_append, List.append_assoc] using hin
  have h1 := strings.infix_of_pass e.1.toList a.toList _ (ha e hem hek) hin'
  have h2 := strings.infix_of_pass e.1.toList v.toList _ (strings.overlap_eq_false hv).1 h1
  have h3 := strings.infix_of_pass e.1.toList b.toList _ (hb e hem hek) h2
  exact String.toList_ne_nil hek (List.eq_nil_of_infix_nil h3)

/-- C25, as the code has it: for a map in which no key overlaps the key or
the value of another entry (two texts overlap when a non-empty end of one is a
beginning of the other or one lies inside the other, the empty text lying
inside every other), `replaceWithMap` gives the same result in whatever order
the entries are visited, and an occurrence of a key between two texts in which
no key of the map can begin is replaced by its value; and for every map,
entries with an empty key are ignored, and the string is returned unchanged
when no non-empty key of the map occurs in it. -/
theorem replaceWithMap_order_independent (str : String) (m visited : List (String × String))
    (horder : visited.Perm m) :
    ((∀ e ∈ m, ∀ e' ∈ m, e ≠ e' → e.1 ≠ "" → e'.1 ≠ "" →
        strings.overlap e.1 e'.1 = false ∧ strings.overlap e.2 e'.1 = false) →
      replaceWithMap str visited = replaceWithMap str m ∧
      ∀ k v a b : String, m.Nodup → (k, v) ∈ m → k ≠ "" →
        (∀ e ∈ m, e.1 ≠ "" → ∀ i, i < a.length →
          strings.fitsAt a.toList e.1.toList i = false) →
        (∀ e ∈ m, e.1 ≠ "" → ∀ i, i < b.length →
          strings.fitsAt b.toList e.1.toList i = false) →
        replaceWithMap (a ++ k ++ b) visited = a ++ v ++ b) ∧
    replaceWithMap str visited =
        replaceWithMap str (visited.filter fun kv => kv.1 != "") ∧
      ((∀ kv ∈ m, kv.1 ≠ "" → ¬ kv.1.toList <:+: str.toList) →
        replaceWithMap str visited = str) := by
  refine ⟨fun hapart => ?_, replaceWithMap_filter visited str, fun hno => ?_⟩
  · have hapart' : ∀ e ∈ visited, ∀ e' ∈ visited, e ≠ e' → e.1 ≠ "" → e'.1 ≠ "" →
        strings.overlap e.1 e'.1 = false ∧ strings.overlap e.2 e'.1 = false :=
      fun e he e' he' => hapart e (horder.mem_iff.mp he) e' (horder.mem_iff.mp he')
    refine ⟨replaceWithMap_perm visited m horder hapart' str, ?_⟩
    intro k v a b hnodup hmem hk ha hb
    rw [replaceWithMap_perm visited m horder hapart']
    exact replaceWithMap_isolated m hnodup hapart k v a b hmem hk ha hb
  · exact replaceWithMap_unchanged str visited (fun kv hkv => hno kv (horder.mem_iff.mp hkv))

end ReplaceOrder

/-- C25, refuted as worded: in each of three maps no value contains a key, and
two orders of the entries give different results. In the first, with the
entries `a` to `x` and `ab` to `y`, one key lies inside the other. In the
second, with `X` to `a` and `ab` to `z`, the keys do not overlap, and the value
`a` is a beginning of the key `ab`. In the third, with `X` to the empty text
and `ab` to `z`, the keys do not overlap, and the removal of `X` joins the text
around it into the key `ab`. -/
theorem replaceWithMap_depends_on_order :
    ((∀ kv ∈ [("a", "x"), ("ab", "y")], ∀ kv2 ∈ [("a", "x"), ("ab", "y")],
        ¬ (kv2.1 : String).toList <:+: (kv.2 : String).toList) ∧
      [("ab", "y"), ("a", "x")].Perm [("a", "x"), ("ab", "y")] ∧
      replaceWithMap "ab" [("a", "x"), ("ab", "y")] = "xb" ∧
      replaceWithMap "ab" [("ab", "y"), ("a", "x")] = "y") ∧
    ((∀ kv ∈ [("X", "a"), ("ab", "z")], ∀ kv2 ∈ [("X", "a"), ("ab", "z")],
        ¬ (kv2.1 : String).toList <:+: (kv.2 : String).toList) ∧
      strings.overlap "X" "ab" = false ∧
      [("ab", "z"), ("X", "a")].Perm [("X", "a"), ("ab", "z")] ∧
      replaceWithMap "Xb" [("X", "a"), ("ab", "z")] = "z" ∧
      replaceWithMap "Xb" [("ab", "z"), ("X", "a")] = "ab") ∧
    ((∀ kv ∈ [("X", ""), ("ab", "z")], ∀ kv2 ∈ [("X", ""), ("ab", "z")],
        ¬ (kv2.1 : String).toList <:+: (kv.2 : String).toList) ∧
      strings.overlap "X" "ab" = false ∧
      [("ab", "z"), ("X", "")].Perm [("X", ""), ("ab", "z")] ∧
      replaceWithMap "aXb" [("X", ""), ("ab", "z")] = "z" ∧
      replaceWithMap "aXb" [("ab", "z"), ("X", "")] = "ab") := by
  refine ⟨⟨by decide, by decide, by decide, by decide⟩,
    ⟨by decide, by decide, by decide, by decide, by decide⟩,
    ⟨by decide, by decide, by decide, by decide, by decide⟩⟩

/-- C25, on a map with the keys `$pvc` and `$ns` and an empty key, visited in
two orders: no key overlaps the key or the value of another entry, both orders
give the same result, the key `$pvc` between `pv-` and `-end` is replaced by
its value, the entry with the empty key is skipped, and a string without the
keys is returned as it is. -/
theorem replaceWithMap_order_independent_witness :
    [("$ns", "default"), ("", "z"), ("$pvc", "claim")].Perm
        [("$pvc", "claim"), ("", "z"), ("$ns", "default")] ∧
      (replaceWithMap "pv-$pvc-$ns" [("$ns", "default"), ("", "z"), ("$pvc", "claim")] =
          replaceWithMap "pv-$pvc-$ns" [("$pvc", "claim"), ("", "z"), ("$ns", "default")] ∧
        replaceWithMap ("pv-" ++ "$pvc" ++ "-end")
            [("$ns", "default"), ("", "z"), ("$pvc", "claim")] = "pv-" ++ "claim" ++ "-end") ∧
      replaceWithMap "pv-$pvc-$ns" [("$ns", "default"), ("", "z"), ("$pvc", "claim")] =
        "pv-claim-default" ∧
      replaceWithMap "data" [("$ns", "default"), ("", "z"), ("$pvc", "claim")] = "data" :=
  ⟨by decide,
    ⟨((replaceWithMap_order_independent "pv-$pvc-$ns"
        [("$pvc", "claim"), ("", "z"), ("$ns", "default")]
        [("$ns", "default"), ("", "z"), ("$pvc", "claim")] (by decide)).1 (by decide)).1,
      ((replaceWithMap_order_independent "pv-$pvc-$ns"
        [("$pvc", "claim"), ("", "z"), ("$ns", "default")]
        [("$ns", "default"), ("", "z"), ("$pvc", "claim")] (by decide)).1 (by decide)).2
        "$pvc" "claim" "pv-" "-end" (by decide) (by decide) (by decide) (by decide) (by decide)⟩,
    by decide,
    (replaceWithMap_order_independent "data"
      [("$pvc", "claim"), ("", "z"), ("$ns", "default")]
      [("$ns", "default"), ("", "z"), ("$pvc", "claim")] (by decide)).2.2 (by decide)⟩

/-! ## The volume id codec -/

theorem splitChars_no_sep (sep : Char) :
    ∀ a : List Char, sep ∉ a → splitChars sep a = [a] := by
  intro a
  induction a with
  | nil => intro _; rfl
  | cons c a ih =>
    intro hc
    have hne : c ≠ sep := fun h => hc (by simp [h])
    have ha : sep ∉ a := fun h => hc (List.mem_cons_of_mem _ h)
    simp [splitChars, hne, ih ha]

theorem splitChars_append_sep (sep : Char) (rest : List Char) :
    ∀ a : List Char, sep ∉ a → splitChars sep (a ++ sep :: rest) = a :: splitChars sep rest := by
  intro a
  induction a with
  | nil => intro _; simp [splitChars]
  | cons c a ih =>
    intro hc
    have hne : c ≠ sep := fun h => hc (by simp [h])
    have ha : sep ∉ a := fun h => hc (List.mem_cons_of_mem _ h)
    simp [splitChars, hne, ih ha]

theorem head?_dropWhile_slash (l : List Char) :
    (l.dropWhile fun c => c = '/').head? ≠ some '/' := by
  induction l with
  | nil => simp
  | cons c l ih =>
    by_cases hc : c = '/'
    · simpa [List.dropWhile, hc] using ih
    · simp [List.dropWhile, hc]

theorem mem_dropWhile {α : Type} (p : α → Bool) (a : α) :
    ∀ l : List α, a ∈ l.dropWhile p → a ∈ l := by
  intro l
  induction l with
  | nil => simp
  | cons c l ih =>
    intro h
    rw [List.dropWhile] at h
    split at h
    · exact List.mem_cons_of_mem _ (ih h)
    · exact h

theorem not_hasPrefix_slashes (first : String) (h : first.toList.head? ≠ some '/') :
    strings.HasPrefix first "//" = false := by
  unfold strings.HasPrefix
  cases hl : first.toList with
  | nil => rfl
  | cons c cs =>
    rw [hl] at h
    have hc : c ≠ '/' := by simpa using h
    have : "//".toList = ['/', '/'] := rfl
    rw [this]
    simp [List.isPrefixOf, Ne.symm hc]

/-- C26, as the codec of spec section 4.1 has it: for every source, subDir and
uuid containing no `#`, decoding the encoded id succeeds and gives back subDir
and uuid, and as source the given one with its leading slashes replaced by
`//`; so the three fields come back exactly when the source is `//` followed
by a string that does not begin with a slash. -/
theorem codec_roundtrip [GoToolchain] (source subDir uuid rest : String)
    (h1 : '#' ∉ source.toList) (h2 : '#' ∉ subDir.toList) (h3 : '#' ∉ uuid.toList) :
    getZramVolFromID (getVolumeIDFromZramVol { source := source, subDir := subDir, uuid := uuid }) =
        .ok { source := "//" ++ String.mk (source.toList.dropWhile fun c => c = '/'),
              subDir := subDir, uuid := uuid } ∧
      (source = "//" ++ rest → rest.toList.head? ≠ some '/' →
        getZramVolFromID
            (getVolumeIDFromZramVol { source := source, subDir := subDir, uuid := uuid }) =
          .ok { source := source, subDir := subDir, uuid := uuid }) := by
  have hs : '#' ∉ source.toList.dropWhile fun c => c = '/' :=
    fun h => h1 (mem_dropWhile _ _ _ h)
  have hsplit : strings.Split
      (getVolumeIDFromZramVol { source := source, subDir := subDir, uuid := uuid }) '#' =
      [String.mk (source.toList.dropWhile fun c => c = '/'), subDir, uuid] := by
    unfold strings.Split getVolumeIDFromZramVol
    have hl : (strings.Join
        [String.mk (source.toList.dropWhile fun c => c = '/'), subDir, uuid] "#").toList =
        (source.toList.dropWhile fun c => c = '/') ++ '#' :: (subDir.toList ++ '#' :: uuid.toList) := by
      simp [strings.Join, String.toList, String.data_append]
    rw [hl, splitChars_append_sep _ _ _ hs, splitChars_append_sep _ _ _ h2,
      splitChars_no_sep _ _ h3]
    rfl
  have hfirst : strings.HasPrefix (String.mk (source.toList.dropWhile fun c => c = '/')) "//" =
      false := not_hasPrefix_slashes _ (head?_dropWhile_slash _)
  have hmain : getZramVolFromID
      (getVolumeIDFromZramVol { source := source, subDir := subDir, uuid := uuid }) =
      .ok { source := "//" ++ String.mk (source.toList.dropWhile fun c => c = '/'),
            subDir := subDir, uuid := uuid } := by
    have hfirst2 : strings.HasPrefix
        { data := List.dropWhile (fun c => decide (c = '/')) source.data } "//" = false := hfirst
    unfold getZramVolFromID
    rw [hsplit]
    simp [hfirst2, strings.Join]
  refine ⟨hmain, ?_⟩
  intro hsrc hrest
  rw [hmain]
  have hstrip : String.mk (source.toList.dropWhile fun c => c = '/') = rest := by
    subst hsrc
    apply String.ext
    have hd : ("//" ++ rest).toList = '/' :: '/' :: rest.toList := by
      simp [String.toList, String.data_append]
    rw [hd]
    cases hr : rest.toList with
    | nil => simp [List.dropWhile, String.toList] at hr ⊢; simp [hr]
    | cons c cs =>
      rw [hr] at hrest
      have hc : c ≠ '/' := by simpa using hrest
      have : rest.data = c :: cs := hr
      simp [List.dropWhile, hc, this]
  rw [hstrip, hsrc]

/-- C26, refuted as worded: the source `srv/share`, with no `#` in any field,
comes back from decode after encode as `//srv/share`. -/
theorem codec_roundtrip_changes_source :
    '#' ∉ "srv/share".toList ∧ '#' ∉ "sub".toList ∧ '#' ∉ "uuid".toList ∧
      getVolumeIDFromZramVol { source := "srv/share", subDir := "sub", uuid := "uuid" } =
        "srv/share#sub#uuid" ∧
      getZramVolFromID
          (getVolumeIDFromZramVol { source := "srv/share", subDir := "sub", uuid := "uuid" }) =
        .ok { source := "//srv/share", subDir := "sub", uuid := "uuid" } ∧
      (Except.ok { source := "//srv/share", subDir := "sub", uuid := "uuid" } :
          Except GoError zramVolume) ≠
        .ok { source := "srv/share", subDir := "sub", uuid := "uuid" } := by
  refine ⟨by decide, by decide, by decide, by decide, rfl, ?_⟩
  intro h
  injection h with h
  injection h with h
  revert h
  decide

/-- C26, on the identity of the tests: source `//zram-server/share`, subDir
`subdir`, and an empty uuid are encoded as `zram-server/share#subdir#` and come
back exactly. -/
theorem codec_roundtrip_witness :
    getVolumeIDFromZramVol { source := "//zram-server/share", subDir := "subdir", uuid := "" } =
        "zram-server/share#subdir#" ∧
      getZramVolFromID
          (getVolumeIDFromZramVol
            { source := "//zram-server/share", subDir := "subdir", uuid := "" }) =
        .ok { source := "//zram-server/share", subDir := "subdir", uuid := "" } :=
  ⟨by decide,
    (codec_roundtrip "//zram-server/share" "subdir" "" "zram-server/share"
      (by decide) (by decide) (by decide)).2 (by decide) (by decide)⟩

/-! ## A second stage after a dropped format error -/

/-- C10, evaluated: on a node where format-and-mount fails, a first
`NodeStageVolume` answers with success although nothing is mounted at `/mnt/x`
(the dropped error of C1); the second call of the same request then finds the
staging path not mounted, so it does not short-circuit: it reads the capacity,
allocates a second device, resets and sizes it and calls format-and-mount
again, and answers with success again, leaving two devices allocated and
nothing mounted. -/
theorem NodeStageVolume_second_stage_formats_again :
    NodeStageVolume simHost simDriver stageReq newVolumeLocks Sim.formatBroken =
        ((Outcome.ok {}, newVolumeLocks), Sim.formatBrokenSized,
          [Event.MkdirAll "/mnt/x" 0o750 none,
            Event.IsLikelyNotMountPoint "/mnt/x" true none,
            Event.List [] none,
            Event.Abs "/mnt/x" "/mnt/x" none,
            Event.MkdirAll "/mnt/x" 0o755 none,
            Event.ReadFile "/sys/class/zram-control/hot_add" "0\n" none,
            Event.OpenFile "/sys/block/zram0/reset" none,
            Event.WriteString "/sys/block/zram0/reset" "1" none,
            Event.Close "/sys/block/zram0/reset" none,
            Event.OpenFile "/sys/block/zram0/disksize" none,
            Event.WriteString "/sys/block/zram0/disksize" "1048576" none,
            Event.Close "/sys/block/zram0/disksize" none,
            Event.IsLikelyNotMountPoint "/mnt/x" true none,
            Event.MkdirAll "/mnt/x" 0o750 none,
            Event.FormatAndMount "/dev/zram0" "/mnt/x" "ext4" []
              (some (Sim.mkfsFailed "/dev/zram0"))]) ∧
      Go.result (ensureMountPoint simHost simDriver "/mnt/x" Sim.formatBrokenSized) =
        (false, none) ∧
      NodeStageVolume simHost simDriver stageReq newVolumeLocks Sim.formatBrokenSized =
        ((Outcome.ok {}, newVolumeLocks),
          { Sim.formatBrokenSized with devices := [0, 1], nextId := 2 },
          [Event.MkdirAll "/mnt/x" 0o750 none,
            Event.IsLikelyNotMountPoint "/mnt/x" true none,
            Event.List [] none,
            Event.Abs "/mnt/x" "/mnt/x" none,
            Event.MkdirAll "/mnt/x" 0o755 none,
            Event.ReadFile "/sys/class/zram-control/hot_add" "1\n" none,
            Event.OpenFile "/sys/block/zram1/reset" none,
            Event.WriteString "/sys/block/zram1/reset" "1" none,
            Event.Close "/sys/block/zram1/reset" none,
            Event.OpenFile "/sys/block/zram1/disksize" none,
            Event.WriteString "/sys/block/zram1/disksize" "1048576" none,
            Event.Close "/sys/block/zram1/disksize" none,
            Event.IsLikelyNotMountPoint "/mnt/x" true none,
            Event.MkdirAll "/mnt/x" 0o750 none,
            Event.FormatAndMount "/dev/zram1" "/mnt/x" "ext4" []
              (some (Sim.mkfsFailed "/dev/zram1"))]) ∧
      (∃ ev ∈ Go.events (NodeStageVolume simHost simDriver stageReq newVolumeLocks
        Sim.formatBrokenSized), ev.provisions = true) := by
  decide

/-! ## Quoted paths -/

/-- In the quoted form of a path the no-break space U+00A0, which is not
printable, is written as an escape, and so is the delete character, in the
form the toolchain has for it. -/
theorem strconv.Quote_escapes [GoToolchain] :
    strconv.Quote "/pod/a b" = "\"/pod/a\\u00a0b\"" ∧
      strconv.Quote "a\"\\\n\x7f" =
        (if GoToolchain.delAsHex then "\"a\\\"\\\\\\n\\x7f\"" else "\"a\\\"\\\\\\n\\u007f\"") := by
  constructor
  · rfl
  · cases h : GoToolchain.delAsHex <;> simp [strconv.Quote, quoteChar, strconv.IsPrint, h] <;> decide

end Zram
